import Mathlib

/-!
# JOS lab: kernel monitor page-mapping commands and user-level copy-on-write fork

A shallow embedding of `kern/monitor.c` and `lib/fork.c`.  Machine words are
natural numbers reduced modulo `2 ^ 32` wherever the C code can wrap; the
console is a list of structured output events; functions that can `panic`
return an `Outcome`.
-/

namespace JOS

/-! ## Constants and macros of the x86 paging headers -/

/-- Modelled from the spec: the header `inc/mmu.h` is not among the sources;
the page size is the 4 KiB page of the 32-bit x86 paging format. -/
def PGSIZE : Nat := 4096

/-- Modelled from the spec: the header `inc/mmu.h` is not among the sources;
the Present flag is bit 0 of a page-table entry. -/
def PTE_P : Nat := 0x001

/-- Modelled from the spec: the header `inc/mmu.h` is not among the sources;
the Writable flag is bit 1 of a page-table entry. -/
def PTE_W : Nat := 0x002

/-- Modelled from the spec: the header `inc/mmu.h` is not among the sources;
the UserAccessible flag is bit 2 of a page-table entry. -/
def PTE_U : Nat := 0x004

/-- Modelled from the spec: the header `inc/mmu.h` is not among the sources;
the LargePage flag is bit 7 of a page-table entry. -/
def PTE_PS : Nat := 0x080

/-- Modelled from the spec: the header `inc/mmu.h` is not among the sources;
the three bits 9..11 of an entry are left to software. -/
def PTE_AVAIL : Nat := 0xE00

/-- Modelled from the spec: the header `inc/lib.h` is not among the sources;
the Shared flag is the software bit 10. -/
def PTE_SHARE : Nat := 0x400

/-- The copy-on-write marker, `#define PTE_COW 0x800` in `lib/fork.c`. -/
def PTE_COW : Nat := 0x800

/-- Modelled from the spec: the header `inc/mmu.h` is not among the sources;
the whitelist of bits a system call may set:
`PTE_AVAIL | PTE_P | PTE_W | PTE_U`. -/
def PTE_SYSCALL : Nat := PTE_AVAIL ||| PTE_P ||| PTE_W ||| PTE_U

/-- The size of the 32-bit address space, `2 ^ 32`. -/
def WORD : Nat := 4294967296

/-- The value a C `long` or `int` has after conversion to a 32-bit unsigned
word (its two's-complement bit pattern). -/
def toU32 (v : Int) : Nat := (v % 4294967296).toNat

/-- The 32-bit bitwise complement `~x`. -/
def not32 (x : Nat) : Nat := 0xFFFFFFFF ^^^ x

/-- Modelled from the spec: the header `inc/mmu.h` is not among the sources;
`PTE_ADDR(pte)` is `pte & ~0xFFF`, the frame address of an entry. -/
def PTE_ADDR (pte : Nat) : Nat := pte &&& 0xFFFFF000

/-- Modelled from the spec: the header `inc/mmu.h` is not among the sources;
`PGNUM(la)` is `la >> 12`, the page number of an address. -/
def PGNUM (la : Nat) : Nat := la >>> 12

/-- Modelled from the spec: the header `inc/types.h` is not among the sources;
`ROUNDDOWN(a, n)` is `a - a % n` on 32-bit unsigned words. -/
def ROUNDDOWN (a n : Nat) : Nat := a - a % n

/-- Modelled from the spec: the header `inc/types.h` is not among the sources;
`ROUNDUP(a, n)` is `ROUNDDOWN(a + n - 1, n)`, the sum taken on 32-bit
unsigned words (it wraps past the top of the address space). -/
def ROUNDUP (a n : Nat) : Nat := ROUNDDOWN ((a + n - 1) % WORD) n

/-! ## The kernel page table and the console -/

/-- Modelled from the spec: `pgdir_walk` of `kern/pmap.c` is not among the
sources.  The kernel page table is the lookup of §4.1 with `createIfAbsent`
false: for a page number it is either absent (`none`, the walk returns a null
pointer and allocates nothing) or the entry of that page. -/
abbrev PageTable := Nat → Option Nat

/-- Modelled from the spec: `pgdir_walk(kern_pgdir, va, 0)` of `kern/pmap.c`
is not among the sources; it looks the entry of the page of `va` up and never
creates one. -/
def pgdir_walk (pgdir : PageTable) (va : Nat) : Option Nat := pgdir (PGNUM va)

/-- The store `*pte = v` through the pointer the walk returned for `va`. -/
def pte_store (pgdir : PageTable) (va v : Nat) : PageTable :=
  fun pn => if pn = PGNUM va then some v else pgdir pn

/-- The symbol information `debuginfo_eip` fills in. -/
structure Eipdebuginfo where
  eip_file : String
  eip_line : Nat
  eip_fn_name : String
  eip_fn_namelen : Nat
  eip_fn_addr : Nat
deriving DecidableEq, Repr

/-- One `cprintf` call of the monitor, with the values it formats. -/
inductive Out where
  | helpLine (name desc : String)
  | kerninfo
  | backtraceHeader
  | stackFrame (ebp eip a0 a1 a2 a3 a4 : Nat)
  | debugLine (file : String) (line namelen : Nat) (fn : String) (off : Nat)
  | requiresTwoAddresses
  | requiresAddressAndPermission
  | invalidAddress (arg : String)
  | invalidPermission (arg : String)
  | showHeader (a1 a2 : String)
  | notMapped (va : Nat)
  | mapped (va frame : Nat) (ps u w : Bool)
  | changeNotMapped (va : Nat)
  | changeMapped (va frame : Nat)
  | permBefore (ps u w : Bool)
  | permAfter (ps u w : Bool)
  | tooManyArguments
  | unknownCommand (arg : String)
  | welcome
deriving DecidableEq, Repr

/-- The kernel state the monitor commands read and write. -/
structure Kern where
  pgdir : PageTable
  mem : Nat → Nat
  ebp : Nat
  out : List Out

/-- The collaborators of the monitor that live outside `kern/monitor.c`:
`strtol(s, &end, 16)` gives the value (a C `long`) and the unparsed rest of
`s`; `debuginfo_eip` gives the symbol information of a return address, or
nothing when it returns a negative value. -/
structure Ext where
  strtol : String → Int × String
  debuginfo_eip : Nat → Option Eipdebuginfo

/-- Append one console event. -/
def cprintf (k : Kern) (o : Out) : Kern := { k with out := k.out ++ [o] }

/-- The C test `x & flag` of a flag in an entry. -/
def flagSet (x flag : Nat) : Bool := x &&& flag != 0

/-! ## `mon_changeperm` -/

/-- The mode `#define PERM_SET 0`. -/
def PERM_SET : Int := 0

/-- The mode `#define PERM_ADD 1`. -/
def PERM_ADD : Int := 1

/-- The mode `#define PERM_RM 2`. -/
def PERM_RM : Int := 2

/-- The permission word of lines 174-180: the low twelve bits of the entry,
replaced, or-ed or and-not-ed with the masked request according to `type`. -/
def real_perm (pte perm : Nat) (type : Int) : Nat :=
  let rp := pte &&& 0xFFF
  if type = PERM_SET then perm
  else if type = PERM_ADD then rp ||| perm
  else if type = PERM_RM then rp &&& not32 perm
  else rp

/-- The entry line 181 writes back: `PTE_ADDR(*pte) | real_perm | PTE_P`. -/
def changed_pte (pte perm : Nat) (type : Int) : Nat :=
  PTE_ADDR pte ||| real_perm pte perm type ||| PTE_P

/-- The body of `mon_changeperm` from line 161 on, for a parsed address and
permission. -/
def changeperm_core (k : Kern) (addr0 perm0 : Nat) (type : Int) : Int × Kern :=
  let addr := ROUNDDOWN addr0 PGSIZE
  let perm := perm0 &&& (PTE_PS ||| PTE_W ||| PTE_U)
  match pgdir_walk k.pgdir addr with
  | none => (-1, cprintf k (.changeNotMapped addr))
  | some pte =>
    if !(flagSet pte PTE_P) then (-1, cprintf k (.changeNotMapped addr))
    else
      let k1 := cprintf k (.changeMapped addr (PTE_ADDR pte))
      let k2 := cprintf k1
        (.permBefore (flagSet pte PTE_PS) (flagSet pte PTE_U) (flagSet pte PTE_W))
      let new := changed_pte pte perm type
      let k3 := { k2 with pgdir := pte_store k2.pgdir addr new }
      (0, cprintf k3
        (.permAfter (flagSet new PTE_PS) (flagSet new PTE_U) (flagSet new PTE_W)))

/-- The function `mon_changeperm(argc, argv, tf, type)`; `argv` holds the
`argc` arguments. -/
def mon_changeperm (x : Ext) (argv : List String) (k : Kern) (type : Int) :
    Int × Kern :=
  if argv.length ≠ 3 then (-1, cprintf k .requiresAddressAndPermission)
  else
    let a1 := argv.getD 1 ""
    let a2 := argv.getD 2 ""
    let (v1, e1) := x.strtol a1
    if e1 ≠ "" then (-1, cprintf k (.invalidAddress a1))
    else
      let (v2, e2) := x.strtol a2
      if e2 ≠ "" then (-1, cprintf k (.invalidPermission a2))
      else changeperm_core k (toU32 v1) (toU32 v2) type

/-- The command `mon_setperm`: `mon_changeperm` with `PERM_SET`. -/
def mon_setperm (x : Ext) (argv : List String) (k : Kern) : Int × Kern :=
  mon_changeperm x argv k PERM_SET

/-- The command `mon_addperm`: `mon_changeperm` with `PERM_ADD`. -/
def mon_addperm (x : Ext) (argv : List String) (k : Kern) : Int × Kern :=
  mon_changeperm x argv k PERM_ADD

/-- The command `mon_rmperm`: `mon_changeperm` with `PERM_RM`. -/
def mon_rmperm (x : Ext) (argv : List String) (k : Kern) : Int × Kern :=
  mon_changeperm x argv k PERM_RM

/-- The three modes of the permission edit of §4.4. -/
inductive Mode where
  | set
  | add
  | remove
deriving DecidableEq, Repr

/-- The `type` argument `mon_setperm`, `mon_addperm` and `mon_rmperm` pass. -/
def Mode.code : Mode → Int
  | .set => PERM_SET
  | .add => PERM_ADD
  | .remove => PERM_RM

/-- The entry the spec of §4.4 asks for, in the spec's words: the request is
masked to the whitelist, Set replaces the low permission bits, Add is a
bitwise or, Remove a bitwise and-not, and the frame and Present are kept. -/
def spec_changePermission (e r : Nat) (mode : Mode) : Nat :=
  let m := r &&& (PTE_PS ||| PTE_W ||| PTE_U)
  let low12 := e % 4096
  match mode with
  | .set => PTE_ADDR e ||| m ||| PTE_P
  | .add => PTE_ADDR e ||| (low12 ||| m) ||| PTE_P
  | .remove => PTE_ADDR e ||| Nat.ldiff low12 m ||| PTE_P

/-! ## `mon_help`, `mon_kerninfo`, `mon_backtrace` -/

/-- The names and descriptions of the `commands` table, in table order. -/
def command_descs : List (String × String) :=
  [("help", "Display this list of commands"),
   ("kerninfo", "Display information about the kernel"),
   ("backtrace", "Display a backtrace information about the stack"),
   ("showmappings", "Display a map information in given range"),
   ("setperm", "Set a page's permission"),
   ("addperm", "Add a page's permission"),
   ("rmperm", "Remove a page's permission")]

/-- The command `mon_help`: one line per entry of the table. -/
def mon_help (k : Kern) : Int × Kern :=
  (0, { k with out := k.out ++ command_descs.map (fun c => Out.helpLine c.1 c.2) })

/-- The command `mon_kerninfo`: the linker symbols it prints are outside this
model, so its whole output is one event. -/
def mon_kerninfo (k : Kern) : Int × Kern := (0, cprintf k .kerninfo)

/-- The 32-bit word `ebp[i]`. -/
def frameWord (mem : Nat → Nat) (ebp i : Nat) : Nat := mem ((ebp + 4 * i) % WORD)

/-- The `while (ebp)` loop of `mon_backtrace`; `fuel` bounds the number of
frames walked, and running out of it gives `none`. -/
def backtrace_loop (x : Ext) (mem : Nat → Nat) : Nat → Nat → List Out → Option (List Out)
  | 0, ebp, out => if ebp = 0 then some out else none
  | fuel + 1, ebp, out =>
    if ebp = 0 then some out
    else
      let eip := frameWord mem ebp 1
      let out1 := out ++ [Out.stackFrame ebp eip (frameWord mem ebp 2)
        (frameWord mem ebp 3) (frameWord mem ebp 4) (frameWord mem ebp 5)
        (frameWord mem ebp 6)]
      let next := frameWord mem ebp 0
      let out2 :=
        match x.debuginfo_eip eip with
        | some info => out1 ++ [Out.debugLine info.eip_file info.eip_line
            info.eip_fn_namelen info.eip_fn_name
            ((eip + WORD - info.eip_fn_addr % WORD) % WORD)]
        | none => out1
      backtrace_loop x mem fuel next out2

/-- The command `mon_backtrace`: the walk starts at the frame pointer that
`read_ebp()` gives. -/
def mon_backtrace (x : Ext) (fuel : Nat) (k : Kern) : Option (Int × Kern) :=
  match backtrace_loop x k.mem fuel k.ebp (k.out ++ [Out.backtraceHeader]) with
  | some out => some (0, { k with out := out })
  | none => none

/-- The saved-frame-pointer links from `ebp` run through exactly the frames
listed, none of them null, and end in a null pointer. -/
def is_frame_chain (mem : Nat → Nat) : Nat → List Nat → Bool
  | ebp, [] => ebp == 0
  | ebp, b :: rest => ebp == b && b != 0 && is_frame_chain mem (frameWord mem b 0) rest

/-- The report §4.7 asks for one frame, in the spec's words: the frame pointer,
the return address read from offset 1 and the five argument words from offsets
2..6, followed by the source-location line when the symbol lookup of that
return address succeeds, and by nothing when it fails. -/
def spec_frame_report (x : Ext) (mem : Nat → Nat) (b : Nat) : List Out :=
  Out.stackFrame b (frameWord mem b 1) (frameWord mem b 2) (frameWord mem b 3)
      (frameWord mem b 4) (frameWord mem b 5) (frameWord mem b 6) ::
    match x.debuginfo_eip (frameWord mem b 1) with
    | some info => [Out.debugLine info.eip_file info.eip_line info.eip_fn_namelen
        info.eip_fn_name ((frameWord mem b 1 + WORD - info.eip_fn_addr % WORD) % WORD)]
    | none => []

/-- Whether a console event is a stack-frame line. -/
def Out.isStackFrame : Out → Bool
  | .stackFrame _ _ _ _ _ _ _ => true
  | _ => false

/-! ## `mon_showmappings` -/

/-- The body of the page loop (lines 124-134): the report for one page. -/
def showmappings_report (pgdir : PageTable) (cur_addr : Nat) : Out :=
  match pgdir_walk pgdir cur_addr with
  | none => .notMapped cur_addr
  | some pte =>
    if !(flagSet pte PTE_P) then .notMapped cur_addr
    else .mapped cur_addr (PTE_ADDR pte) (flagSet pte PTE_PS) (flagSet pte PTE_U)
      (flagSet pte PTE_W)

/-- The `for` loop of lines 119-135 from the current `cur_addr` on: the
reports it prints, and whether it has left the loop.  `fuel` bounds the number
of evaluations of the loop condition; when it runs out the loop is still
running and the reports are those printed so far. -/
def showmappings_loop (pgdir : PageTable) (start_addr end_addr : Nat) :
    Nat → Nat → List Out × Bool
  | 0, _ => ([], false)
  | fuel + 1, cur_addr =>
    if cur_addr ≤ end_addr ∧ cur_addr ≥ start_addr then
      let r := showmappings_loop pgdir start_addr end_addr fuel ((cur_addr + PGSIZE) % WORD)
      (showmappings_report pgdir cur_addr :: r.1, r.2)
    else ([], true)

/-- The page loop with its initialiser `cur_addr = ROUNDUP(start_addr, PGSIZE)`. -/
def showmappings_pages (pgdir : PageTable) (start_addr end_addr fuel : Nat) :
    List Out × Bool :=
  showmappings_loop pgdir start_addr end_addr fuel (ROUNDUP start_addr PGSIZE)

/-- The command `mon_showmappings(argc, argv, tf)`; `none` when the page loop
does not end within `fuel` steps. -/
def mon_showmappings (x : Ext) (fuel : Nat) (argv : List String) (k : Kern) :
    Option (Int × Kern) :=
  if argv.length ≠ 3 then some (-1, cprintf k .requiresTwoAddresses)
  else
    let a1 := argv.getD 1 ""
    let a2 := argv.getD 2 ""
    let (v1, e1) := x.strtol a1
    if e1 ≠ "" then some (-1, cprintf k (.invalidAddress a1))
    else
      let (v2, e2) := x.strtol a2
      if e2 ≠ "" then some (-1, cprintf k (.invalidAddress a2))
      else
        let k1 := cprintf k (.showHeader a1 a2)
        let r := showmappings_pages k.pgdir (toU32 v1) (toU32 v2) fuel
        if r.2 then some (0, { k1 with out := k1.out ++ r.1 }) else none

/-- The pages the spec of §4.3 asks to be reported for a range, in the spec's
words: the page-aligned addresses `a` with `roundUp(start) ≤ a ≤ end`, in
ascending order, each once (`roundUp` without wrap-around). -/
def spec_pages (start_addr end_addr : Nat) : List Nat :=
  (List.range (end_addr + 1)).filter
    (fun a => a % PGSIZE = 0 ∧ (start_addr + PGSIZE - 1) / PGSIZE * PGSIZE ≤ a)

/-! ## The command interpreter -/

/-- The bound `#define MAXARGS 16` on the argument vector of `runcmd`. -/
def MAXARGS : Nat := 16

/-- Membership in `WHITESPACE`, the string of tab, carriage return, newline
and blank. -/
def isWhitespace (c : Char) : Bool :=
  c = Char.ofNat 9 || c = Char.ofNat 13 || c = Char.ofNat 10 || c = Char.ofNat 32

/-- The argument-splitting loop of `runcmd`: `none` when a sixteenth argument
starts (the "Too many arguments" return), otherwise the arguments in order.
`fuel` is at least the number of arguments. -/
def parse_args : Nat → List Char → List String → Option (List String)
  | 0, _, argv => some argv
  | fuel + 1, buf, argv =>
    let buf1 := buf.dropWhile isWhitespace
    if buf1 = [] then some argv
    else if argv.length = MAXARGS - 1 then none
    else parse_args fuel (buf1.dropWhile (fun c => !(isWhitespace c)))
      (argv ++ [String.mk (buf1.takeWhile (fun c => !(isWhitespace c)))])

/-- The lookup in the `commands` table and the call of the entry found. -/
def dispatch (x : Ext) (fuel : Nat) (argv : List String) (k : Kern) :
    Option (Int × Kern) :=
  let name := argv.getD 0 ""
  if name = "help" then some (mon_help k)
  else if name = "kerninfo" then some (mon_kerninfo k)
  else if name = "backtrace" then mon_backtrace x fuel k
  else if name = "showmappings" then mon_showmappings x fuel argv k
  else if name = "setperm" then some (mon_setperm x argv k)
  else if name = "addperm" then some (mon_addperm x argv k)
  else if name = "rmperm" then some (mon_rmperm x argv k)
  else some (0, cprintf k (.unknownCommand name))

/-- The function `runcmd(buf, tf)`; `none` when the command called does not
return within `fuel` loop steps. -/
def runcmd (x : Ext) (fuel : Nat) (buf : String) (k : Kern) : Option (Int × Kern) :=
  match parse_args (buf.length + 1) buf.data [] with
  | none => some (0, cprintf k .tooManyArguments)
  | some argv =>
    if argv.length = 0 then some (0, k)
    else dispatch x fuel argv k

/-- How a run of the monitor loop over a finite console input ends. -/
inductive MonitorEnd where
  | exited (unread : List (Option String)) (k : Kern)
  | waiting (k : Kern)
  | stuck

/-- The `while (1)` loop of `monitor` over the lines `readline` delivers
(`none` for a null return): it ends by `break` with the lines not yet read,
or is still waiting in `readline` when the input is used up, or is stuck in a
command that does not return within `fuel` steps. -/
def monitor_loop (x : Ext) (fuel : Nat) : List (Option String) → Kern → MonitorEnd
  | [], k => .waiting k
  | none :: rest, k => monitor_loop x fuel rest k
  | some buf :: rest, k =>
    match runcmd x fuel buf k with
    | none => .stuck
    | some (r, k1) => if r < 0 then .exited rest k1 else monitor_loop x fuel rest k1

/-- The function `monitor(tf)`, which prints its welcome and enters the loop. -/
def monitor (x : Ext) (fuel : Nat) (input : List (Option String)) (k : Kern) :
    MonitorEnd :=
  monitor_loop x fuel input (cprintf k .welcome)

/-- The value of a hexadecimal digit. -/
def hexDigit (c : Char) : Option Nat :=
  if 48 ≤ c.toNat ∧ c.toNat ≤ 57 then some (c.toNat - 48)
  else if 97 ≤ c.toNat ∧ c.toNat ≤ 102 then some (c.toNat - 87)
  else if 65 ≤ c.toNat ∧ c.toNat ≤ 70 then some (c.toNat - 55)
  else none

/-- Reads leading hexadecimal digits onto the accumulator and gives the value
and the unread rest. -/
def hexRead : List Char → Nat → Int × String
  | [], acc => (acc, "")
  | c :: cs, acc =>
    match hexDigit c with
    | some d => hexRead cs (acc * 16 + d)
    | none => (acc, String.mk (c :: cs))

/-- A reader of hexadecimal literals: the value of the leading hexadecimal
digits and the rest of the string, as `strtol(s, &end, 16)` gives them for
unsigned literals without prefix. -/
def hexStrtol (s : String) : Int × String := hexRead s.data 0

/-- Collaborators for concrete runs: the hexadecimal reader and a symbol
lookup that always fails. -/
def plainExt : Ext := ⟨hexStrtol, fun _ => none⟩

/-- A kernel state with the given page table and an empty console. -/
def kernOf (pgdir : PageTable) : Kern := ⟨pgdir, fun _ => 0, 0, []⟩

/-- A kernel whose page table maps page 1 (addresses 0x1000..0x1fff) with the
entry 0x5807: frame 0x5000, copy-on-write bit, user, writable, present. -/
def kernOnePage : Kern :=
  kernOf (fun pn => if pn = 1 then some 0x5807 else none)

/-- A memory image with three frames at 0x1000, 0x2000 and 0x3000, linked in
that order and ended by a null link, with the return addresses 0xf0100040,
0xf0100080 and 0xf01000c0; every other word is 0. -/
def chainMem : Nat → Nat := fun a =>
  if a = 0x1000 then 0x2000 else if a = 0x1004 then 0xf0100040
  else if a = 0x2000 then 0x3000 else if a = 0x2004 then 0xf0100080
  else if a = 0x3000 then 0 else if a = 0x3004 then 0xf01000c0
  else 0

/-- Collaborators with a canned symbol lookup: it knows the function `f` at
0xf0100000 for the return addresses below 0xf01000a0 and fails above. -/
def stubExt : Ext :=
  ⟨hexStrtol, fun eip =>
    if eip < 0xf01000a0 then some ⟨"kern/f.c", 7, "f", 1, 0xf0100000⟩ else none⟩

/-! ## User-level fork: `duppage` -/

/-- The user-visible state of the system: the running environment's id
(`sys_getenvid()`), for each environment the entry of each page number (for
the running environment this is what `uvpt` shows), and the number of
fallible system calls made so far. -/
structure User where
  self : Int
  pt : Int → Nat → Nat
  ncalls : Nat

/-- How a user-level function ends: it returns a value, or it panics. -/
inductive Outcome where
  | returned (r : Int) (u : User)
  | panicked (u : User)

/-- Modelled from the spec: the effect of a successful install (§6 `map`):
the destination page maps the frame of the source page with the given
permission bits; nothing else changes. -/
def page_installed (u : User) (srcenvid : Int) (srcva : Nat) (dstenvid : Int)
    (dstva perm : Nat) : User :=
  { u with
    pt := fun e pn =>
      if e = dstenvid ∧ pn = PGNUM dstva then
        PTE_ADDR (u.pt srcenvid (PGNUM srcva)) ||| perm
      else u.pt e pn
    ncalls := u.ncalls + 1 }

/-- Modelled from the spec: `sys_page_map` is implemented in the kernel, not
among the sources.  It is the install primitive of §6,
`map(srcSpace, srcPage, dstSpace, dstPage, permissionBits) -> Result|Fails(Invalid)`:
on success the install is made and 0 is returned, on failure nothing is
mapped and a negative error code is returned.  Which calls fail is left open:
`ok n` tells whether the `n`-th fallible system call succeeds. -/
def sys_page_map (ok : Nat → Bool) (u : User) (srcenvid : Int) (srcva : Nat)
    (dstenvid : Int) (dstva perm : Nat) : Int × User :=
  if ok u.ncalls then (0, page_installed u srcenvid srcva dstenvid dstva perm)
  else (-3, { u with ncalls := u.ncalls + 1 })

/-- The permissions lines 76-80 of `duppage` compute for a page that is not
shared. -/
def duppage_perm (perm : Nat) : Nat :=
  (if perm &&& PTE_W ≠ 0 ∨ perm &&& PTE_COW ≠ 0 then (perm ||| PTE_COW) &&& not32 PTE_W
   else perm) &&& PTE_SYSCALL

/-- The function `duppage(envid, pn)` of `lib/fork.c`. -/
def duppage (ok : Nat → Bool) (u : User) (envid : Int) (pn : Nat) : Outcome :=
  let this_env_id := u.self
  let va := (pn * PGSIZE) % WORD
  let perm := u.pt u.self pn &&& 0xFFF
  if perm &&& PTE_SHARE ≠ 0 then
    let (r, u1) := sys_page_map ok u this_env_id va envid va (perm &&& PTE_SYSCALL)
    if r < 0 then .panicked u1 else .returned 0 u1
  else
    let perm1 := duppage_perm perm
    let (r, u1) := sys_page_map ok u this_env_id va envid va perm1
    if r < 0 then .panicked u1
    else
      let (r2, u2) := sys_page_map ok u1 this_env_id va this_env_id va perm1
      if r2 < 0 then .panicked u2 else .returned 0 u2

/-- The state a user-level function ends in. -/
def Outcome.state : Outcome → User
  | .returned _ u => u
  | .panicked u => u

/-- The permissions §4.5 step 3 asks for, in the spec's words: the old
permissions (the low twelve bits) with Writable cleared and CopyOnWrite set,
masked to the legal whitelist. -/
def spec_cow_perm (old : Nat) : Nat :=
  (Nat.ldiff (old % 4096) PTE_W ||| PTE_COW) &&& PTE_SYSCALL

/-- Every system call succeeds. -/
def allOk : Nat → Bool := fun _ => true

/-- Environment 1 running, with the single page 0x800 (address 0x800000)
mapped by the entry `pte`; every other entry of every environment is 0. -/
def userOnePage (pte : Nat) : User :=
  ⟨1, fun e pn => if e = 1 ∧ pn = 0x800 then pte else 0, 0⟩

/-! ## User-level fork: the system state, `pgfault` and `fork` -/

/-- Modelled from the spec: the header `inc/memlayout.h` is not among the
sources; the lowest user text address, `2 * PTSIZE`. -/
def UTEXT : Nat := 0x00800000

/-- Modelled from the spec: the header `inc/memlayout.h` is not among the
sources; the top of the user exception stack, `UTOP`. -/
def UXSTACKTOP : Nat := 0xEEC00000

/-- Modelled from the spec: the header `inc/memlayout.h` is not among the
sources; the top of the normal user stack, `UTOP - 2 * PGSIZE`. -/
def USTACKTOP : Nat := 0xEEBFE000

/-- Modelled from the spec: the header `inc/memlayout.h` is not among the
sources; the private temporary address of the fault handler,
`UTEMP + PTSIZE - PGSIZE`. -/
def PFTEMP : Nat := 0x007FF000

/-- Modelled from the spec: the header `inc/mmu.h` is not among the sources;
the bit of a page-fault error code that tells the access was a write. -/
def FEC_WR : Nat := 0x2

/-- Modelled from the spec: the header `inc/env.h` is not among the sources;
the status of an environment that may be scheduled. -/
def ENV_RUNNABLE : Nat := 2

/-- Modelled from the spec: the header `inc/env.h` is not among the sources;
the status of an environment that exists but may not be scheduled. -/
def ENV_NOT_RUNNABLE : Nat := 4

/-- Modelled from the spec: the header `inc/mmu.h` is not among the sources;
`PDX(la)` is `(la >> 22) & 0x3FF`, the page-directory index of an address. -/
def PDX (la : Nat) : Nat := (la >>> 22) &&& 0x3FF

/-- Modelled from the spec: the header `inc/env.h` is not among the sources;
`ENVX(envid)` is `envid & (NENV - 1)` with 1024 environments. -/
def ENVX (envid : Int) : Nat := toU32 envid &&& 1023

/-- The state of the system as the user-level library sees it: the page
tables (`u`), the running environment's page directory as `uvpd` shows it,
the bytes of physical memory, the id the next created environment gets, the
status and the page-fault upcall of each environment, and the index `thisenv`
points at. -/
structure Sys where
  u : User
  uvpd : Nat → Nat
  mem : Nat → Nat
  newenv : Int
  status : Int → Nat
  upcall : Int → Nat
  thisenv : Nat

/-- How a user-level function on the system state ends. -/
inductive SysOutcome where
  | returned (r : Int) (s : Sys)
  | panicked (s : Sys)

/-- The state a function ends in. -/
def SysOutcome.state : SysOutcome → Sys
  | .returned _ s => s
  | .panicked s => s

/-- One more fallible system call has been made. -/
def Sys.called (s : Sys) : Sys := { s with u := { s.u with ncalls := s.u.ncalls + 1 } }

/-- The saved state of a faulting access, `struct UTrapframe`, as far as
`pgfault` reads it. -/
structure UTrapframe where
  utf_fault_va : Nat
  utf_err : Nat

/-- Modelled from the spec: the effect of a successful allocation (§6
`allocate`): the page maps the frame `f` with the given permission bits;
nothing else changes. -/
def Sys.allocated (s : Sys) (envid : Int) (va perm f : Nat) : Sys :=
  { s with
    u := { s.u with
      pt := fun e pn => if e = envid ∧ pn = PGNUM va then f ||| perm else s.u.pt e pn
      ncalls := s.u.ncalls + 1 } }

/-- Modelled from the spec: `sys_page_alloc` is implemented in the kernel, not
among the sources.  It is the allocator of §6,
`allocate(ownerSpace, virtualPage, permissionBits) -> Result|Fails(OutOfMemory)`:
on success the page maps a fresh frame with the given permission bits and 0
is returned, on failure nothing is mapped.  `frames n` is the frame the
allocator hands out at system call `n`, if it has one, and `ok n` tells
whether the call is otherwise accepted. -/
def sys_page_alloc (ok : Nat → Bool) (frames : Nat → Option Nat) (s : Sys) (envid : Int)
    (va perm : Nat) : Int × Sys :=
  match frames s.u.ncalls with
  | some f => if ok s.u.ncalls then (0, s.allocated envid va perm f) else (-3, s.called)
  | none => (-4, s.called)

/-- The system call `sys_page_map` on the system state. -/
def Sys.page_map (ok : Nat → Bool) (s : Sys) (srcenvid : Int) (srcva : Nat)
    (dstenvid : Int) (dstva perm : Nat) : Int × Sys :=
  ((sys_page_map ok s.u srcenvid srcva dstenvid dstva perm).1,
    { s with u := (sys_page_map ok s.u srcenvid srcva dstenvid dstva perm).2 })

/-- Modelled from the spec: the effect of a successful release (§6 `free`):
the entry of the page is cleared; nothing else changes. -/
def Sys.unmapped (s : Sys) (envid : Int) (va : Nat) : Sys :=
  { s with
    u := { s.u with
      pt := fun e pn => if e = envid ∧ pn = PGNUM va then 0 else s.u.pt e pn
      ncalls := s.u.ncalls + 1 } }

/-- Modelled from the spec: `sys_page_unmap` is implemented in the kernel, not
among the sources.  It releases the mapping of a page (§4.6 "release the
temporary mapping", §6 `free(ownerSpace, virtualPage)`). -/
def sys_page_unmap (ok : Nat → Bool) (s : Sys) (envid : Int) (va : Nat) : Int × Sys :=
  if ok s.u.ncalls then (0, s.unmapped envid va) else (-3, s.called)

/-- Modelled from the spec: the effect of a successful process creation (§6
`createEmptyProcess`) as the caller sees it: the new environment exists with
an empty address space and is not runnable. -/
def Sys.forked (s : Sys) : Sys :=
  { s with
    u := { s.u with
      pt := fun e pn => if e = s.newenv then 0 else s.u.pt e pn
      ncalls := s.u.ncalls + 1 }
    status := fun e => if e = s.newenv then ENV_NOT_RUNNABLE else s.status e }

/-- Modelled from the spec: `sys_exofork` is implemented in the kernel, not
among the sources.  It is the process creation primitive of §6,
`createEmptyProcess() -> processHandle|Fails(ResourceExhausted)`: on success
the new environment is created and its id is returned to the caller.  A state
with `newenv = 0` stands for the run of the new environment itself, which
sees the call return 0. -/
def sys_exofork (ok : Nat → Bool) (s : Sys) : Int × Sys :=
  if ok s.u.ncalls then
    if s.newenv = 0 then (0, s.called) else (s.newenv, s.forked)
  else (-5, s.called)

/-- Modelled from the spec: `sys_env_set_pgfault_upcall` is implemented in the
kernel, not among the sources; §6 `setFaultUpcall(processHandle, entryPoint)`. -/
def sys_env_set_pgfault_upcall (ok : Nat → Bool) (s : Sys) (envid : Int) (entry : Nat) :
    Int × Sys :=
  if ok s.u.ncalls then
    (0, { s.called with upcall := fun e => if e = envid then entry else s.upcall e })
  else (-2, s.called)

/-- Modelled from the spec: `sys_env_set_status` is implemented in the kernel,
not among the sources; §6 `setRunnable(processHandle)`. -/
def sys_env_set_status (ok : Nat → Bool) (s : Sys) (envid : Int) (status : Nat) :
    Int × Sys :=
  if ok s.u.ncalls then
    (0, { s.called with status := fun e => if e = envid then status else s.status e })
  else (-2, s.called)

/-- The physical address the running environment's page table gives a
virtual address. -/
def va2pa (s : Sys) (va : Nat) : Nat :=
  PTE_ADDR (s.u.pt s.u.self (PGNUM va)) + va % PGSIZE

/-- Whether the running environment may read a virtual address. -/
def can_read (s : Sys) (va : Nat) : Bool := flagSet (s.u.pt s.u.self (PGNUM va)) PTE_P

/-- Whether the running environment may write a virtual address. -/
def can_write (s : Sys) (va : Nat) : Bool :=
  flagSet (s.u.pt s.u.self (PGNUM va)) PTE_P && flagSet (s.u.pt s.u.self (PGNUM va)) PTE_W

/-- Writes, for `i` below the count, the byte `old (src i)` to the address
`dst i`; all bytes are read from the memory `old` as it was before the copy. -/
def copy_bytes (old : Nat → Nat) (dst src : Nat → Nat) : Nat → (Nat → Nat) → (Nat → Nat)
  | 0, m => m
  | n + 1, m => copy_bytes old dst src n (fun pa => if pa = dst n then old (src n) else m pa)

/-- Modelled from the spec: `memmove` of `lib/string.c` is not among the
sources.  It copies `n` bytes between virtual addresses of the running
environment (§4.6 "copy the full contents of the faulting page into the fresh
page"); `none` when a byte may not be read or written, which faults. -/
@[irreducible]
def memmove (s : Sys) (dst src n : Nat) : Option Sys :=
  if (List.range n).all
      (fun i => can_read s ((src + i) % WORD) && can_write s ((dst + i) % WORD)) then
    some { s with
      mem := copy_bytes s.mem (fun i => va2pa s ((dst + i) % WORD))
        (fun i => va2pa s ((src + i) % WORD)) n s.mem }
  else none

/-- The function `pgfault(utf)` of `lib/fork.c`. -/
def pgfault (ok : Nat → Bool) (frames : Nat → Option Nat) (s : Sys) (utf : UTrapframe) :
    SysOutcome :=
  let addr := utf.utf_fault_va
  let err := utf.utf_err
  if err &&& FEC_WR = 0 ∨ s.u.pt s.u.self (PGNUM addr) &&& PTE_COW = 0 then .panicked s
  else
    let envid := s.u.self
    let (r, s1) := sys_page_alloc ok frames s envid PFTEMP (PTE_P ||| PTE_W ||| PTE_U)
    if r < 0 then .panicked s1
    else
      let addr1 := ROUNDDOWN addr PGSIZE
      match memmove s1 PFTEMP addr1 PGSIZE with
      | none => .panicked s1
      | some s2 =>
        let (r2, s3) := s2.page_map ok envid PFTEMP envid addr1 (PTE_P ||| PTE_W ||| PTE_U)
        if r2 < 0 then .panicked s3
        else
          let (r3, s4) := sys_page_unmap ok s3 envid PFTEMP
          if r3 < 0 then .panicked s4 else .returned 0 s4

/-- The parts of the user library that `fork` calls and that are not among
the sources: `set_pgfault_handler` (of `lib/pgfault.c`) and the address of the
assembly entry point `_pgfault_upcall`. -/
structure Lib where
  set_pgfault_handler : Sys → SysOutcome
  pgfault_upcall : Nat

/-- The body of the duplication loop of `fork` (lines 120-121) for one
address. -/
def fork_step (ok : Nat → Bool) (chd_id : Int) (s : Sys) (addr : Nat) : SysOutcome :=
  if s.uvpd (PDX addr) &&& PTE_P ≠ 0 ∧ s.u.pt s.u.self (PGNUM addr) &&& PTE_P ≠ 0 then
    match duppage ok s.u chd_id (PGNUM addr) with
    | .returned _ u1 => .returned 0 { s with u := u1 }
    | .panicked u1 => .panicked { s with u := u1 }
  else .returned 0 s

/-- The duplication loop over the addresses it visits, in order. -/
def fork_loop (ok : Nat → Bool) (chd_id : Int) : List Nat → Sys → SysOutcome
  | [], s => .returned 0 s
  | addr :: rest, s =>
    match fork_step ok chd_id s addr with
    | .returned _ s1 => fork_loop ok chd_id rest s1
    | .panicked s1 => .panicked s1

/-- The addresses `for (addr = UTEXT; addr < USTACKTOP; addr += PGSIZE)`
visits. -/
def fork_addrs : List Nat := List.range' UTEXT ((USTACKTOP - UTEXT) / PGSIZE) PGSIZE

/-- The end of `fork()` (lines 123-135): the exception-stack allocation, the
upcall installation and the status change. -/
def fork_finish (lib : Lib) (ok : Nat → Bool) (frames : Nat → Option Nat) (chd_id : Int)
    (s2 : Sys) : SysOutcome :=
  let (r, s3) := sys_page_alloc ok frames s2 chd_id (UXSTACKTOP - PGSIZE)
    (PTE_U ||| PTE_W ||| PTE_P)
  if r < 0 then .panicked s3
  else
    let (r2, s4) := sys_env_set_pgfault_upcall ok s3 chd_id lib.pgfault_upcall
    if r2 < 0 then .panicked s4
    else
      let (r3, s5) := sys_env_set_status ok s4 chd_id ENV_RUNNABLE
      if r3 < 0 then .panicked s5 else .returned chd_id s5

/-- The function `fork()` of `lib/fork.c` from the call of `sys_exofork` on. -/
def fork_body (lib : Lib) (ok : Nat → Bool) (frames : Nat → Option Nat) (s : Sys) :
    SysOutcome :=
  let (chd_id, s1) := sys_exofork ok s
  if chd_id < 0 then .panicked s1
  else if chd_id = 0 then .returned chd_id { s1 with thisenv := ENVX s1.u.self }
  else
    match fork_loop ok chd_id fork_addrs s1 with
    | .panicked s2 => .panicked s2
    | .returned _ s2 => fork_finish lib ok frames chd_id s2

/-- The function `fork()` of `lib/fork.c`. -/
def fork (lib : Lib) (ok : Nat → Bool) (frames : Nat → Option Nat) (s : Sys) : SysOutcome :=
  match lib.set_pgfault_handler s with
  | .panicked s0 => .panicked s0
  | .returned _ s0 => fork_body lib ok frames s0

/-- A library whose `set_pgfault_handler` finds a handler installed already
and changes nothing. -/
def plainLib : Lib := ⟨fun s => .returned 0 s, 0x800040⟩

/-- The allocator hands out frame `0x9000 + (n % 1024) * PGSIZE` at system
call `n`. -/
def plainFrames : Nat → Option Nat := fun n => some (0x9000 + (n % 1024) * PGSIZE)

/-- The system state around a `User` state: every page-directory entry of the
running environment present, memory zero, environment 2 next to be created. -/
def sysOf (u : User) : Sys :=
  ⟨u, fun _ => 0x7, fun _ => 0, 2, fun _ => 0, fun _ => 0, 0⟩

/-- Environment 1 running, with the single page `pn` mapped by the entry
`pte`; every other entry of every environment is 0. -/
def userPageAt (pn pte : Nat) : User :=
  ⟨1, fun e p => if e = 1 ∧ p = pn then pte else 0, 0⟩

/-- Writable and CopyOnWrite are not both set in an entry (§3: the two are
mutually exclusive in a correct installed mapping). -/
def wx_exclusive (e : Nat) : Prop := ¬ (e &&& PTE_W ≠ 0 ∧ e &&& PTE_COW ≠ 0)

/-- The entry `duppage` installs for a page whose entry is `old`: the old
frame with the permissions of line 71 (shared) or of lines 76-80. -/
def duppage_entry (old : Nat) : Nat :=
  PTE_ADDR old |||
    (if (old &&& 0xFFF) &&& PTE_SHARE ≠ 0 then (old &&& 0xFFF) &&& PTE_SYSCALL
     else duppage_perm (old &&& 0xFFF))

/-! ## Bit-level facts about the flags -/

theorem testBit_small (c i : Nat) (hc : c < 4096) (hi : 12 ≤ i) :
    Nat.testBit c i = false := by
  apply Nat.testBit_lt_two_pow
  calc c < 2 ^ 12 := hc
    _ ≤ 2 ^ i := Nat.pow_le_pow_right (by norm_num) hi

theorem testBit_low12 (i : Nat) : Nat.testBit 0xFFF i = decide (i < 12) := by
  have h : (0xFFF : Nat) = 2 ^ 12 - 1 := by norm_num
  rw [h, Nat.testBit_two_pow_sub_one]

theorem testBit_all32 (i : Nat) : Nat.testBit 0xFFFFFFFF i = decide (i < 32) := by
  have h : (0xFFFFFFFF : Nat) = 2 ^ 32 - 1 := by norm_num
  rw [h, Nat.testBit_two_pow_sub_one]

theorem testBit_frameMask (i : Nat) :
    Nat.testBit 0xFFFFF000 i = (decide (12 ≤ i) && decide (i < 32)) := by
  have h : (0xFFFFF000 : Nat) = (2 ^ 20 - 1) <<< 12 := by decide
  rw [h, Nat.testBit_shiftLeft, Nat.testBit_two_pow_sub_one]
  by_cases h12 : 12 ≤ i
  · simp [h12]; omega
  · simp [h12]

theorem testBit_PTE_P (i : Nat) : Nat.testBit PTE_P i = decide (i = 0) := by
  have h := @Nat.testBit_two_pow 0 i
  simpa [PTE_P, eq_comm] using h

theorem testBit_PTE_W (i : Nat) : Nat.testBit PTE_W i = decide (i = 1) := by
  have h := @Nat.testBit_two_pow 1 i
  simpa [PTE_W, eq_comm] using h

theorem testBit_PTE_U (i : Nat) : Nat.testBit PTE_U i = decide (i = 2) := by
  have h := @Nat.testBit_two_pow 2 i
  simpa [PTE_U, eq_comm] using h

theorem testBit_PTE_PS (i : Nat) : Nat.testBit PTE_PS i = decide (i = 7) := by
  have h := @Nat.testBit_two_pow 7 i
  simpa [PTE_PS, eq_comm] using h

theorem testBit_PTE_SHARE (i : Nat) : Nat.testBit PTE_SHARE i = decide (i = 10) := by
  have h := @Nat.testBit_two_pow 10 i
  simpa [PTE_SHARE, eq_comm] using h

theorem testBit_PTE_COW (i : Nat) : Nat.testBit PTE_COW i = decide (i = 11) := by
  have h := @Nat.testBit_two_pow 11 i
  simpa [PTE_COW, eq_comm] using h

theorem testBit_whitelist (i : Nat) :
    Nat.testBit (PTE_PS ||| PTE_W ||| PTE_U) i
      = (decide (i = 7) || decide (i = 1) || decide (i = 2)) := by
  simp only [Nat.testBit_or, testBit_PTE_PS, testBit_PTE_W, testBit_PTE_U]

theorem testBit_not32 (x i : Nat) :
    Nat.testBit (not32 x) i = (decide (i < 32) ^^ Nat.testBit x i) := by
  simp only [not32, Nat.testBit_xor, testBit_all32]

/-- A flag test `x & 2^b` is non-zero exactly when bit `b` of `x` is set. -/
theorem and_two_pow_ne_zero (x b : Nat) : x &&& 2 ^ b ≠ 0 ↔ Nat.testBit x b = true := by
  constructor
  · intro h
    by_contra hb
    apply h
    apply Nat.eq_of_testBit_eq; intro i
    simp only [Nat.testBit_and, Nat.testBit_two_pow, Nat.zero_testBit]
    by_cases hi : b = i
    · subst hi; simp [hb]
    · simp [hi]
  · intro hb h
    have h2 : Nat.testBit (x &&& 2 ^ b) b = true := by
      simp [Nat.testBit_and, Nat.testBit_two_pow, hb]
    rw [h] at h2
    simp at h2

theorem flag_P_iff (x : Nat) : x &&& PTE_P ≠ 0 ↔ Nat.testBit x 0 = true :=
  and_two_pow_ne_zero x 0

theorem flag_W_iff (x : Nat) : x &&& PTE_W ≠ 0 ↔ Nat.testBit x 1 = true :=
  and_two_pow_ne_zero x 1

theorem flag_SHARE_iff (x : Nat) : x &&& PTE_SHARE ≠ 0 ↔ Nat.testBit x 10 = true :=
  and_two_pow_ne_zero x 10

theorem flag_COW_iff (x : Nat) : x &&& PTE_COW ≠ 0 ↔ Nat.testBit x 11 = true :=
  and_two_pow_ne_zero x 11

/-- The frame address survives or-ing in any twelve-bit permission word. -/
theorem PTE_ADDR_or_low (f p : Nat) (hp : p < 4096) :
    PTE_ADDR (PTE_ADDR f ||| p) = PTE_ADDR f := by
  apply Nat.eq_of_testBit_eq; intro i
  simp only [PTE_ADDR, Nat.testBit_and, Nat.testBit_or, testBit_frameMask]
  by_cases h : 12 ≤ i
  · simp [h, testBit_small p i hp h]
  · simp [h]

/-- The low twelve bits of a frame address or-ed with a twelve-bit permission
word are the permission word. -/
theorem low12_frame_or (f p : Nat) (hp : p < 4096) :
    (PTE_ADDR f ||| p) &&& 0xFFF = p := by
  apply Nat.eq_of_testBit_eq; intro i
  simp only [PTE_ADDR, Nat.testBit_and, Nat.testBit_or, testBit_frameMask, testBit_low12]
  by_cases h : 12 ≤ i
  · have h2 : ¬ i < 12 := by omega
    simp [h2, testBit_small p i hp h]
  · have h2 : i < 12 := by omega
    simp [h, h2]

theorem and_low12_lt (x : Nat) : x &&& 0xFFF < 4096 := by
  have h : (0xFFF : Nat) = 2 ^ 12 - 1 := by norm_num
  rw [h, Nat.and_pow_two_sub_one_eq_mod]
  exact Nat.mod_lt _ (by norm_num)

theorem PGNUM_ROUNDDOWN (a : Nat) : PGNUM (ROUNDDOWN a PGSIZE) = PGNUM a := by
  simp only [PGNUM, ROUNDDOWN, PGSIZE, Nat.shiftRight_eq_div_pow]
  omega


/-! ## `mon_changeperm`: the permission edit -/

theorem mon_changeperm_parsed (x : Ext) (k : Kern) (cmd a1 a2 : String) (v1 v2 type : Int)
    (h1 : x.strtol a1 = (v1, "")) (h2 : x.strtol a2 = (v2, "")) :
    mon_changeperm x [cmd, a1, a2] k type
      = changeperm_core k (toU32 v1) (toU32 v2) type := by
  simp [mon_changeperm, h1, h2]

theorem changeperm_core_unmapped (k : Kern) (a r : Nat) (type : Int)
    (hun : k.pgdir (PGNUM a) = none ∨ ∃ e, k.pgdir (PGNUM a) = some e ∧ e &&& PTE_P = 0) :
    changeperm_core k a r type = (-1, cprintf k (.changeNotMapped (ROUNDDOWN a PGSIZE))) := by
  rcases hun with h | ⟨e, h, he⟩
  · simp [changeperm_core, pgdir_walk, PGNUM_ROUNDDOWN, h]
  · simp [changeperm_core, pgdir_walk, PGNUM_ROUNDDOWN, h, flagSet, he]

theorem changeperm_core_mapped (k : Kern) (a r e : Nat) (type : Int)
    (hm : k.pgdir (PGNUM a) = some e) (hp : e &&& PTE_P ≠ 0) :
    (changeperm_core k a r type).1 = 0 ∧
    (changeperm_core k a r type).2.pgdir
      = pte_store k.pgdir (ROUNDDOWN a PGSIZE)
          (changed_pte e (r &&& (PTE_PS ||| PTE_W ||| PTE_U)) type) := by
  simp [changeperm_core, pgdir_walk, PGNUM_ROUNDDOWN, hm, flagSet, hp, cprintf]


theorem lt_4096_of_testBit (x : Nat) (h : ∀ i, 12 ≤ i → Nat.testBit x i = false) :
    x < 4096 := by
  have := Nat.lt_pow_two_of_testBit x (n := 12) (fun i hi => h i hi)
  simpa using this

theorem changed_pte_present (e p : Nat) (type : Int) :
    changed_pte e p type &&& PTE_P = PTE_P := by
  apply Nat.eq_of_testBit_eq; intro i
  simp only [changed_pte, Nat.testBit_and, Nat.testBit_or, testBit_PTE_P]
  by_cases h : i = 0 <;> simp [h]

theorem real_perm_lt (e p : Nat) (type : Int) (hp : p < 4096) :
    real_perm e p type < 4096 := by
  apply lt_4096_of_testBit
  intro i hi
  have hi2 : ¬ i < 12 := by omega
  unfold real_perm
  simp only []
  split_ifs <;>
    simp [Nat.testBit_and, Nat.testBit_or, testBit_low12, hi2, testBit_small p i hp hi]

theorem whitelist_lt (r : Nat) : r &&& (PTE_PS ||| PTE_W ||| PTE_U) < 4096 := by
  have h : r &&& (PTE_PS ||| PTE_W ||| PTE_U) ≤ (PTE_PS ||| PTE_W ||| PTE_U) := Nat.and_le_right
  have h2 : (PTE_PS ||| PTE_W ||| PTE_U) = 134 := by decide
  omega

theorem real_perm_or_P_lt (e p : Nat) (type : Int) (hp : p < 4096) :
    real_perm e p type ||| PTE_P < 4096 := by
  have h1 := real_perm_lt e p type hp
  have h2 : PTE_P < 2 ^ 12 := by decide
  have := Nat.or_lt_two_pow (n := 12) (by simpa using h1) h2
  simpa using this

theorem changed_pte_frame (e p : Nat) (type : Int) (hp : p < 4096) :
    PTE_ADDR (changed_pte e p type) = PTE_ADDR e := by
  unfold changed_pte
  rw [Nat.lor_assoc]
  exact PTE_ADDR_or_low e _ (real_perm_or_P_lt e p type hp)

theorem changed_pte_eq_spec (e r : Nat) (mode : Mode) :
    changed_pte e (r &&& (PTE_PS ||| PTE_W ||| PTE_U)) mode.code
      = spec_changePermission e r mode := by
  have hlow : e &&& 0xFFF = e % 4096 := by
    have h : (0xFFF : Nat) = 2 ^ 12 - 1 := by norm_num
    rw [h, Nat.and_pow_two_sub_one_eq_mod]
  cases mode
  · simp [changed_pte, real_perm, Mode.code, spec_changePermission, PERM_SET]
  · simp [changed_pte, real_perm, Mode.code, spec_changePermission, PERM_SET, PERM_ADD, hlow]
  · have hrm : (e &&& 0xFFF) &&& not32 (r &&& (PTE_PS ||| PTE_W ||| PTE_U))
        = Nat.ldiff (e % 4096) (r &&& (PTE_PS ||| PTE_W ||| PTE_U)) := by
      rw [← hlow]
      apply Nat.eq_of_testBit_eq; intro i
      simp only [Nat.testBit_and, Nat.testBit_ldiff, testBit_not32, testBit_low12]
      by_cases h : i < 12
      · have h2 : i < 32 := by omega
        simp [h, h2]
      · simp [h]
    simp [changed_pte, real_perm, Mode.code, spec_changePermission, PERM_SET, PERM_ADD,
      PERM_RM, hrm]

/-- C1: on an address whose page has no entry, or an entry with Present
clear, `mon_changeperm` returns a negative value and leaves the page table
as it was, for every requested permission and every mode. -/
theorem changeperm_unmapped_fails_unchanged (x : Ext) (k : Kern) (cmd a1 a2 : String)
    (v1 v2 type : Int)
    (h1 : x.strtol a1 = (v1, "")) (h2 : x.strtol a2 = (v2, ""))
    (hun : k.pgdir (PGNUM (toU32 v1)) = none ∨
      ∃ e, k.pgdir (PGNUM (toU32 v1)) = some e ∧ e &&& PTE_P = 0) :
    (mon_changeperm x [cmd, a1, a2] k type).1 < 0 ∧
    (mon_changeperm x [cmd, a1, a2] k type).2.pgdir = k.pgdir := by
  rw [mon_changeperm_parsed x k cmd a1 a2 v1 v2 type h1 h2,
    changeperm_core_unmapped k _ _ type hun]
  exact ⟨show (-1 : Int) < 0 by decide, rfl⟩

theorem changeperm_unmapped_fails_unchanged_witness :
    kernOnePage.pgdir (PGNUM (toU32 0x2abc)) = none ∧
    (mon_changeperm plainExt ["addperm", "2abc", "6"] kernOnePage PERM_ADD).1 < 0 ∧
    (mon_changeperm plainExt ["addperm", "2abc", "6"] kernOnePage PERM_ADD).2.pgdir
      = kernOnePage.pgdir :=
  ⟨by decide,
    changeperm_unmapped_fails_unchanged plainExt kernOnePage "addperm" "2abc" "6"
      0x2abc 6 PERM_ADD (by decide) (by decide) (Or.inl (by decide))⟩

/-- C2: on a mapped (Present) page the entry `mon_changeperm` writes back has
the Present bit set, for every requested permission and every mode; Remove
mode with the Present bit requested does not clear it. -/
theorem changeperm_keeps_present (x : Ext) (k : Kern) (cmd a1 a2 : String)
    (v1 v2 type : Int) (e : Nat)
    (h1 : x.strtol a1 = (v1, "")) (h2 : x.strtol a2 = (v2, ""))
    (hm : k.pgdir (PGNUM (toU32 v1)) = some e) (hp : e &&& PTE_P ≠ 0) :
    ∃ new, (mon_changeperm x [cmd, a1, a2] k type).2.pgdir (PGNUM (toU32 v1)) = some new ∧
      new &&& PTE_P = PTE_P := by
  rw [mon_changeperm_parsed x k cmd a1 a2 v1 v2 type h1 h2,
    (changeperm_core_mapped k _ (toU32 v2) e type hm hp).2]
  refine ⟨changed_pte e (toU32 v2 &&& (PTE_PS ||| PTE_W ||| PTE_U)) type, ?_, ?_⟩
  · simp [pte_store, PGNUM_ROUNDDOWN]
  · exact changed_pte_present _ _ _

theorem changeperm_keeps_present_witness :
    ∃ new, (mon_changeperm plainExt ["rmperm", "1ff0", "fff"] kernOnePage PERM_RM).2.pgdir
        (PGNUM (toU32 0x1ff0)) = some new ∧ new &&& PTE_P = PTE_P :=
  changeperm_keeps_present plainExt kernOnePage "rmperm" "1ff0" "fff" 0x1ff0 0xfff PERM_RM
    0x5807 (by decide) (by decide) (by decide) (by decide)

/-- C3: on a mapped page with entry `e` and request `r`, `mon_changeperm`
succeeds and writes back exactly the entry of the spec (frame of `e`, the low
bits replaced by, or-ed with, or and-not-ed with the whitelisted request,
Present set), and that entry has the frame address of `e`. -/
theorem changeperm_writes_spec_entry (x : Ext) (k : Kern) (cmd a1 a2 : String)
    (v1 v2 : Int) (e : Nat) (mode : Mode)
    (h1 : x.strtol a1 = (v1, "")) (h2 : x.strtol a2 = (v2, ""))
    (hm : k.pgdir (PGNUM (toU32 v1)) = some e) (hp : e &&& PTE_P ≠ 0) :
    (mon_changeperm x [cmd, a1, a2] k mode.code).1 = 0 ∧
    (mon_changeperm x [cmd, a1, a2] k mode.code).2.pgdir (PGNUM (toU32 v1))
      = some (spec_changePermission e (toU32 v2) mode) ∧
    PTE_ADDR (spec_changePermission e (toU32 v2) mode) = PTE_ADDR e := by
  rw [mon_changeperm_parsed x k cmd a1 a2 v1 v2 mode.code h1 h2]
  have hc := changeperm_core_mapped k _ (toU32 v2) e mode.code hm hp
  refine ⟨hc.1, ?_, ?_⟩
  · rw [hc.2, changed_pte_eq_spec]
    simp [pte_store, PGNUM_ROUNDDOWN]
  · rw [← changed_pte_eq_spec]
    exact changed_pte_frame e _ _ (whitelist_lt _)

theorem changeperm_writes_spec_entry_witness :
    (mon_changeperm plainExt ["rmperm", "1004", "2"] kernOnePage Mode.remove.code).1 = 0 ∧
    (mon_changeperm plainExt ["rmperm", "1004", "2"] kernOnePage Mode.remove.code).2.pgdir
        (PGNUM (toU32 0x1004))
      = some (spec_changePermission 0x5807 (toU32 2) Mode.remove) ∧
    PTE_ADDR (spec_changePermission 0x5807 (toU32 2) Mode.remove) = PTE_ADDR 0x5807 :=
  changeperm_writes_spec_entry plainExt kernOnePage "rmperm" "1004" "2" 0x1004 2 0x5807
    Mode.remove (by decide) (by decide) (by decide) (by decide)

/-- C4: on a mapped page `setperm` succeeds for every requested value, and
the entry it writes has no permission bit (bits 0..11) outside the whitelist
LargePage, Writable, User plus Present; so a requested copy-on-write bit
0x800 is dropped. -/
theorem setperm_drops_unlisted_bits (x : Ext) (k : Kern) (cmd a1 a2 : String)
    (v1 v2 : Int) (e : Nat)
    (h1 : x.strtol a1 = (v1, "")) (h2 : x.strtol a2 = (v2, ""))
    (hm : k.pgdir (PGNUM (toU32 v1)) = some e) (hp : e &&& PTE_P ≠ 0) :
    (mon_setperm x [cmd, a1, a2] k).1 = 0 ∧
    ∃ new, (mon_setperm x [cmd, a1, a2] k).2.pgdir (PGNUM (toU32 v1)) = some new ∧
      (∀ i, i < 12 → Nat.testBit new i = true →
        Nat.testBit (PTE_PS ||| PTE_W ||| PTE_U ||| PTE_P) i = true) ∧
      new &&& PTE_COW = 0 := by
  unfold mon_setperm
  rw [mon_changeperm_parsed x k cmd a1 a2 v1 v2 PERM_SET h1 h2]
  have hc := changeperm_core_mapped k _ (toU32 v2) e PERM_SET hm hp
  refine ⟨hc.1, changed_pte e (toU32 v2 &&& (PTE_PS ||| PTE_W ||| PTE_U)) PERM_SET, ?_, ?_, ?_⟩
  · rw [hc.2]
    simp [pte_store, PGNUM_ROUNDDOWN]
  · intro i hi
    have hi2 : ¬ 12 ≤ i := by omega
    simp only [changed_pte, real_perm, PTE_ADDR, if_true, Nat.testBit_and, Nat.testBit_or,
      testBit_frameMask, testBit_PTE_P, testBit_PTE_PS, testBit_PTE_W, testBit_PTE_U]
    simp [hi2]
    tauto
  · apply Nat.eq_of_testBit_eq; intro i
    simp only [changed_pte, real_perm, PTE_ADDR, if_true, Nat.testBit_and, Nat.testBit_or,
      testBit_frameMask, testBit_PTE_P, testBit_PTE_PS, testBit_PTE_W, testBit_PTE_U,
      testBit_PTE_COW, Nat.zero_testBit]
    by_cases h : i = 11
    · subst h; simp
    · simp [h]

theorem setperm_drops_unlisted_bits_witness :
    (mon_setperm plainExt ["setperm", "1000", "806"] kernOnePage).1 = 0 ∧
    ∃ new, (mon_setperm plainExt ["setperm", "1000", "806"] kernOnePage).2.pgdir
        (PGNUM (toU32 0x1000)) = some new ∧
      (∀ i, i < 12 → Nat.testBit new i = true →
        Nat.testBit (PTE_PS ||| PTE_W ||| PTE_U ||| PTE_P) i = true) ∧
      new &&& PTE_COW = 0 :=
  setperm_drops_unlisted_bits plainExt kernOnePage "setperm" "1000" "806" 0x1000 0x806
    0x5807 (by decide) (by decide) (by decide) (by decide)


/-! ## The monitor loop and command failures -/

/-- C5: a failing command ends the monitor loop.  A wrong argument count, an
unparseable address or permission literal, and a permission edit on an
unmapped page each return -1 through `runcmd`, and `monitor` then leaves its
loop with the rest of the input unread; the failures `runcmd` reports itself
(an unknown command) return 0 and the loop goes on. -/
theorem failed_command_exits_monitor (x : Ext) (fuel : Nat) (rest : List (Option String))
    (k : Kern) :
    (∃ k1, runcmd x fuel "setperm" k = some (-1, k1)) ∧
    (∃ k1, monitor x fuel (some "setperm" :: rest) k = MonitorEnd.exited rest k1) ∧
    (∃ k1, monitor plainExt fuel (some "addperm 10zz 2" :: rest) k
      = MonitorEnd.exited rest k1) ∧
    (∃ k1, monitor plainExt fuel (some "setperm 1000 2x" :: rest) k
      = MonitorEnd.exited rest k1) ∧
    (∃ k1, monitor plainExt fuel (some "rmperm 1000 2" :: rest)
      { k with pgdir := fun _ => none } = MonitorEnd.exited rest k1) ∧
    (∃ k1, monitor plainExt fuel (some "showmappings 0" :: rest) k
      = MonitorEnd.exited rest k1) ∧
    (∃ k1, runcmd x fuel "nosuchcommand" k = some (0, k1)) ∧
    (∃ k1, monitor x fuel [some "nosuchcommand"] k = MonitorEnd.waiting k1) := by
  refine ⟨⟨_, rfl⟩, ⟨_, rfl⟩, ⟨_, rfl⟩, ⟨_, rfl⟩, ⟨_, rfl⟩, ⟨_, rfl⟩, ⟨_, rfl⟩, ⟨_, rfl⟩⟩

/-! ## `mon_showmappings`: the page loop -/

theorem showmappings_report_unmapped (pgdir : PageTable) (va : Nat)
    (hun : ∀ pn, pgdir pn = none ∨ ∃ e, pgdir pn = some e ∧ e &&& PTE_P = 0) :
    showmappings_report pgdir va = Out.notMapped va := by
  rcases hun (PGNUM va) with h | ⟨e, h, he⟩
  · simp [showmappings_report, pgdir_walk, h]
  · simp [showmappings_report, pgdir_walk, h, flagSet, he]

/-- C6, as stated, fails: for `start = PGSIZE - 4`, `end = PGSIZE + 4` and an
empty page table the loop prints one "not mapped" report, for page 0x1000
only, and for no amount of fuel two reports. -/
theorem showmappings_one_boundary_counterexample :
    showmappings_pages (fun _ => none) (PGSIZE - 4) (PGSIZE + 4) 2
      = ([Out.notMapped 4096], true) ∧
    (runcmd plainExt 2 "showmappings ffc 1004" (kernOf (fun _ => none))).map
      (fun r => (r.1, r.2.out))
      = some (0, [Out.showHeader "ffc" "1004", Out.notMapped 4096]) ∧
    ¬ ∃ fuel a b, (showmappings_pages (fun _ => none) (PGSIZE - 4) (PGSIZE + 4) fuel).1
      = [Out.notMapped a, Out.notMapped b] := by
  refine ⟨by decide, by decide, ?_⟩
  rintro ⟨fuel, a, b, h⟩
  match fuel, h with
  | 0, h => simp [showmappings_pages, showmappings_loop] at h
  | 1, h =>
    simp [showmappings_pages, showmappings_loop, ROUNDUP, ROUNDDOWN, PGSIZE, WORD] at h
  | n + 2, h =>
    simp [showmappings_pages, showmappings_loop, ROUNDUP, ROUNDDOWN, PGSIZE, WORD] at h

theorem toU32_lt (v : Int) : toU32 v < WORD := by
  simp only [toU32, WORD]
  omega

theorem mon_showmappings_parsed (x : Ext) (fuel : Nat) (k : Kern) (cmd a1 a2 : String)
    (v1 v2 : Int) (h1 : x.strtol a1 = (v1, "")) (h2 : x.strtol a2 = (v2, "")) :
    mon_showmappings x fuel [cmd, a1, a2] k
      = if (showmappings_pages k.pgdir (toU32 v1) (toU32 v2) fuel).2 then
          some (0, { cprintf k (.showHeader a1 a2) with
            out := (cprintf k (.showHeader a1 a2)).out
              ++ (showmappings_pages k.pgdir (toU32 v1) (toU32 v2) fuel).1 })
        else none := by
  simp [mon_showmappings, h1, h2]

/-- The page loop on a range over one page boundary with nothing mapped: it
ends after two evaluations of its condition with one report, for the page of
`end_addr`. -/
theorem showmappings_pages_one_boundary (pgdir : PageTable) (start_addr end_addr n : Nat)
    (hs : start_addr % PGSIZE ≠ 0) (he : end_addr < WORD)
    (hpage : end_addr / PGSIZE = start_addr / PGSIZE + 1)
    (hun : ∀ pn, pgdir pn = none ∨ ∃ e, pgdir pn = some e ∧ e &&& PTE_P = 0) :
    showmappings_pages pgdir start_addr end_addr (n + 2)
      = ([Out.notMapped (end_addr / PGSIZE * PGSIZE)], true) := by
  simp only [PGSIZE, WORD] at hs he hpage
  have hup : ROUNDUP start_addr PGSIZE = end_addr / 4096 * 4096 := by
    simp only [ROUNDUP, ROUNDDOWN, PGSIZE, WORD]
    omega
  have h1 : end_addr / 4096 * 4096 ≤ end_addr ∧ end_addr / 4096 * 4096 ≥ start_addr := by
    omega
  have h2 : ¬ ((end_addr / 4096 * 4096 + 4096) % 4294967296 ≤ end_addr ∧
      (end_addr / 4096 * 4096 + 4096) % 4294967296 ≥ start_addr) := by
    omega
  unfold showmappings_pages
  rw [hup]
  simp only [showmappings_loop, PGSIZE, WORD]
  rw [if_pos h1, if_neg h2]
  simp [showmappings_report_unmapped pgdir _ hun]

/-- C6, amended: when `start` is not page-aligned, `end` lies in the page
right after the page of `start`, and nothing is mapped, `mon_showmappings`
returns 0 having printed, after its header, exactly one "not mapped" report,
for the page of `end` (the first page-aligned address above `start`); the
page of `start` is not reported. -/
theorem showmappings_one_boundary (x : Ext) (k : Kern) (cmd a1 a2 : String)
    (v1 v2 : Int) (n : Nat)
    (h1 : x.strtol a1 = (v1, "")) (h2 : x.strtol a2 = (v2, ""))
    (hs : toU32 v1 % PGSIZE ≠ 0)
    (hpage : toU32 v2 / PGSIZE = toU32 v1 / PGSIZE + 1)
    (hun : ∀ pn, k.pgdir pn = none ∨ ∃ e, k.pgdir pn = some e ∧ e &&& PTE_P = 0) :
    showmappings_pages k.pgdir (toU32 v1) (toU32 v2) (n + 2)
      = ([Out.notMapped (toU32 v2 / PGSIZE * PGSIZE)], true) ∧
    (mon_showmappings x (n + 2) [cmd, a1, a2] k).map (fun r => (r.1, r.2.out))
      = some (0, k.out ++ [Out.showHeader a1 a2,
          Out.notMapped (toU32 v2 / PGSIZE * PGSIZE)]) := by
  have hp := showmappings_pages_one_boundary k.pgdir (toU32 v1) (toU32 v2) n hs
    (toU32_lt v2) hpage hun
  refine ⟨hp, ?_⟩
  rw [mon_showmappings_parsed x (n + 2) k cmd a1 a2 v1 v2 h1 h2, hp]
  simp [cprintf]

theorem showmappings_one_boundary_witness :
    showmappings_pages (kernOf (fun _ => none)).pgdir (toU32 0xffc) (toU32 0x1004) (0 + 2)
      = ([Out.notMapped (toU32 0x1004 / PGSIZE * PGSIZE)], true) ∧
    (mon_showmappings plainExt (0 + 2) ["showmappings", "ffc", "1004"]
        (kernOf (fun _ => none))).map (fun r => (r.1, r.2.out))
      = some (0, (kernOf (fun _ => none)).out ++ [Out.showHeader "ffc" "1004",
          Out.notMapped (toU32 0x1004 / PGSIZE * PGSIZE)]) :=
  showmappings_one_boundary plainExt (kernOf (fun _ => none)) "showmappings" "ffc" "1004"
    0xffc 0x1004 0 (by decide) (by decide) (by decide) (by decide) (fun _ => Or.inl rfl)

theorem showmappings_loop_wraps (pgdir : PageTable) (end_addr : Nat)
    (he : 0xFFFFF000 ≤ end_addr) :
    ∀ fuel cur_addr, cur_addr < WORD → cur_addr % PGSIZE = 0 →
      (showmappings_loop pgdir 0 end_addr fuel cur_addr).2 = false := by
  intro fuel
  induction fuel with
  | zero => intro cur _ _; rfl
  | succ n ih =>
    intro cur hlt hal
    simp only [PGSIZE, WORD] at hlt hal
    have hc : cur ≤ end_addr ∧ cur ≥ 0 := by omega
    simp only [showmappings_loop, hc, and_self, if_true]
    apply ih
    · simp only [PGSIZE, WORD]; omega
    · simp only [PGSIZE, WORD]; omega

/-- C7: with `start = 0` and `end = 0xFFFFFFFF` the page loop never ends:
whatever the number of steps allowed, it is still running, and the command
`showmappings 0 ffffffff` does not return. -/
theorem showmappings_never_ends_at_top (pgdir : PageTable) (fuel : Nat) (k : Kern) :
    (showmappings_pages pgdir 0 0xFFFFFFFF fuel).2 = false ∧
    runcmd plainExt fuel "showmappings 0 ffffffff" k = none := by
  have h : ∀ pg, (showmappings_pages pg 0 0xFFFFFFFF fuel).2 = false := fun pg =>
    showmappings_loop_wraps pg 0xFFFFFFFF (by norm_num) fuel _ (by decide) (by decide)
  refine ⟨h pgdir, ?_⟩
  have hr : runcmd plainExt fuel "showmappings 0 ffffffff" k
      = if (showmappings_pages k.pgdir 0 0xFFFFFFFF fuel).2 then
          some (0, { cprintf k (.showHeader "0" "ffffffff") with
            out := (cprintf k (.showHeader "0" "ffffffff")).out
              ++ (showmappings_pages k.pgdir 0 0xFFFFFFFF fuel).1 })
        else none := rfl
  rw [hr, h k.pgdir]
  rfl


theorem showmappings_loop_wraps_report (pgdir : PageTable) (end_addr : Nat)
    (he : 0xFFFFF000 ≤ end_addr) :
    ∀ fuel cur_addr j, cur_addr < WORD → cur_addr % PGSIZE = 0 → j < fuel →
      (showmappings_loop pgdir 0 end_addr fuel cur_addr).1[j]?
        = some (showmappings_report pgdir ((cur_addr + j * PGSIZE) % WORD)) := by
  intro fuel
  induction fuel with
  | zero => intro cur j _ _ hj; omega
  | succ n ih =>
    intro cur j hlt hal hj
    simp only [PGSIZE, WORD] at hlt hal
    have hc : cur ≤ end_addr ∧ cur ≥ 0 := by omega
    simp only [showmappings_loop, hc, and_self, if_true]
    cases j with
    | zero =>
      have h0 : (cur + 0 * PGSIZE) % WORD = cur := by
        simp only [PGSIZE, WORD]; omega
      rw [h0, List.getElem?_cons_zero]
    | succ i =>
      have hi : i < n := by omega
      have hstep : ((cur + PGSIZE) % WORD + i * PGSIZE) % WORD
          = (cur + (i + 1) * PGSIZE) % WORD := by
        simp only [PGSIZE, WORD]; omega
      rw [List.getElem?_cons_succ, ih ((cur + PGSIZE) % WORD) i
        (by simp only [PGSIZE, WORD]; omega) (by simp only [PGSIZE, WORD]; omega) hi, hstep]

/-- C8: with `start = 0` and `end = 0xFFFFFFFF` (where `ROUNDUP(start)` does
not overflow) the pages are not reported once each: after the report for the
last page 0xFFFFF000 the loop reports page 0 again (the first and the
1048577th report are both the one for page 0) and is still running. -/
theorem showmappings_reports_page_zero_twice (pgdir : PageTable) :
    (showmappings_pages pgdir 0 0xFFFFFFFF 1048577).1[0]?
      = some (showmappings_report pgdir 0) ∧
    (showmappings_pages pgdir 0 0xFFFFFFFF 1048577).1[1048575]?
      = some (showmappings_report pgdir 0xFFFFF000) ∧
    (showmappings_pages pgdir 0 0xFFFFFFFF 1048577).1[1048576]?
      = some (showmappings_report pgdir 0) ∧
    (showmappings_pages pgdir 0 0xFFFFFFFF 1048577).2 = false := by
  have hr : ROUNDUP 0 PGSIZE = 0 := by decide
  have h := showmappings_loop_wraps_report pgdir 0xFFFFFFFF (by norm_num) 1048577 0
  unfold showmappings_pages
  rw [hr]
  refine ⟨?_, ?_, ?_, ?_⟩
  · simpa using h 0 (by decide) (by decide) (by norm_num)
  · simpa [PGSIZE, WORD] using h 1048575 (by decide) (by decide) (by norm_num)
  · simpa [PGSIZE, WORD] using h 1048576 (by decide) (by decide) (by norm_num)
  · exact showmappings_loop_wraps pgdir 0xFFFFFFFF (by norm_num) _ _ (by decide) (by decide)

/-! ## The page loop away from the wrap-around -/

theorem filter_aligned_gap (cur m : Nat) (hal : cur % 4096 = 0) (hm : m ≤ 4095) :
    (List.range' (cur + 1) m).filter (fun a => decide (a % 4096 = 0)) = [] := by
  rw [List.filter_eq_nil_iff]
  intro a ha
  rw [List.mem_range'_1] at ha
  simp only [decide_eq_true_eq]
  omega

theorem filter_aligned_step (cur m : Nat) (hal : cur % 4096 = 0) (hm : 0 < m) :
    (List.range' cur m).filter (fun a => decide (a % 4096 = 0))
      = cur :: (List.range' (cur + 4096) (m - 4096)).filter
          (fun a => decide (a % 4096 = 0)) := by
  obtain ⟨k, rfl⟩ : ∃ k, m = k + 1 := ⟨m - 1, by omega⟩
  rw [List.range'_succ, List.filter_cons_of_pos (by simpa using hal)]
  refine congrArg (List.cons cur) ?_
  by_cases hk : k ≤ 4095
  · have h0 : k + 1 - 4096 = 0 := by omega
    rw [filter_aligned_gap cur k hal hk, h0, List.range'_zero, List.filter_nil]
  · have hsplit : List.range' (cur + 1) k
        = List.range' (cur + 1) 4095 ++ List.range' (cur + 4096) (k + 1 - 4096) := by
      rw [show cur + 4096 = cur + 1 + 4095 by omega, List.range'_append_1]
      refine congrArg (List.range' (cur + 1)) ?_
      omega
    rw [hsplit, List.filter_append, filter_aligned_gap cur 4095 hal (by omega), List.nil_append]


theorem showmappings_loop_exact (pgdir : PageTable) (start_addr end_addr : Nat)
    (he : end_addr < WORD) (hnw : start_addr ≠ 0 ∨ end_addr < 0xFFFFF000) :
    ∀ n cur, cur % 4096 = 0 → start_addr ≤ cur → cur < WORD →
      (end_addr + 4096 - cur) / 4096 ≤ n →
      showmappings_loop pgdir start_addr end_addr (n + 1) cur
        = (((List.range' cur (end_addr + 1 - cur)).filter
            (fun a => decide (a % 4096 = 0))).map (showmappings_report pgdir), true) := by
  simp only [WORD] at he
  intro n
  induction n with
  | zero =>
    intro cur hal hsc hlt hb
    simp only [WORD] at hlt
    have hgt : ¬ (cur ≤ end_addr ∧ cur ≥ start_addr) := by omega
    have h0 : end_addr + 1 - cur = 0 := by omega
    simp only [showmappings_loop, if_neg hgt, h0, List.range'_zero, List.filter_nil,
      List.map_nil]
  | succ n ih =>
    intro cur hal hsc hlt hb
    simp only [WORD] at hlt
    by_cases hce : cur ≤ end_addr
    · have hc : cur ≤ end_addr ∧ cur ≥ start_addr := ⟨hce, hsc⟩
      rw [showmappings_loop, if_pos hc, filter_aligned_step cur _ hal (by omega)]
      by_cases hw : cur + 4096 < 4294967296
      · have hnext : (cur + PGSIZE) % WORD = cur + 4096 := by
          simp only [PGSIZE, WORD]; omega
        rw [hnext, ih (cur + 4096) (by omega) (by omega) (by simp only [WORD]; omega)
          (by omega)]
        have hlen : end_addr + 1 - (cur + 4096) = end_addr + 1 - cur - 4096 := by omega
        simp only [hlen, List.map_cons]
      · have hnext : (cur + PGSIZE) % WORD = 0 := by
          simp only [PGSIZE, WORD]; omega
        have hstop : ¬ (0 ≤ end_addr ∧ 0 ≥ start_addr) := by omega
        have h0 : end_addr + 1 - cur - 4096 = 0 := by omega
        rw [hnext, showmappings_loop, if_neg hstop]
        simp only [h0, List.range'_zero, List.filter_nil, List.map_cons, List.map_nil]
    · have hgt : ¬ (cur ≤ end_addr ∧ cur ≥ start_addr) := fun h => hce h.1
      have h0 : end_addr + 1 - cur = 0 := by omega
      simp only [showmappings_loop, if_neg hgt, h0, List.range'_zero, List.filter_nil,
        List.map_nil]

theorem spec_pages_eq (start_addr end_addr c0 : Nat)
    (hc : (start_addr + PGSIZE - 1) / PGSIZE * PGSIZE = c0) :
    spec_pages start_addr end_addr
      = (List.range' c0 (end_addr + 1 - c0)).filter (fun a => decide (a % 4096 = 0)) := by
  have hdef : spec_pages start_addr end_addr
      = (List.range' 0 (end_addr + 1)).filter (fun a => decide (a % 4096 = 0 ∧ c0 ≤ a)) := by
    unfold spec_pages
    rw [hc, List.range_eq_range']
    rfl
  rw [hdef]
  by_cases hle : c0 ≤ end_addr + 1
  · have hsplit : List.range' 0 (end_addr + 1)
        = List.range' 0 c0 ++ List.range' c0 (end_addr + 1 - c0) := by
      rw [show List.range' c0 (end_addr + 1 - c0) = List.range' (0 + c0) (end_addr + 1 - c0)
        by rw [Nat.zero_add], List.range'_append_1]
      refine congrArg (List.range' 0) ?_
      omega
    have hfirst : (List.range' 0 c0).filter (fun a => decide (a % 4096 = 0 ∧ c0 ≤ a)) = [] := by
      rw [List.filter_eq_nil_iff]
      intro a ha
      rw [List.mem_range'_1] at ha
      simp only [decide_eq_true_eq]
      omega
    rw [hsplit, List.filter_append, hfirst, List.nil_append]
    apply List.filter_congr
    intro a ha
    rw [List.mem_range'_1] at ha
    have hca : c0 ≤ a := ha.1
    simp [hca]
  · have h0 : end_addr + 1 - c0 = 0 := by omega
    rw [h0, List.range'_zero, List.filter_nil, List.filter_eq_nil_iff]
    intro a ha
    rw [List.mem_range'_1] at ha
    simp only [decide_eq_true_eq]
    omega

/-- Away from the wrap-around (`start ≠ 0` or `end < 0xFFFFF000`) the page
loop ends and reports exactly the page-aligned addresses `a` with
`roundUp(start) ≤ a ≤ end`, each once, in ascending order, each by the
report of its entry. -/
theorem showmappings_pages_exact (pgdir : PageTable) (start_addr end_addr : Nat)
    (hs : start_addr < WORD) (he : end_addr < WORD)
    (hnw : start_addr ≠ 0 ∨ end_addr < 0xFFFFF000) :
    ∃ fuel, showmappings_pages pgdir start_addr end_addr fuel
      = ((spec_pages start_addr end_addr).map (showmappings_report pgdir), true) := by
  rw [spec_pages_eq start_addr end_addr ((start_addr + 4095) / 4096 * 4096)
    (by simp only [PGSIZE]; omega)]
  simp only [WORD] at hs
  by_cases hov : start_addr + 4095 < 4294967296
  · have hup : ROUNDUP start_addr PGSIZE = (start_addr + 4095) / 4096 * 4096 := by
      simp only [ROUNDUP, ROUNDDOWN, PGSIZE, WORD]
      omega
    refine ⟨(end_addr + 4096 - (start_addr + 4095) / 4096 * 4096) / 4096 + 1, ?_⟩
    unfold showmappings_pages
    rw [hup]
    exact showmappings_loop_exact pgdir start_addr end_addr he hnw _ _
      (by omega) (by omega) (by simp only [WORD]; omega) (le_refl _)
  · have hup : ROUNDUP start_addr PGSIZE = 0 := by
      simp only [ROUNDUP, ROUNDDOWN, PGSIZE, WORD]
      omega
    have hstop : ¬ (0 ≤ end_addr ∧ 0 ≥ start_addr) := by omega
    have h0 : end_addr + 1 - (start_addr + 4095) / 4096 * 4096 = 0 := by
      simp only [WORD] at he
      omega
    refine ⟨1, ?_⟩
    unfold showmappings_pages
    rw [hup, showmappings_loop, if_neg hstop, h0]
    simp only [List.range'_zero, List.filter_nil, List.map_nil]

/-! ## `duppage` -/

theorem testBit_PTE_SYSCALL (i : Nat) :
    Nat.testBit PTE_SYSCALL i
      = (decide (i = 0) || decide (i = 1) || decide (i = 2) || decide (i = 9)
          || decide (i = 10) || decide (i = 11)) := by
  by_cases h : 12 ≤ i
  · rw [testBit_small _ i (by decide) h]
    have h0 : i ≠ 0 := by omega
    have h1 : i ≠ 1 := by omega
    have h2 : i ≠ 2 := by omega
    have h9 : i ≠ 9 := by omega
    have h10 : i ≠ 10 := by omega
    have h11 : i ≠ 11 := by omega
    simp [h0, h1, h2, h9, h10, h11]
  · have hi : i < 12 := by omega
    interval_cases i <;> decide

theorem PGNUM_page_va (pn : Nat) (hpn : pn < 1048576) : PGNUM ((pn * PGSIZE) % WORD) = pn := by
  simp only [PGNUM, PGSIZE, WORD, Nat.shiftRight_eq_div_pow]
  omega

theorem low12_and_flag (x f : Nat) (hf : f < 4096) : (x &&& 0xFFF) &&& f = x &&& f := by
  apply Nat.eq_of_testBit_eq; intro i
  simp only [Nat.testBit_and, testBit_low12]
  by_cases h : 12 ≤ i
  · simp [testBit_small f i hf h]
  · have h2 : i < 12 := by omega
    simp [h2]

theorem duppage_perm_lt (perm : Nat) : duppage_perm perm < 4096 := by
  have h : duppage_perm perm ≤ PTE_SYSCALL := Nat.and_le_right
  have h2 : PTE_SYSCALL = 3591 := by decide
  omega

/-- A page that is not shared, both installs succeeding: `duppage` returns 0
after installing the permissions of lines 76-80 first into the target
environment, then into the running one. -/
theorem duppage_private_eq (ok : Nat → Bool) (u : User) (envid : Int) (pn : Nat)
    (hS : u.pt u.self pn &&& PTE_SHARE = 0)
    (hok1 : ok u.ncalls = true) (hok2 : ok (u.ncalls + 1) = true) :
    duppage ok u envid pn
      = Outcome.returned 0
          (page_installed
            (page_installed u u.self ((pn * PGSIZE) % WORD) envid ((pn * PGSIZE) % WORD)
              (duppage_perm (u.pt u.self pn &&& 0xFFF)))
            u.self ((pn * PGSIZE) % WORD) u.self ((pn * PGSIZE) % WORD)
            (duppage_perm (u.pt u.self pn &&& 0xFFF))) := by
  have hS2 : (u.pt u.self pn &&& 0xFFF) &&& PTE_SHARE = 0 := by
    rw [low12_and_flag _ _ (by decide)]; exact hS
  simp [duppage, sys_page_map, hS2, hok1, hok2, page_installed]

/-- The entries of the page after `duppage` on a page that is not shared:
in the target and in the running environment the old frame with the
permissions of lines 76-80. -/
theorem duppage_private_state (ok : Nat → Bool) (u : User) (envid : Int) (pn : Nat)
    (hpn : pn < 1048576) (hS : u.pt u.self pn &&& PTE_SHARE = 0)
    (hok1 : ok u.ncalls = true) (hok2 : ok (u.ncalls + 1) = true) :
    ∃ u1, duppage ok u envid pn = Outcome.returned 0 u1 ∧
      u1.pt envid pn
        = PTE_ADDR (u.pt u.self pn) ||| duppage_perm (u.pt u.self pn &&& 0xFFF) ∧
      u1.pt u.self pn
        = PTE_ADDR (u.pt u.self pn) ||| duppage_perm (u.pt u.self pn &&& 0xFFF) := by
  have hfr := PTE_ADDR_or_low (u.pt u.self pn) _ (duppage_perm_lt (u.pt u.self pn &&& 0xFFF))
  refine ⟨_, duppage_private_eq ok u envid pn hS hok1 hok2, ?_, ?_⟩
  · by_cases he : envid = u.self
    · subst he
      simp [page_installed, PGNUM_page_va pn hpn, hfr]
    · have he2 : ¬ u.self = envid := fun h => he h.symm
      simp [page_installed, PGNUM_page_va pn hpn, he, he2]
  · by_cases he : envid = u.self
    · subst he
      simp [page_installed, PGNUM_page_va pn hpn, hfr]
    · have he2 : ¬ u.self = envid := fun h => he h.symm
      simp [page_installed, PGNUM_page_va pn hpn, he, he2]


theorem duppage_perm_eq_spec (old : Nat)
    (hW : old &&& PTE_W ≠ 0 ∨ old &&& PTE_COW ≠ 0) :
    duppage_perm (old &&& 0xFFF) = spec_cow_perm old := by
  have hlow : old &&& 0xFFF = old % 4096 := by
    have h : (0xFFF : Nat) = 2 ^ 12 - 1 := by norm_num
    rw [h, Nat.and_pow_two_sub_one_eq_mod]
  have hc : (old &&& 0xFFF) &&& PTE_W ≠ 0 ∨ (old &&& 0xFFF) &&& PTE_COW ≠ 0 := by
    rw [low12_and_flag _ _ (by decide), low12_and_flag _ _ (by decide)]; exact hW
  unfold duppage_perm spec_cow_perm
  rw [if_pos hc, ← hlow]
  apply Nat.eq_of_testBit_eq; intro i
  simp only [Nat.testBit_and, Nat.testBit_or, Nat.testBit_ldiff, testBit_not32, testBit_low12,
    testBit_PTE_W, testBit_PTE_COW, testBit_PTE_SYSCALL]
  by_cases h12 : 12 ≤ i
  · have h0 : i ≠ 0 := by omega
    have h1 : i ≠ 1 := by omega
    have h2 : i ≠ 2 := by omega
    have h9 : i ≠ 9 := by omega
    have h10 : i ≠ 10 := by omega
    have h11 : i ≠ 11 := by omega
    simp [h0, h1, h2, h9, h10, h11]
  · have hi : i < 12 := by omega
    have hi2 : i < 32 := by omega
    by_cases h1 : i = 1
    · subst h1; simp
    · simp [hi, hi2, h1]

theorem spec_cow_perm_lt (old : Nat) : spec_cow_perm old < 4096 := by
  have h : spec_cow_perm old ≤ PTE_SYSCALL := Nat.and_le_right
  have h2 : PTE_SYSCALL = 3591 := by decide
  omega

theorem spec_cow_perm_cow (old : Nat) : spec_cow_perm old &&& PTE_COW = PTE_COW := by
  apply Nat.eq_of_testBit_eq; intro i
  simp only [spec_cow_perm, Nat.testBit_and, Nat.testBit_or, Nat.testBit_ldiff,
    testBit_PTE_W, testBit_PTE_COW, testBit_PTE_SYSCALL]
  by_cases h : i = 11
  · subst h; simp
  · simp [h]

theorem spec_cow_perm_not_writable (old : Nat) : spec_cow_perm old &&& PTE_W = 0 := by
  apply Nat.eq_of_testBit_eq; intro i
  simp only [spec_cow_perm, Nat.testBit_and, Nat.testBit_or, Nat.testBit_ldiff,
    testBit_PTE_W, testBit_PTE_COW, testBit_PTE_SYSCALL, Nat.zero_testBit]
  by_cases h : i = 1
  · subst h; simp
  · simp [h]

/-- A page that is not shared: `duppage` returns only when both installs
succeed, and then it returns 0 in the state of `duppage_private_eq`. -/
theorem duppage_private_returned (ok : Nat → Bool) (u : User) (envid : Int) (pn : Nat)
    (r : Int) (u1 : User) (hS : u.pt u.self pn &&& PTE_SHARE = 0)
    (hret : duppage ok u envid pn = Outcome.returned r u1) :
    ok u.ncalls = true ∧ ok (u.ncalls + 1) = true := by
  have hS2 : (u.pt u.self pn &&& 0xFFF) &&& PTE_SHARE = 0 := by
    rw [low12_and_flag _ _ (by decide)]; exact hS
  cases h1 : ok u.ncalls with
  | false => simp [duppage, sys_page_map, hS2, h1] at hret
  | true =>
    cases h2 : ok (u.ncalls + 1) with
    | false => simp [duppage, sys_page_map, hS2, h1, h2, page_installed] at hret
    | true => exact ⟨rfl, rfl⟩

/-- C9: for a page of the running environment that is Present, not Shared,
and Writable or copy-on-write, `duppage` succeeds (returns) exactly when both
installs succeed, and after it has succeeded the new environment and the
source both map the page to the old frame, both with permission bits exactly
the old low twelve bits with Writable cleared and CopyOnWrite set, masked
with `PTE_SYSCALL`; these have CopyOnWrite set and Writable clear. -/
theorem duppage_cow_both (ok : Nat → Bool) (u : User) (envid : Int) (pn : Nat)
    (hpn : pn < 1048576)
    (hP : u.pt u.self pn &&& PTE_P ≠ 0)
    (hS : u.pt u.self pn &&& PTE_SHARE = 0)
    (hW : u.pt u.self pn &&& PTE_W ≠ 0 ∨ u.pt u.self pn &&& PTE_COW ≠ 0) :
    ((ok u.ncalls = true ∧ ok (u.ncalls + 1) = true) ↔
      ∃ u1, duppage ok u envid pn = Outcome.returned 0 u1) ∧
    ∀ r u1, duppage ok u envid pn = Outcome.returned r u1 →
      r = 0 ∧
      PTE_ADDR (u1.pt envid pn) = PTE_ADDR (u.pt u.self pn) ∧
      PTE_ADDR (u1.pt u.self pn) = PTE_ADDR (u.pt u.self pn) ∧
      u1.pt envid pn &&& 0xFFF = spec_cow_perm (u.pt u.self pn) ∧
      u1.pt u.self pn &&& 0xFFF = spec_cow_perm (u.pt u.self pn) ∧
      u1.pt envid pn &&& PTE_P ≠ 0 ∧ u1.pt u.self pn &&& PTE_P ≠ 0 ∧
      spec_cow_perm (u.pt u.self pn) &&& PTE_COW = PTE_COW ∧
      spec_cow_perm (u.pt u.self pn) &&& PTE_W = 0 := by
  have hlt := spec_cow_perm_lt (u.pt u.self pn)
  have hpres : (PTE_ADDR (u.pt u.self pn) ||| spec_cow_perm (u.pt u.self pn)) &&& PTE_P ≠ 0 := by
    rw [flag_P_iff] at hP ⊢
    simp only [spec_cow_perm, Nat.testBit_and, Nat.testBit_or, Nat.testBit_ldiff,
      testBit_PTE_W, testBit_PTE_COW, testBit_PTE_SYSCALL]
    have hmod : Nat.testBit (u.pt u.self pn % 4096) 0 = Nat.testBit (u.pt u.self pn) 0 := by
      have h := Nat.testBit_mod_two_pow (u.pt u.self pn) 12 0
      simpa using h
    simp [hmod, hP]
  constructor
  · constructor
    · rintro ⟨h1, h2⟩
      obtain ⟨u1, hret, -, -⟩ := duppage_private_state ok u envid pn hpn hS h1 h2
      exact ⟨u1, hret⟩
    · rintro ⟨u1, hret⟩
      exact duppage_private_returned ok u envid pn 0 u1 hS hret
  · intro r u1 hret
    obtain ⟨hok1, hok2⟩ := duppage_private_returned ok u envid pn r u1 hS hret
    obtain ⟨u2, hret2, hc, hs⟩ := duppage_private_state ok u envid pn hpn hS hok1 hok2
    rw [hret] at hret2
    obtain ⟨hr, hu⟩ := Outcome.returned.inj hret2
    subst hu
    rw [duppage_perm_eq_spec _ hW] at hc hs
    refine ⟨hr, ?_, ?_, ?_, ?_, ?_, ?_, spec_cow_perm_cow _, spec_cow_perm_not_writable _⟩
    · rw [hc]; exact PTE_ADDR_or_low _ _ hlt
    · rw [hs]; exact PTE_ADDR_or_low _ _ hlt
    · rw [hc]; exact low12_frame_or _ _ hlt
    · rw [hs]; exact low12_frame_or _ _ hlt
    · rw [hc]; exact hpres
    · rw [hs]; exact hpres

theorem duppage_cow_both_witness :
    (∃ u1, duppage allOk (userOnePage 0x5027) 2 0x800 = Outcome.returned 0 u1) ∧
    ∀ r u1, duppage allOk (userOnePage 0x5027) 2 0x800 = Outcome.returned r u1 →
      r = 0 ∧
      PTE_ADDR (u1.pt 2 0x800) = PTE_ADDR 0x5027 ∧
      PTE_ADDR (u1.pt 1 0x800) = PTE_ADDR 0x5027 ∧
      u1.pt 2 0x800 &&& 0xFFF = spec_cow_perm 0x5027 ∧
      u1.pt 1 0x800 &&& 0xFFF = spec_cow_perm 0x5027 ∧
      u1.pt 2 0x800 &&& PTE_P ≠ 0 ∧ u1.pt 1 0x800 &&& PTE_P ≠ 0 ∧
      spec_cow_perm 0x5027 &&& PTE_COW = PTE_COW ∧
      spec_cow_perm 0x5027 &&& PTE_W = 0 :=
  ⟨(duppage_cow_both allOk (userOnePage 0x5027) 2 0x800 (by decide) (by decide) (by decide)
      (Or.inl (by decide))).1.mp ⟨rfl, rfl⟩,
    (duppage_cow_both allOk (userOnePage 0x5027) 2 0x800 (by decide) (by decide) (by decide)
      (Or.inl (by decide))).2⟩

/-- A shared page, the install succeeding: `duppage` returns 0 after the one
install of the low twelve bits masked with `PTE_SYSCALL` into the target. -/
theorem duppage_shared_eq (ok : Nat → Bool) (u : User) (envid : Int) (pn : Nat)
    (hS : u.pt u.self pn &&& PTE_SHARE ≠ 0) (hok : ok u.ncalls = true) :
    duppage ok u envid pn
      = Outcome.returned 0
          (page_installed u u.self ((pn * PGSIZE) % WORD) envid ((pn * PGSIZE) % WORD)
            ((u.pt u.self pn &&& 0xFFF) &&& PTE_SYSCALL)) := by
  have hS2 : (u.pt u.self pn &&& 0xFFF) &&& PTE_SHARE ≠ 0 := by
    rw [low12_and_flag _ _ (by decide)]; exact hS
  simp [duppage, sys_page_map, hS2, hok]

/-- C10, as stated, fails: a Present, Shared page whose entry 0x5467 also has
the Accessed and Dirty bits (0x20, 0x40) is installed into the new
environment with the permission bits 0x407, not the source's 0x467; and with
the entry 0x54e7, which has the LargePage bit as well, the new environment's
entry has no LargePage bit. -/
theorem duppage_shared_counterexample :
    (userOnePage 0x5467).pt 1 0x800 &&& PTE_P ≠ 0 ∧
    (userOnePage 0x5467).pt 1 0x800 &&& PTE_SHARE ≠ 0 ∧
    (userOnePage 0x5467).pt 1 0x800 &&& 0xFFF = 0x467 ∧
    (∃ u1, duppage allOk (userOnePage 0x5467) 2 0x800 = Outcome.returned 0 u1) ∧
    (duppage allOk (userOnePage 0x5467) 2 0x800).state.pt 2 0x800 &&& 0xFFF = 0x407 ∧
    (duppage allOk (userOnePage 0x5467) 2 0x800).state.pt 2 0x800 &&& 0xFFF
      ≠ (userOnePage 0x5467).pt 1 0x800 &&& 0xFFF ∧
    (userOnePage 0x54e7).pt 1 0x800 &&& PTE_PS ≠ 0 ∧
    (∃ u1, duppage allOk (userOnePage 0x54e7) 2 0x800 = Outcome.returned 0 u1) ∧
    (duppage allOk (userOnePage 0x54e7) 2 0x800).state.pt 2 0x800 &&& PTE_PS = 0 := by
  refine ⟨by decide, by decide, by decide, ⟨_, rfl⟩, by decide, by decide, by decide,
    ⟨_, rfl⟩, by decide⟩

theorem duppage_shared_returned (ok : Nat → Bool) (u : User) (envid : Int) (pn : Nat)
    (r : Int) (u1 : User) (hS : u.pt u.self pn &&& PTE_SHARE ≠ 0)
    (hret : duppage ok u envid pn = Outcome.returned r u1) :
    ok u.ncalls = true := by
  have hS2 : (u.pt u.self pn &&& 0xFFF) &&& PTE_SHARE ≠ 0 := by
    rw [low12_and_flag _ _ (by decide)]; exact hS
  cases h1 : ok u.ncalls with
  | false => simp [duppage, sys_page_map, hS2, h1] at hret
  | true => rfl

/-- C10, amended: for a Present page of the running environment whose
permissions include Shared, `duppage` succeeds (returns) exactly when its one
install succeeds, and after it has succeeded the new environment maps the
page to the same frame with the source's permission bits masked with
`PTE_SYSCALL` (Present, Writable, User and the three software bits are kept
as they are, so Writable stays if set and no copy-on-write conversion is
made; the other low bits are cleared); the source's own entries are not
rewritten and one install is made. -/
theorem duppage_shared (ok : Nat → Bool) (u : User) (envid : Int) (pn : Nat)
    (hpn : pn < 1048576)
    (hP : u.pt u.self pn &&& PTE_P ≠ 0)
    (hS : u.pt u.self pn &&& PTE_SHARE ≠ 0)
    (hne : envid ≠ u.self) :
    (ok u.ncalls = true ↔ ∃ u1, duppage ok u envid pn = Outcome.returned 0 u1) ∧
    ∀ r u1, duppage ok u envid pn = Outcome.returned r u1 →
      r = 0 ∧
      PTE_ADDR (u1.pt envid pn) = PTE_ADDR (u.pt u.self pn) ∧
      u1.pt envid pn &&& 0xFFF = u.pt u.self pn &&& PTE_SYSCALL ∧
      u1.pt envid pn &&& PTE_P ≠ 0 ∧
      u1.pt envid pn &&& PTE_W = u.pt u.self pn &&& PTE_W ∧
      u1.pt envid pn &&& PTE_U = u.pt u.self pn &&& PTE_U ∧
      u1.pt envid pn &&& PTE_SHARE = u.pt u.self pn &&& PTE_SHARE ∧
      u1.pt envid pn &&& PTE_COW = u.pt u.self pn &&& PTE_COW ∧
      u1.pt u.self = u.pt u.self ∧
      u1.ncalls = u.ncalls + 1 := by
  have hlt : (u.pt u.self pn &&& 0xFFF) &&& PTE_SYSCALL < 4096 := by
    have h : (u.pt u.self pn &&& 0xFFF) &&& PTE_SYSCALL ≤ PTE_SYSCALL := Nat.and_le_right
    have h2 : PTE_SYSCALL = 3591 := by decide
    omega
  have hnew : (page_installed u u.self ((pn * PGSIZE) % WORD) envid ((pn * PGSIZE) % WORD)
      ((u.pt u.self pn &&& 0xFFF) &&& PTE_SYSCALL)).pt envid pn
      = PTE_ADDR (u.pt u.self pn) ||| ((u.pt u.self pn &&& 0xFFF) &&& PTE_SYSCALL) := by
    simp [page_installed, PGNUM_page_va pn hpn]
  have hflag : ∀ b, (b = 0 ∨ b = 1 ∨ b = 2 ∨ b = 10 ∨ b = 11) →
      (PTE_ADDR (u.pt u.self pn) ||| ((u.pt u.self pn &&& 0xFFF) &&& PTE_SYSCALL)) &&& 2 ^ b
        = u.pt u.self pn &&& 2 ^ b := by
    intro b hb
    apply Nat.eq_of_testBit_eq; intro i
    simp only [PTE_ADDR, Nat.testBit_and, Nat.testBit_or, testBit_frameMask, testBit_low12,
      testBit_PTE_SYSCALL, Nat.testBit_two_pow]
    by_cases hbi : b = i
    · subst hbi
      rcases hb with h | h | h | h | h <;> subst h <;> simp
    · simp [hbi]
  constructor
  · constructor
    · intro hok
      exact ⟨_, duppage_shared_eq ok u envid pn hS hok⟩
    · rintro ⟨u1, hret⟩
      exact duppage_shared_returned ok u envid pn 0 u1 hS hret
  · intro r u1 hret
    have hok := duppage_shared_returned ok u envid pn r u1 hS hret
    rw [duppage_shared_eq ok u envid pn hS hok] at hret
    obtain ⟨hr, hu⟩ := Outcome.returned.inj hret
    subst hu
    refine ⟨hr.symm, ?_, ?_, ?_, ?_, ?_, ?_, ?_, ?_, ?_⟩
    · rw [hnew]; exact PTE_ADDR_or_low _ _ hlt
    · rw [hnew, low12_frame_or _ _ hlt, low12_and_flag _ _ (by decide)]
    · rw [hnew, show PTE_P = 2 ^ 0 from rfl, hflag 0 (by simp)]; exact hP
    · rw [hnew]; exact hflag 1 (by simp)
    · rw [hnew]; exact hflag 2 (by simp)
    · rw [hnew]; exact hflag 10 (by simp)
    · rw [hnew]; exact hflag 11 (by simp)
    · funext p
      have he2 : ¬ u.self = envid := fun h => hne h.symm
      simp [page_installed, he2]
    · simp [page_installed]

theorem duppage_shared_witness :
    (∃ u1, duppage allOk (userOnePage 0x5467) 2 0x800 = Outcome.returned 0 u1) ∧
    ∀ r u1, duppage allOk (userOnePage 0x5467) 2 0x800 = Outcome.returned r u1 →
      r = 0 ∧
      PTE_ADDR (u1.pt 2 0x800) = PTE_ADDR 0x5467 ∧
      u1.pt 2 0x800 &&& 0xFFF = 0x5467 &&& PTE_SYSCALL ∧
      u1.pt 2 0x800 &&& PTE_P ≠ 0 ∧
      u1.pt 2 0x800 &&& PTE_W = 0x5467 &&& PTE_W ∧
      u1.pt 2 0x800 &&& PTE_U = 0x5467 &&& PTE_U ∧
      u1.pt 2 0x800 &&& PTE_SHARE = 0x5467 &&& PTE_SHARE ∧
      u1.pt 2 0x800 &&& PTE_COW = 0x5467 &&& PTE_COW ∧
      u1.pt 1 = (userOnePage 0x5467).pt 1 ∧
      u1.ncalls = 0 + 1 :=
  ⟨(duppage_shared allOk (userOnePage 0x5467) 2 0x800 (by decide) (by decide) (by decide)
      (by decide)).1.mp rfl,
    (duppage_shared allOk (userOnePage 0x5467) 2 0x800 (by decide) (by decide) (by decide)
      (by decide)).2⟩


/-! ## `mon_changeperm`: the frame of the edit -/

theorem ROUNDDOWN_eq_of_PGNUM_eq (a b : Nat) (h : PGNUM a = PGNUM b) :
    ROUNDDOWN a PGSIZE = ROUNDDOWN b PGSIZE := by
  simp only [PGNUM, ROUNDDOWN, PGSIZE, Nat.shiftRight_eq_div_pow] at h ⊢
  omega

theorem changeperm_core_same_page (k : Kern) (a b r : Nat) (type : Int)
    (h : PGNUM a = PGNUM b) :
    changeperm_core k a r type = changeperm_core k b r type := by
  simp only [changeperm_core, ROUNDDOWN_eq_of_PGNUM_eq a b h]

theorem changeperm_core_other_entries (k : Kern) (a r : Nat) (type : Int) (pn : Nat)
    (hpn : pn ≠ PGNUM a) :
    (changeperm_core k a r type).2.pgdir pn = k.pgdir pn := by
  unfold changeperm_core
  simp only [pgdir_walk, PGNUM_ROUNDDOWN]
  cases h : k.pgdir (PGNUM a) with
  | none => simp [cprintf]
  | some e =>
    by_cases hp : flagSet e PTE_P = true
    · simp [hp, cprintf, pte_store, PGNUM_ROUNDDOWN, hpn]
    · simp [hp, cprintf]

/-- C20: `mon_changeperm` changes at most the entry of the page that holds
the given address: every other entry of the page table is as before, and two
addresses inside the same page give the same return value and the same
resulting page table. -/
theorem changeperm_touches_one_entry (x : Ext) (k : Kern) (cmd a1 a2 : String)
    (v1 v2 type : Int)
    (h1 : x.strtol a1 = (v1, "")) (h2 : x.strtol a2 = (v2, "")) :
    (∀ pn, pn ≠ PGNUM (toU32 v1) →
      (mon_changeperm x [cmd, a1, a2] k type).2.pgdir pn = k.pgdir pn) ∧
    (∀ (cmd2 b1 : String) (w1 : Int), x.strtol b1 = (w1, "") →
      PGNUM (toU32 w1) = PGNUM (toU32 v1) →
      (mon_changeperm x [cmd2, b1, a2] k type).1 = (mon_changeperm x [cmd, a1, a2] k type).1 ∧
      (mon_changeperm x [cmd2, b1, a2] k type).2.pgdir
        = (mon_changeperm x [cmd, a1, a2] k type).2.pgdir) := by
  rw [mon_changeperm_parsed x k cmd a1 a2 v1 v2 type h1 h2]
  refine ⟨fun pn hpn => changeperm_core_other_entries k _ _ type pn hpn, ?_⟩
  intro cmd2 b1 w1 hb hpg
  rw [mon_changeperm_parsed x k cmd2 b1 a2 w1 v2 type hb h2,
    changeperm_core_same_page k _ _ (toU32 v2) type hpg]
  exact ⟨rfl, rfl⟩

theorem changeperm_touches_one_entry_witness :
    (∀ pn, pn ≠ PGNUM (toU32 0x1abc) →
      (mon_changeperm plainExt ["rmperm", "1abc", "2"] kernOnePage PERM_RM).2.pgdir pn
        = kernOnePage.pgdir pn) ∧
    (∀ (cmd2 b1 : String) (w1 : Int), plainExt.strtol b1 = (w1, "") →
      PGNUM (toU32 w1) = PGNUM (toU32 0x1abc) →
      (mon_changeperm plainExt [cmd2, b1, "2"] kernOnePage PERM_RM).1
        = (mon_changeperm plainExt ["rmperm", "1abc", "2"] kernOnePage PERM_RM).1 ∧
      (mon_changeperm plainExt [cmd2, b1, "2"] kernOnePage PERM_RM).2.pgdir
        = (mon_changeperm plainExt ["rmperm", "1abc", "2"] kernOnePage PERM_RM).2.pgdir) :=
  changeperm_touches_one_entry plainExt kernOnePage "rmperm" "1abc" "2" 0x1abc 2 PERM_RM
    (by decide) (by decide)


/-! ## `duppage`: read-only pages and the order of the installs -/

theorem duppage_perm_readonly (old : Nat) (hW : old &&& PTE_W = 0)
    (hC : old &&& PTE_COW = 0) :
    duppage_perm (old &&& 0xFFF) = old &&& PTE_SYSCALL := by
  have hc : ¬ ((old &&& 0xFFF) &&& PTE_W ≠ 0 ∨ (old &&& 0xFFF) &&& PTE_COW ≠ 0) := by
    rw [low12_and_flag _ _ (by decide), low12_and_flag _ _ (by decide)]
    simp [hW, hC]
  unfold duppage_perm
  rw [if_neg hc, low12_and_flag _ _ (by decide)]

/-- C19, as stated, fails: a Present read-only page that is neither Shared
nor copy-on-write, with the entry 0x5025 (Present, User, Accessed), is
installed into the new environment and re-installed into the source with the
permission bits 0x005, not the old bits 0x025. -/
theorem duppage_readonly_counterexample :
    (userOnePage 0x5025).pt 1 0x800 &&& PTE_P ≠ 0 ∧
    (userOnePage 0x5025).pt 1 0x800 &&& PTE_SHARE = 0 ∧
    (userOnePage 0x5025).pt 1 0x800 &&& PTE_W = 0 ∧
    (userOnePage 0x5025).pt 1 0x800 &&& PTE_COW = 0 ∧
    (userOnePage 0x5025).pt 1 0x800 &&& 0xFFF = 0x025 ∧
    (∃ u1, duppage allOk (userOnePage 0x5025) 2 0x800 = Outcome.returned 0 u1) ∧
    (duppage allOk (userOnePage 0x5025) 2 0x800).state.pt 2 0x800 &&& 0xFFF = 0x005 ∧
    (duppage allOk (userOnePage 0x5025) 2 0x800).state.pt 1 0x800 &&& 0xFFF = 0x005 := by
  refine ⟨by decide, by decide, by decide, by decide, by decide, ⟨_, rfl⟩, by decide,
    by decide⟩

/-- C19, amended: for a Present page of the running environment that is not
Shared, not Writable and not copy-on-write, `duppage` succeeds exactly when
both installs succeed, and the permissions it then has installed into the new
environment and re-installed into the source are the old permission bits
masked with `PTE_SYSCALL` (Present, Writable, User and the three software
bits as they were, the other low bits cleared), at the old frame. -/
theorem duppage_readonly (ok : Nat → Bool) (u : User) (envid : Int) (pn : Nat)
    (hpn : pn < 1048576)
    (hP : u.pt u.self pn &&& PTE_P ≠ 0)
    (hS : u.pt u.self pn &&& PTE_SHARE = 0)
    (hW : u.pt u.self pn &&& PTE_W = 0)
    (hC : u.pt u.self pn &&& PTE_COW = 0) :
    ((ok u.ncalls = true ∧ ok (u.ncalls + 1) = true) ↔
      ∃ u1, duppage ok u envid pn = Outcome.returned 0 u1) ∧
    ∀ r u1, duppage ok u envid pn = Outcome.returned r u1 →
      r = 0 ∧
      PTE_ADDR (u1.pt envid pn) = PTE_ADDR (u.pt u.self pn) ∧
      PTE_ADDR (u1.pt u.self pn) = PTE_ADDR (u.pt u.self pn) ∧
      u1.pt envid pn &&& 0xFFF = u.pt u.self pn &&& PTE_SYSCALL ∧
      u1.pt u.self pn &&& 0xFFF = u.pt u.self pn &&& PTE_SYSCALL ∧
      u1.pt envid pn &&& PTE_P ≠ 0 ∧ u1.pt u.self pn &&& PTE_P ≠ 0 := by
  have hlt : u.pt u.self pn &&& PTE_SYSCALL < 4096 := by
    have h : u.pt u.self pn &&& PTE_SYSCALL ≤ PTE_SYSCALL := Nat.and_le_right
    have h2 : PTE_SYSCALL = 3591 := by decide
    omega
  have hpres : (PTE_ADDR (u.pt u.self pn) ||| (u.pt u.self pn &&& PTE_SYSCALL)) &&& PTE_P ≠ 0 := by
    rw [flag_P_iff] at hP ⊢
    simp only [Nat.testBit_and, Nat.testBit_or, testBit_PTE_SYSCALL]
    simp [hP]
  constructor
  · constructor
    · rintro ⟨h1, h2⟩
      obtain ⟨u1, hret, -, -⟩ := duppage_private_state ok u envid pn hpn hS h1 h2
      exact ⟨u1, hret⟩
    · rintro ⟨u1, hret⟩
      exact duppage_private_returned ok u envid pn 0 u1 hS hret
  · intro r u1 hret
    obtain ⟨hok1, hok2⟩ := duppage_private_returned ok u envid pn r u1 hS hret
    obtain ⟨u2, hret2, hc, hs⟩ := duppage_private_state ok u envid pn hpn hS hok1 hok2
    rw [hret] at hret2
    obtain ⟨hr, hu⟩ := Outcome.returned.inj hret2
    subst hu
    rw [duppage_perm_readonly _ hW hC] at hc hs
    refine ⟨hr, ?_, ?_, ?_, ?_, ?_, ?_⟩
    · rw [hc]; exact PTE_ADDR_or_low _ _ hlt
    · rw [hs]; exact PTE_ADDR_or_low _ _ hlt
    · rw [hc]; exact low12_frame_or _ _ hlt
    · rw [hs]; exact low12_frame_or _ _ hlt
    · rw [hc]; exact hpres
    · rw [hs]; exact hpres

theorem duppage_readonly_witness :
    (∃ u1, duppage allOk (userOnePage 0x5025) 2 0x800 = Outcome.returned 0 u1) ∧
    ∀ r u1, duppage allOk (userOnePage 0x5025) 2 0x800 = Outcome.returned r u1 →
      r = 0 ∧
      PTE_ADDR (u1.pt 2 0x800) = PTE_ADDR 0x5025 ∧
      PTE_ADDR (u1.pt 1 0x800) = PTE_ADDR 0x5025 ∧
      u1.pt 2 0x800 &&& 0xFFF = 0x5025 &&& PTE_SYSCALL ∧
      u1.pt 1 0x800 &&& 0xFFF = 0x5025 &&& PTE_SYSCALL ∧
      u1.pt 2 0x800 &&& PTE_P ≠ 0 ∧ u1.pt 1 0x800 &&& PTE_P ≠ 0 :=
  ⟨(duppage_readonly allOk (userOnePage 0x5025) 2 0x800 (by decide) (by decide) (by decide)
      (by decide) (by decide)).1.mp ⟨rfl, rfl⟩,
    (duppage_readonly allOk (userOnePage 0x5025) 2 0x800 (by decide) (by decide) (by decide)
      (by decide) (by decide)).2⟩

/-- C13: for a page that is not Shared, `duppage` makes its two installs in
a fixed order, the one into the new environment as system call number
`u.ncalls` and the one into the source as the next.  If the first install
fails it panics with every mapping as it was; if the first succeeds and the
second fails it panics with the new environment's mapping in place and the
source's mappings as they were; if both succeed it returns 0 in the state
reached by re-installing the source's mapping in the state in which the new
environment's mapping already exists. -/
theorem duppage_child_before_parent (ok : Nat → Bool) (u : User) (envid : Int) (pn : Nat)
    (hpn : pn < 1048576)
    (hS : u.pt u.self pn &&& PTE_SHARE = 0)
    (hne : envid ≠ u.self) :
    (ok u.ncalls = false →
      ∃ u1, duppage ok u envid pn = Outcome.panicked u1 ∧ u1.pt = u.pt ∧
        u1.ncalls = u.ncalls + 1) ∧
    (ok u.ncalls = true → ok (u.ncalls + 1) = false →
      ∃ u1, duppage ok u envid pn = Outcome.panicked u1 ∧
        u1.pt envid pn
          = PTE_ADDR (u.pt u.self pn) ||| duppage_perm (u.pt u.self pn &&& 0xFFF) ∧
        u1.pt u.self = u.pt u.self ∧ u1.ncalls = u.ncalls + 2) ∧
    (ok u.ncalls = true → ok (u.ncalls + 1) = true →
      ∃ mid u1, duppage ok u envid pn = Outcome.returned 0 u1 ∧
        mid = page_installed u u.self ((pn * PGSIZE) % WORD) envid ((pn * PGSIZE) % WORD)
          (duppage_perm (u.pt u.self pn &&& 0xFFF)) ∧
        mid.pt envid pn
          = PTE_ADDR (u.pt u.self pn) ||| duppage_perm (u.pt u.self pn &&& 0xFFF) ∧
        mid.pt u.self = u.pt u.self ∧ mid.ncalls = u.ncalls + 1 ∧
        u1 = page_installed mid u.self ((pn * PGSIZE) % WORD) u.self ((pn * PGSIZE) % WORD)
          (duppage_perm (u.pt u.self pn &&& 0xFFF)) ∧
        u1.pt u.self pn
          = PTE_ADDR (u.pt u.self pn) ||| duppage_perm (u.pt u.self pn &&& 0xFFF) ∧
        u1.pt envid pn = mid.pt envid pn ∧ u1.ncalls = u.ncalls + 2) := by
  have hS2 : (u.pt u.self pn &&& 0xFFF) &&& PTE_SHARE = 0 := by
    rw [low12_and_flag _ _ (by decide)]; exact hS
  have he2 : ¬ u.self = envid := fun h => hne h.symm
  have hmid : (page_installed u u.self ((pn * PGSIZE) % WORD) envid ((pn * PGSIZE) % WORD)
      (duppage_perm (u.pt u.self pn &&& 0xFFF))).pt envid pn
      = PTE_ADDR (u.pt u.self pn) ||| duppage_perm (u.pt u.self pn &&& 0xFFF) := by
    simp [page_installed, PGNUM_page_va pn hpn]
  have hmidself : (page_installed u u.self ((pn * PGSIZE) % WORD) envid ((pn * PGSIZE) % WORD)
      (duppage_perm (u.pt u.self pn &&& 0xFFF))).pt u.self = u.pt u.self := by
    funext p
    simp [page_installed, he2]
  refine ⟨?_, ?_, ?_⟩
  · intro h1
    refine ⟨{ u with ncalls := u.ncalls + 1 }, ?_, rfl, rfl⟩
    simp [duppage, sys_page_map, hS2, h1]
  · intro h1 h2
    refine ⟨{ page_installed u u.self ((pn * PGSIZE) % WORD) envid ((pn * PGSIZE) % WORD)
        (duppage_perm (u.pt u.self pn &&& 0xFFF)) with ncalls := u.ncalls + 1 + 1 },
      ?_, hmid, hmidself, rfl⟩
    simp [duppage, sys_page_map, hS2, h1, h2, page_installed]
  · intro h1 h2
    refine ⟨_, _, duppage_private_eq ok u envid pn hS h1 h2, rfl, hmid, hmidself, rfl, rfl,
      ?_, ?_, rfl⟩
    · simp [page_installed, PGNUM_page_va pn hpn, he2]
    · simp [page_installed, PGNUM_page_va pn hpn, hne]

theorem duppage_child_before_parent_witness :
    (allOk 0 = false →
      ∃ u1, duppage allOk (userOnePage 0x5007) 2 0x800 = Outcome.panicked u1 ∧
        u1.pt = (userOnePage 0x5007).pt ∧ u1.ncalls = 0 + 1) ∧
    (allOk 0 = true → allOk (0 + 1) = false →
      ∃ u1, duppage allOk (userOnePage 0x5007) 2 0x800 = Outcome.panicked u1 ∧
        u1.pt 2 0x800 = PTE_ADDR 0x5007 ||| duppage_perm (0x5007 &&& 0xFFF) ∧
        u1.pt 1 = (userOnePage 0x5007).pt 1 ∧ u1.ncalls = 0 + 2) ∧
    (allOk 0 = true → allOk (0 + 1) = true →
      ∃ mid u1, duppage allOk (userOnePage 0x5007) 2 0x800 = Outcome.returned 0 u1 ∧
        mid = page_installed (userOnePage 0x5007) 1 ((0x800 * PGSIZE) % WORD) 2
          ((0x800 * PGSIZE) % WORD) (duppage_perm (0x5007 &&& 0xFFF)) ∧
        mid.pt 2 0x800 = PTE_ADDR 0x5007 ||| duppage_perm (0x5007 &&& 0xFFF) ∧
        mid.pt 1 = (userOnePage 0x5007).pt 1 ∧ mid.ncalls = 0 + 1 ∧
        u1 = page_installed mid 1 ((0x800 * PGSIZE) % WORD) 1 ((0x800 * PGSIZE) % WORD)
          (duppage_perm (0x5007 &&& 0xFFF)) ∧
        u1.pt 1 0x800 = PTE_ADDR 0x5007 ||| duppage_perm (0x5007 &&& 0xFFF) ∧
        u1.pt 2 0x800 = mid.pt 2 0x800 ∧ u1.ncalls = 0 + 2) :=
  duppage_child_before_parent allOk (userOnePage 0x5007) 2 0x800 (by decide) (by decide)
    (by decide)

/-! ## `mon_backtrace`: the stack walk -/

theorem backtrace_loop_chain (x : Ext) (mem : Nat → Nat) :
    ∀ (frames : List Nat) (ebp fuel : Nat) (out : List Out),
      is_frame_chain mem ebp frames = true → frames.length ≤ fuel →
      backtrace_loop x mem fuel ebp out
        = some (out ++ frames.flatMap (spec_frame_report x mem)) := by
  intro frames
  induction frames with
  | nil =>
    intro ebp fuel out hc _
    have h0 : ebp = 0 := by simpa [is_frame_chain] using hc
    subst h0
    cases fuel <;> simp [backtrace_loop]
  | cons b rest ih =>
    intro ebp fuel out hc hf
    simp only [is_frame_chain, Bool.and_eq_true, beq_iff_eq, bne_iff_ne] at hc
    obtain ⟨⟨he, hb⟩, hrest⟩ := hc
    subst he
    obtain ⟨n, rfl⟩ : ∃ n, fuel = n + 1 := ⟨fuel - 1, by simp at hf; omega⟩
    have hn : rest.length ≤ n := by simpa using hf
    rw [backtrace_loop, if_neg hb]
    simp only []
    rw [ih _ n _ hrest hn]
    cases hd : x.debuginfo_eip (frameWord mem ebp 1) <;>
      simp [spec_frame_report, hd, List.flatMap_cons]

theorem count_stack_frames (x : Ext) (mem : Nat → Nat) (frames : List Nat) :
    ((frames.flatMap (spec_frame_report x mem)).filter Out.isStackFrame).length
      = frames.length := by
  induction frames with
  | nil => rfl
  | cons b rest ih =>
    rw [List.flatMap_cons, List.filter_append, List.length_append, ih]
    cases hd : x.debuginfo_eip (frameWord mem b 1) <;>
      simp [spec_frame_report, hd, Out.isStackFrame] <;> omega

/-- C17: when the saved-frame-pointer links from the initial frame pointer form
a chain of `n` frames ended by a null pointer, `mon_backtrace` terminates
(given fuel for `n` frames), returns 0, and prints after its header exactly
the reports of these `n` frames in chain order, each with the return address
from offset 1 and the argument words from offsets 2..6, and each followed by
the symbol line of its own return address exactly when the lookup succeeds. -/
theorem backtrace_reports_chain (x : Ext) (k : Kern) (frames : List Nat) (fuel : Nat)
    (hc : is_frame_chain k.mem k.ebp frames = true) (hf : frames.length ≤ fuel) :
    mon_backtrace x fuel k
      = some (0, { k with out := k.out ++ [Out.backtraceHeader]
          ++ frames.flatMap (spec_frame_report x k.mem) }) ∧
    ((frames.flatMap (spec_frame_report x k.mem)).filter Out.isStackFrame).length
      = frames.length ∧
    (frames.flatMap (spec_frame_report x k.mem)).filterMap
        (fun o => match o with
          | Out.stackFrame b _ _ _ _ _ _ => some b
          | _ => none)
      = frames := by
  refine ⟨?_, count_stack_frames x k.mem frames, ?_⟩
  · unfold mon_backtrace
    rw [backtrace_loop_chain x k.mem frames k.ebp fuel _ hc hf]
  · clear hc hf
    induction frames with
    | nil => rfl
    | cons b rest ih =>
      rw [List.flatMap_cons, List.filterMap_append, ih]
      cases hd : x.debuginfo_eip (frameWord k.mem b 1) <;>
        simp [spec_frame_report, hd]

theorem backtrace_reports_chain_witness :
    mon_backtrace stubExt 3 ⟨fun _ => none, chainMem, 0x1000, []⟩
      = some (0, { (⟨fun _ => none, chainMem, 0x1000, []⟩ : Kern) with
          out := [] ++ [Out.backtraceHeader]
            ++ [0x1000, 0x2000, 0x3000].flatMap (spec_frame_report stubExt chainMem) }) ∧
    (([0x1000, 0x2000, 0x3000].flatMap (spec_frame_report stubExt chainMem)).filter
        Out.isStackFrame).length = [0x1000, 0x2000, 0x3000].length ∧
    ([0x1000, 0x2000, 0x3000].flatMap (spec_frame_report stubExt chainMem)).filterMap
        (fun o => match o with
          | Out.stackFrame b _ _ _ _ _ _ => some b
          | _ => none)
      = [0x1000, 0x2000, 0x3000] :=
  backtrace_reports_chain stubExt ⟨fun _ => none, chainMem, 0x1000, []⟩
    [0x1000, 0x2000, 0x3000] 3 (by decide) (by decide)


/-! ## `pgfault`: validation -/

theorem sys_page_alloc_ncalls (ok : Nat → Bool) (frames : Nat → Option Nat) (s : Sys)
    (envid : Int) (va perm : Nat) :
    (sys_page_alloc ok frames s envid va perm).2.u.ncalls = s.u.ncalls + 1 := by
  unfold sys_page_alloc
  cases frames s.u.ncalls with
  | none => rfl
  | some f => cases ok s.u.ncalls <;> rfl

theorem Sys.page_map_ncalls (ok : Nat → Bool) (s : Sys) (a : Int) (b : Nat) (c : Int)
    (d p : Nat) : (s.page_map ok a b c d p).2.u.ncalls = s.u.ncalls + 1 := by
  unfold Sys.page_map sys_page_map
  cases ok s.u.ncalls <;> rfl

theorem sys_page_unmap_ncalls (ok : Nat → Bool) (s : Sys) (envid : Int) (va : Nat) :
    (sys_page_unmap ok s envid va).2.u.ncalls = s.u.ncalls + 1 := by
  unfold sys_page_unmap
  cases ok s.u.ncalls <;> rfl

theorem memmove_ncalls (s s2 : Sys) (dst src n : Nat) (h : memmove s dst src n = some s2) :
    s2.u = s.u := by
  unfold memmove at h
  split at h
  · injection h with h
    rw [← h]
  · cases h

/-- A valid fault makes `pgfault` go on to the allocation: at least one
system call has been made when it ends. -/
theorem pgfault_valid_calls (ok : Nat → Bool) (frames : Nat → Option Nat) (s : Sys)
    (utf : UTrapframe)
    (hv : ¬ (utf.utf_err &&& FEC_WR = 0 ∨
      s.u.pt s.u.self (PGNUM utf.utf_fault_va) &&& PTE_COW = 0)) :
    s.u.ncalls + 1 ≤ (pgfault ok frames s utf).state.u.ncalls := by
  have ha := sys_page_alloc_ncalls ok frames s s.u.self PFTEMP (PTE_P ||| PTE_W ||| PTE_U)
  unfold pgfault
  simp only [if_neg hv]
  generalize sys_page_alloc ok frames s s.u.self PFTEMP (PTE_P ||| PTE_W ||| PTE_U) = ra at ha
  obtain ⟨r, s1⟩ := ra
  simp only at ha ⊢
  by_cases hr : r < 0
  · simp [hr, SysOutcome.state, ha]
  · simp only [if_neg hr]
    cases hm : memmove s1 PFTEMP (ROUNDDOWN utf.utf_fault_va PGSIZE) PGSIZE with
    | none => simp [SysOutcome.state, ha]
    | some s2 =>
      have h2 := memmove_ncalls s1 s2 _ _ _ hm
      have hb := Sys.page_map_ncalls ok s2 s.u.self PFTEMP s.u.self
        (ROUNDDOWN utf.utf_fault_va PGSIZE) (PTE_P ||| PTE_W ||| PTE_U)
      simp only
      generalize s2.page_map ok s.u.self PFTEMP s.u.self
        (ROUNDDOWN utf.utf_fault_va PGSIZE) (PTE_P ||| PTE_W ||| PTE_U) = rb at hb
      obtain ⟨r2, s3⟩ := rb
      simp only at hb ⊢
      by_cases hr2 : r2 < 0
      · simp only [if_pos hr2, SysOutcome.state]
        rw [hb, h2, ha]; omega
      · simp only [if_neg hr2]
        have hc := sys_page_unmap_ncalls ok s3 s.u.self PFTEMP
        generalize sys_page_unmap ok s3 s.u.self PFTEMP = rc at hc
        obtain ⟨r3, s4⟩ := rc
        simp only at hc ⊢
        by_cases hr3 : r3 < 0
        · simp only [if_pos hr3, SysOutcome.state]
          rw [hc, hb, h2, ha]; omega
        · simp only [if_neg hr3, SysOutcome.state]
          rw [hc, hb, h2, ha]; omega

/-- C14: `pgfault` panics before any allocation or mapping (no system call
made, the state as it was) exactly when the error code lacks the write bit
or the entry of the faulting page lacks CopyOnWrite: such a fault panics in
the unchanged state, and a write fault on a copy-on-write page goes on to the
allocation. -/
theorem pgfault_validates (ok : Nat → Bool) (frames : Nat → Option Nat) (s : Sys)
    (utf : UTrapframe) :
    ((∃ s1, pgfault ok frames s utf = SysOutcome.panicked s1 ∧ s1.u.ncalls = s.u.ncalls) ↔
      (utf.utf_err &&& FEC_WR = 0 ∨
        s.u.pt s.u.self (PGNUM utf.utf_fault_va) &&& PTE_COW = 0)) ∧
    ((utf.utf_err &&& FEC_WR = 0 ∨
        s.u.pt s.u.self (PGNUM utf.utf_fault_va) &&& PTE_COW = 0) →
      pgfault ok frames s utf = SysOutcome.panicked s) ∧
    ((utf.utf_err &&& FEC_WR ≠ 0 ∧
        s.u.pt s.u.self (PGNUM utf.utf_fault_va) &&& PTE_COW ≠ 0) →
      s.u.ncalls + 1 ≤ (pgfault ok frames s utf).state.u.ncalls ∧
      (frames s.u.ncalls = none ∨ ok s.u.ncalls = false →
        ∃ s1, pgfault ok frames s utf = SysOutcome.panicked s1 ∧ s1.u.pt = s.u.pt)) := by
  have hinv : (utf.utf_err &&& FEC_WR = 0 ∨
      s.u.pt s.u.self (PGNUM utf.utf_fault_va) &&& PTE_COW = 0) →
      pgfault ok frames s utf = SysOutcome.panicked s := by
    intro h
    unfold pgfault
    simp only [if_pos h]
  refine ⟨⟨?_, fun h => ⟨s, hinv h, rfl⟩⟩, hinv, ?_⟩
  · rintro ⟨s1, hp, hn⟩
    by_contra hv
    have h := pgfault_valid_calls ok frames s utf hv
    rw [hp] at h
    simp only [SysOutcome.state] at h
    omega
  · rintro ⟨hw, hc⟩
    have hv : ¬ (utf.utf_err &&& FEC_WR = 0 ∨
        s.u.pt s.u.self (PGNUM utf.utf_fault_va) &&& PTE_COW = 0) := by
      rintro (h | h)
      · exact hw h
      · exact hc h
    refine ⟨pgfault_valid_calls ok frames s utf hv, ?_⟩
    intro hfail
    refine ⟨s.called, ?_, rfl⟩
    unfold pgfault
    simp only [if_neg hv]
    rcases hfail with hf | hf
    · simp [sys_page_alloc, Sys.allocated, hf]
    · cases hfr : frames s.u.ncalls with
      | none => simp [sys_page_alloc, Sys.allocated, hfr]
      | some f => simp [sys_page_alloc, Sys.allocated, hfr, hf]


/-! ## `duppage` and the duplication loop: what they leave alone -/

theorem duppage_self (ok : Nat → Bool) (u : User) (envid : Int) (pn : Nat) :
    (duppage ok u envid pn).state.self = u.self := by
  unfold duppage
  by_cases hS : (u.pt u.self pn &&& 0xFFF) &&& PTE_SHARE ≠ 0
  · cases h1 : ok u.ncalls <;> simp [hS, sys_page_map, h1, Outcome.state, page_installed]
  · cases h1 : ok u.ncalls
    · simp [hS, sys_page_map, h1, Outcome.state]
    · cases h2 : ok (u.ncalls + 1) <;>
        simp [hS, sys_page_map, h1, h2, Outcome.state, page_installed]

theorem duppage_other_pages (ok : Nat → Bool) (u : User) (envid : Int) (pn : Nat)
    (hpn : pn < 1048576) (e : Int) (p : Nat) (hp : p ≠ pn) :
    (duppage ok u envid pn).state.pt e p = u.pt e p := by
  have hpg := PGNUM_page_va pn hpn
  unfold duppage
  by_cases hS : (u.pt u.self pn &&& 0xFFF) &&& PTE_SHARE ≠ 0
  · cases h1 : ok u.ncalls <;>
      simp [hS, sys_page_map, h1, Outcome.state, page_installed, hpg, hp]
  · cases h1 : ok u.ncalls
    · simp [hS, sys_page_map, h1, Outcome.state]
    · cases h2 : ok (u.ncalls + 1) <;>
        simp [hS, sys_page_map, h1, h2, Outcome.state, page_installed, hpg, hp]

theorem duppage_other_envs (ok : Nat → Bool) (u : User) (envid : Int) (pn : Nat)
    (e : Int) (p : Nat) (he1 : e ≠ envid) (he2 : e ≠ u.self) :
    (duppage ok u envid pn).state.pt e p = u.pt e p := by
  unfold duppage
  by_cases hS : (u.pt u.self pn &&& 0xFFF) &&& PTE_SHARE ≠ 0
  · cases h1 : ok u.ncalls <;>
      simp [hS, sys_page_map, h1, Outcome.state, page_installed, he1]
  · cases h1 : ok u.ncalls
    · simp [hS, sys_page_map, h1, Outcome.state]
    · cases h2 : ok (u.ncalls + 1) <;>
        simp [hS, sys_page_map, h1, h2, Outcome.state, page_installed, he1, he2]

theorem duppage_returned_ok (ok : Nat → Bool) (u : User) (envid : Int) (pn : Nat)
    (r : Int) (u1 : User) (h : duppage ok u envid pn = Outcome.returned r u1) :
    u.ncalls ≤ u1.ncalls ∧ ∀ i, u.ncalls ≤ i → i < u1.ncalls → ok i = true := by
  unfold duppage at h
  by_cases hS : (u.pt u.self pn &&& 0xFFF) &&& PTE_SHARE ≠ 0
  · cases h1 : ok u.ncalls
    · simp [hS, sys_page_map, h1] at h
    · simp [hS, sys_page_map, h1] at h
      obtain ⟨-, rfl⟩ := h
      refine ⟨by simp [page_installed], ?_⟩
      intro i hi hi2
      have : i = u.ncalls := by simp [page_installed] at hi2; omega
      rw [this, h1]
  · cases h1 : ok u.ncalls
    · simp [hS, sys_page_map, h1] at h
    · cases h2 : ok (u.ncalls + 1)
      · simp [hS, sys_page_map, h1, h2, page_installed] at h
      · simp [hS, sys_page_map, h1, h2, page_installed] at h
        obtain ⟨-, rfl⟩ := h
        refine ⟨by simp only; omega, ?_⟩
        intro i hi hi2
        have : i = u.ncalls ∨ i = u.ncalls + 1 := by simp only at hi2; omega
        rcases this with rfl | rfl
        · exact h1
        · exact h2


theorem fork_loop_inv (ok : Nat → Bool) (chd : Int) (I : Sys → Prop) :
    ∀ (addrs : List Nat),
      (∀ s addr, addr ∈ addrs → I s → I (fork_step ok chd s addr).state) →
      ∀ s, I s → I (fork_loop ok chd addrs s).state := by
  intro addrs
  induction addrs with
  | nil => intro _ s hs; exact hs
  | cons a rest ih =>
    intro hstep s hs
    have h1 := hstep s a (List.mem_cons_self a rest) hs
    have hrest : ∀ s addr, addr ∈ rest → I s → I (fork_step ok chd s addr).state :=
      fun s addr hm => hstep s addr (List.mem_cons_of_mem a hm)
    rw [fork_loop]
    cases hf : fork_step ok chd s a with
    | returned r s1 =>
      rw [hf] at h1
      exact ih hrest s1 h1
    | panicked s1 =>
      rw [hf] at h1
      exact h1

theorem fork_step_state (ok : Nat → Bool) (chd : Int) (s : Sys) (addr : Nat) :
    (fork_step ok chd s addr).state = s ∨
    (s.uvpd (PDX addr) &&& PTE_P ≠ 0 ∧ s.u.pt s.u.self (PGNUM addr) &&& PTE_P ≠ 0 ∧
      (fork_step ok chd s addr).state
        = { s with u := (duppage ok s.u chd (PGNUM addr)).state }) := by
  unfold fork_step
  by_cases ht : s.uvpd (PDX addr) &&& PTE_P ≠ 0 ∧ s.u.pt s.u.self (PGNUM addr) &&& PTE_P ≠ 0
  · right
    refine ⟨ht.1, ht.2, ?_⟩
    rw [if_pos ht]
    cases duppage ok s.u chd (PGNUM addr) <;> rfl
  · left
    rw [if_neg ht]
    rfl

theorem mem_fork_addrs (addr : Nat) (h : addr ∈ fork_addrs) :
    UTEXT ≤ addr ∧ addr < USTACKTOP ∧ addr % PGSIZE = 0 := by
  unfold fork_addrs at h
  rw [List.mem_range'] at h
  obtain ⟨i, hi, rfl⟩ := h
  simp only [UTEXT, USTACKTOP, PGSIZE] at hi ⊢
  omega

theorem PGNUM_lt (addr : Nat) (h : addr < WORD) : PGNUM addr < 1048576 := by
  simp only [PGNUM, WORD, Nat.shiftRight_eq_div_pow] at h ⊢
  omega

/-- The duplication loop changes nothing but page-table entries and the call
count. -/
theorem fork_loop_fields (ok : Nat → Bool) (chd : Int) (addrs : List Nat) (s : Sys) :
    (fork_loop ok chd addrs s).state.status = s.status ∧
    (fork_loop ok chd addrs s).state.uvpd = s.uvpd ∧
    (fork_loop ok chd addrs s).state.mem = s.mem ∧
    (fork_loop ok chd addrs s).state.newenv = s.newenv ∧
    (fork_loop ok chd addrs s).state.upcall = s.upcall ∧
    (fork_loop ok chd addrs s).state.thisenv = s.thisenv ∧
    (fork_loop ok chd addrs s).state.u.self = s.u.self := by
  refine fork_loop_inv ok chd (fun t => t.status = s.status ∧ t.uvpd = s.uvpd ∧
    t.mem = s.mem ∧ t.newenv = s.newenv ∧ t.upcall = s.upcall ∧ t.thisenv = s.thisenv ∧
    t.u.self = s.u.self) addrs ?_ s ⟨rfl, rfl, rfl, rfl, rfl, rfl, rfl⟩
  intro t addr _ ht
  rcases fork_step_state ok chd t addr with h | ⟨-, -, h⟩
  · rw [h]; exact ht
  · rw [h]
    obtain ⟨h1, h2, h3, h4, h5, h6, h7⟩ := ht
    refine ⟨h1, h2, h3, h4, h5, h6, ?_⟩
    simp only
    rw [duppage_self, h7]

theorem fork_step_returned_ok (ok : Nat → Bool) (chd : Int) (s : Sys) (addr : Nat)
    (r : Int) (s1 : Sys) (h : fork_step ok chd s addr = SysOutcome.returned r s1) :
    s.u.ncalls ≤ s1.u.ncalls ∧ ∀ i, s.u.ncalls ≤ i → i < s1.u.ncalls → ok i = true := by
  unfold fork_step at h
  by_cases ht : s.uvpd (PDX addr) &&& PTE_P ≠ 0 ∧ s.u.pt s.u.self (PGNUM addr) &&& PTE_P ≠ 0
  · rw [if_pos ht] at h
    cases hd : duppage ok s.u chd (PGNUM addr) with
    | returned r1 u1 =>
      rw [hd] at h
      simp only [SysOutcome.returned.injEq] at h
      obtain ⟨-, rfl⟩ := h
      exact duppage_returned_ok ok s.u chd (PGNUM addr) r1 u1 hd
    | panicked u1 =>
      rw [hd] at h
      cases h
  · rw [if_neg ht] at h
    simp only [SysOutcome.returned.injEq] at h
    obtain ⟨-, rfl⟩ := h
    exact ⟨le_refl _, fun i h1 h2 => by omega⟩

theorem fork_loop_returned_ok (ok : Nat → Bool) (chd : Int) :
    ∀ (addrs : List Nat) (s : Sys) (r : Int) (s1 : Sys),
      fork_loop ok chd addrs s = SysOutcome.returned r s1 →
      s.u.ncalls ≤ s1.u.ncalls ∧ ∀ i, s.u.ncalls ≤ i → i < s1.u.ncalls → ok i = true := by
  intro addrs
  induction addrs with
  | nil =>
    intro s r s1 h
    simp only [fork_loop, SysOutcome.returned.injEq] at h
    obtain ⟨-, rfl⟩ := h
    exact ⟨le_refl _, fun i h1 h2 => by omega⟩
  | cons a rest ih =>
    intro s r s1 h
    rw [fork_loop] at h
    cases hf : fork_step ok chd s a with
    | returned r2 s2 =>
      rw [hf] at h
      obtain ⟨hle, hok⟩ := fork_step_returned_ok ok chd s a r2 s2 hf
      obtain ⟨hle2, hok2⟩ := ih s2 r s1 h
      refine ⟨le_trans hle hle2, ?_⟩
      intro i hi hi2
      by_cases hlt : i < s2.u.ncalls
      · exact hok i hi hlt
      · exact hok2 i (by omega) hi2
    | panicked s2 =>
      rw [hf] at h
      cases h


/-! ## `fork`: how it ends -/

theorem fork_body_exofork_fails (lib : Lib) (ok : Nat → Bool) (frames : Nat → Option Nat)
    (s : Sys) (h : ok s.u.ncalls = false) :
    fork_body lib ok frames s = SysOutcome.panicked s.called := by
  simp [fork_body, sys_exofork, h]

/-- The parent's run of `fork` after a successful `sys_exofork`: the loop,
then the three calls that finish the new environment. -/
theorem fork_body_parent (lib : Lib) (ok : Nat → Bool) (frames : Nat → Option Nat)
    (s : Sys) (h : ok s.u.ncalls = true) (hn : 0 < s.newenv) :
    fork_body lib ok frames s
      = match fork_loop ok s.newenv fork_addrs s.forked with
        | .panicked s2 => .panicked s2
        | .returned _ s2 => fork_finish lib ok frames s.newenv s2 := by
  have hn0 : s.newenv ≠ 0 := by omega
  have hn1 : ¬ s.newenv < 0 := by omega
  simp [fork_body, sys_exofork, h, hn0, hn1]

/-- The state in which `fork` returns in the parent when the end of `fork`
starts in `s2` and the allocator hands out the frame `f`. -/
theorem fork_finish_ok (lib : Lib) (ok : Nat → Bool) (frames : Nat → Option Nat)
    (chd : Int) (s2 : Sys) (f : Nat) (hf : frames s2.u.ncalls = some f)
    (ha : ok s2.u.ncalls = true) (hb : ok (s2.u.ncalls + 1) = true)
    (hc : ok (s2.u.ncalls + 2) = true) :
    fork_finish lib ok frames chd s2
      = SysOutcome.returned chd
          { s2 with
            u := { s2.u with
              pt := fun e pn =>
                if e = chd ∧ pn = PGNUM (UXSTACKTOP - PGSIZE) then
                  f ||| (PTE_U ||| PTE_W ||| PTE_P)
                else s2.u.pt e pn
              ncalls := s2.u.ncalls + 3 }
            upcall := fun e => if e = chd then lib.pgfault_upcall else s2.upcall e
            status := fun e => if e = chd then ENV_RUNNABLE else s2.status e } := by
  simp [fork_finish, sys_page_alloc, Sys.allocated, hf, ha, sys_env_set_pgfault_upcall,
    Sys.called, hb, sys_env_set_status, hc]

theorem fork_finish_returned (lib : Lib) (ok : Nat → Bool) (frames : Nat → Option Nat)
    (chd : Int) (s2 : Sys) (r : Int) (s1 : Sys)
    (h : fork_finish lib ok frames chd s2 = SysOutcome.returned r s1) :
    (∃ f, frames s2.u.ncalls = some f) ∧ ok s2.u.ncalls = true ∧
      ok (s2.u.ncalls + 1) = true ∧ ok (s2.u.ncalls + 2) = true := by
  unfold fork_finish at h
  cases hf : frames s2.u.ncalls with
  | none => simp [sys_page_alloc, Sys.allocated, hf] at h
  | some f =>
    cases ha : ok s2.u.ncalls with
    | false => simp [sys_page_alloc, Sys.allocated, hf, ha] at h
    | true =>
      cases hb : ok (s2.u.ncalls + 1) with
      | false =>
        simp [sys_page_alloc, Sys.allocated, hf, ha, sys_env_set_pgfault_upcall, Sys.called, hb] at h
      | true =>
        cases hc : ok (s2.u.ncalls + 2) with
        | false =>
          simp [sys_page_alloc, Sys.allocated, hf, ha, sys_env_set_pgfault_upcall, Sys.called, hb,
            sys_env_set_status, hc] at h
        | true => exact ⟨⟨f, rfl⟩, rfl, rfl, rfl⟩

theorem fork_finish_panicked (lib : Lib) (ok : Nat → Bool) (frames : Nat → Option Nat)
    (chd : Int) (s2 s1 : Sys)
    (h : fork_finish lib ok frames chd s2 = SysOutcome.panicked s1) :
    s1.status = s2.status := by
  unfold fork_finish at h
  cases hf : frames s2.u.ncalls with
  | none =>
    simp [sys_page_alloc, Sys.allocated, hf] at h
    rw [← h]; rfl
  | some f =>
    cases ha : ok s2.u.ncalls with
    | false =>
      simp [sys_page_alloc, Sys.allocated, hf, ha] at h
      rw [← h]; rfl
    | true =>
      cases hb : ok (s2.u.ncalls + 1) with
      | false =>
        simp [sys_page_alloc, Sys.allocated, hf, ha, sys_env_set_pgfault_upcall, Sys.called, hb] at h
        rw [← h]
      | true =>
        cases hc : ok (s2.u.ncalls + 2) with
        | false =>
          simp [sys_page_alloc, Sys.allocated, hf, ha, sys_env_set_pgfault_upcall, Sys.called, hb,
            sys_env_set_status, hc] at h
          rw [← h]
        | true =>
          simp [sys_page_alloc, Sys.allocated, hf, ha, sys_env_set_pgfault_upcall, Sys.called, hb,
            sys_env_set_status, hc] at h


/-- C18: `fork` fails fast.  When it returns in the parent, the new
environment is runnable, the value returned is its id, and every system call
made from `sys_exofork` on succeeded: process creation, every install of
`duppage`, the exception-stack allocation (which got a frame), the upcall
installation and, as the last call made, the status change.  When it panics,
the new environment is not runnable. -/
theorem fork_fails_fast (lib : Lib) (ok : Nat → Bool) (frames : Nat → Option Nat)
    (s s0 : Sys) (r0 : Int)
    (hsph : lib.set_pgfault_handler s = SysOutcome.returned r0 s0)
    (hn : 0 < s0.newenv) (hnr : s0.status s0.newenv ≠ ENV_RUNNABLE) :
    (∀ r s1, fork lib ok frames s = SysOutcome.returned r s1 →
      r = s0.newenv ∧ s1.status s0.newenv = ENV_RUNNABLE ∧
      s0.u.ncalls + 4 ≤ s1.u.ncalls ∧
      (∀ i, s0.u.ncalls ≤ i → i < s1.u.ncalls → ok i = true) ∧
      (∃ f, frames (s1.u.ncalls - 3) = some f)) ∧
    (∀ s1, fork lib ok frames s = SysOutcome.panicked s1 →
      s1.status s0.newenv ≠ ENV_RUNNABLE) := by
  have hfork : fork lib ok frames s = fork_body lib ok frames s0 := by
    unfold fork
    rw [hsph]
  have hNR : ENV_NOT_RUNNABLE ≠ ENV_RUNNABLE := by decide
  cases h0 : ok s0.u.ncalls with
  | false =>
    rw [hfork, fork_body_exofork_fails lib ok frames s0 h0]
    constructor
    · intro r s1 h
      cases h
    · intro s1 h
      simp only [SysOutcome.panicked.injEq] at h
      rw [← h]
      exact hnr
  | true =>
    rw [hfork, fork_body_parent lib ok frames s0 h0 hn]
    have hfields := fork_loop_fields ok s0.newenv fork_addrs s0.forked
    have hret := fork_loop_returned_ok ok s0.newenv fork_addrs s0.forked
    have hforked : s0.forked.status s0.newenv = ENV_NOT_RUNNABLE := by
      simp [Sys.forked]
    have hfn : s0.forked.u.ncalls = s0.u.ncalls + 1 := rfl
    cases hL : fork_loop ok s0.newenv fork_addrs s0.forked with
    | panicked s2 =>
      rw [hL] at hfields
      constructor
      · intro r s1 h
        cases h
      · intro s1 h
        simp only [SysOutcome.panicked.injEq] at h
        rw [← h]
        have hst := hfields.1
        simp only [SysOutcome.state] at hst
        rw [hst, hforked]
        exact hNR
    | returned r2 s2 =>
      rw [hL] at hfields
      have hst : s2.status = s0.forked.status := hfields.1
      obtain ⟨hle, hoks⟩ := hret r2 s2 hL
      simp only
      constructor
      · intro r s1 h
        obtain ⟨⟨f, hf⟩, ha, hb, hc⟩ := fork_finish_returned lib ok frames s0.newenv s2 r s1 h
        rw [fork_finish_ok lib ok frames s0.newenv s2 f hf ha hb hc] at h
        simp only [SysOutcome.returned.injEq] at h
        obtain ⟨hr, hs1⟩ := h
        rw [← hs1]
        refine ⟨hr.symm, by simp, by simp only; omega, ?_, ⟨f, ?_⟩⟩
        · intro i hi hi2
          simp only at hi2
          by_cases hlt : i < s2.u.ncalls
          · by_cases hi0 : i = s0.u.ncalls
            · rw [hi0]; exact h0
            · exact hoks i (by omega) hlt
          · have : i = s2.u.ncalls ∨ i = s2.u.ncalls + 1 ∨ i = s2.u.ncalls + 2 := by omega
            rcases this with rfl | rfl | rfl
            · exact ha
            · exact hb
            · exact hc
        · simp only
          rw [show s2.u.ncalls + 3 - 3 = s2.u.ncalls by omega]
          exact hf
      · intro s1 h
        rw [fork_finish_panicked lib ok frames s0.newenv s2 s1 h, hst, hforked]
        exact hNR

theorem fork_fails_fast_witness :
    (∀ r s1, fork plainLib allOk plainFrames (sysOf (userOnePage 0x5007))
        = SysOutcome.returned r s1 →
      r = (sysOf (userOnePage 0x5007)).newenv ∧
      s1.status (sysOf (userOnePage 0x5007)).newenv = ENV_RUNNABLE ∧
      (sysOf (userOnePage 0x5007)).u.ncalls + 4 ≤ s1.u.ncalls ∧
      (∀ i, (sysOf (userOnePage 0x5007)).u.ncalls ≤ i → i < s1.u.ncalls → allOk i = true) ∧
      (∃ f, plainFrames (s1.u.ncalls - 3) = some f)) ∧
    (∀ s1, fork plainLib allOk plainFrames (sysOf (userOnePage 0x5007))
        = SysOutcome.panicked s1 →
      s1.status (sysOf (userOnePage 0x5007)).newenv ≠ ENV_RUNNABLE) :=
  fork_fails_fast plainLib allOk plainFrames (sysOf (userOnePage 0x5007))
    (sysOf (userOnePage 0x5007)) 0 rfl (by decide) (by decide)


/-! ## `fork`: the pages of the new environment -/

theorem PTE_ADDR_aligned (f : Nat) (hal : f % PGSIZE = 0) (hlt : f < WORD) :
    PTE_ADDR f = f := by
  apply Nat.eq_of_testBit_eq; intro i
  simp only [PTE_ADDR, Nat.testBit_and, testBit_frameMask]
  by_cases h12 : 12 ≤ i
  · by_cases h32 : i < 32
    · simp [h12, h32]
    · have hf : Nat.testBit f i = false := by
        apply Nat.testBit_lt_two_pow
        calc f < 2 ^ 32 := by simpa [WORD] using hlt
          _ ≤ 2 ^ i := Nat.pow_le_pow_right (by norm_num) (by omega)
      simp [hf]
  · have hi : i < 12 := by omega
    have hmod := Nat.testBit_mod_two_pow f 12 i
    have h0 : f % 2 ^ 12 = 0 := by simpa [PGSIZE] using hal
    rw [h0] at hmod
    simp [hi] at hmod
    simp [h12, ← hmod]

theorem user_perm_lt : PTE_U ||| PTE_W ||| PTE_P < 4096 := by decide

/-- An entry made of a page-aligned 32-bit frame and the permissions Present,
Writable, User: its frame, its low twelve bits, and its copy-on-write bit. -/
theorem fresh_entry_bits (f : Nat) (hal : f % PGSIZE = 0) (hlt : f < WORD) :
    PTE_ADDR (f ||| (PTE_U ||| PTE_W ||| PTE_P)) = f ∧
    (f ||| (PTE_U ||| PTE_W ||| PTE_P)) &&& 0xFFF = PTE_P ||| PTE_W ||| PTE_U ∧
    (f ||| (PTE_U ||| PTE_W ||| PTE_P)) &&& PTE_COW = 0 ∧
    (f ||| (PTE_U ||| PTE_W ||| PTE_P)) &&& PTE_P ≠ 0 := by
  have hf := PTE_ADDR_aligned f hal hlt
  have h1 := PTE_ADDR_or_low f _ user_perm_lt
  have h2 := low12_frame_or f _ user_perm_lt
  rw [hf] at h1 h2
  refine ⟨h1, ?_, ?_, ?_⟩
  · rw [h2]; decide
  · have h3 : (f ||| (PTE_U ||| PTE_W ||| PTE_P)) &&& PTE_COW
        = ((f ||| (PTE_U ||| PTE_W ||| PTE_P)) &&& 0xFFF) &&& PTE_COW :=
      (low12_and_flag _ _ (by decide)).symm
    rw [h3, h2]; decide
  · have h3 : (f ||| (PTE_U ||| PTE_W ||| PTE_P)) &&& PTE_P
        = ((f ||| (PTE_U ||| PTE_W ||| PTE_P)) &&& 0xFFF) &&& PTE_P :=
      (low12_and_flag _ _ (by decide)).symm
    rw [h3, h2]; decide

/-- The exception-stack page is not among the pages of the duplication loop. -/
theorem fork_addrs_not_xstack (addr : Nat) (h : addr ∈ fork_addrs) :
    PGNUM addr ≠ PGNUM (UXSTACKTOP - PGSIZE) := by
  obtain ⟨h1, h2, h3⟩ := mem_fork_addrs addr h
  simp only [PGNUM, UTEXT, USTACKTOP, UXSTACKTOP, PGSIZE, Nat.shiftRight_eq_div_pow] at *
  omega

/-- The duplication loop leaves the entries of a page alone, in every
environment, when the page is outside the loop's range or fails the loop's
presence test in the state the loop starts in. -/
theorem fork_loop_skips (ok : Nat → Bool) (chd : Int) (s : Sys) (pn : Nat)
    (h : (∀ addr ∈ fork_addrs, PGNUM addr ≠ pn) ∨
      s.uvpd (PDX (pn * PGSIZE)) &&& PTE_P = 0 ∨ s.u.pt s.u.self pn &&& PTE_P = 0) :
    ∀ e, (fork_loop ok chd fork_addrs s).state.u.pt e pn = s.u.pt e pn := by
  have hinv := fork_loop_inv ok chd
    (fun t => t.uvpd = s.uvpd ∧ t.u.self = s.u.self ∧ ∀ e, t.u.pt e pn = s.u.pt e pn)
    fork_addrs ?_ s ⟨rfl, rfl, fun _ => rfl⟩
  · exact hinv.2.2
  · intro t addr hmem ⟨hpd, hself, hpt⟩
    rcases fork_step_state ok chd t addr with hst | ⟨hd, hp, hst⟩
    · rw [hst]; exact ⟨hpd, hself, hpt⟩
    · obtain ⟨h1, h2, h3⟩ := mem_fork_addrs addr hmem
      have hlt : PGNUM addr < 1048576 := by
        apply PGNUM_lt
        simp only [USTACKTOP, WORD] at h2 ⊢
        omega
      have hne : pn ≠ PGNUM addr := by
        intro heq
        rcases h with h | h | h
        · exact h addr hmem heq.symm
        · have haddr : pn * PGSIZE = addr := by
            rw [heq]
            simp only [PGNUM, PGSIZE, Nat.shiftRight_eq_div_pow] at h3 ⊢
            omega
          rw [haddr, ← hpd] at h
          exact hd h
        · rw [← hself, ← hpt, heq] at h
          exact hp h
      rw [hst]
      refine ⟨hpd, ?_, ?_⟩
      · simp only
        rw [duppage_self, hself]
      · intro e
        simp only
        rw [duppage_other_pages ok t.u chd (PGNUM addr) hlt e pn hne, hpt]


theorem duppage_returns (ok : Nat → Bool) (hok : ∀ i, ok i = true) (u : User) (envid : Int)
    (pn : Nat) : ∃ u1, duppage ok u envid pn = Outcome.returned 0 u1 := by
  by_cases hS : u.pt u.self pn &&& PTE_SHARE = 0
  · exact ⟨_, duppage_private_eq ok u envid pn hS (hok _) (hok _)⟩
  · exact ⟨_, duppage_shared_eq ok u envid pn hS (hok _)⟩

theorem fork_loop_returns (ok : Nat → Bool) (hok : ∀ i, ok i = true) (chd : Int) :
    ∀ (addrs : List Nat) (s : Sys), ∃ s2, fork_loop ok chd addrs s = SysOutcome.returned 0 s2 := by
  intro addrs
  induction addrs with
  | nil => intro s; exact ⟨s, rfl⟩
  | cons a rest ih =>
    intro s
    have hstep : ∃ s1, fork_step ok chd s a = SysOutcome.returned 0 s1 := by
      unfold fork_step
      by_cases ht : s.uvpd (PDX a) &&& PTE_P ≠ 0 ∧ s.u.pt s.u.self (PGNUM a) &&& PTE_P ≠ 0
      · obtain ⟨u1, hu1⟩ := duppage_returns ok hok s.u chd (PGNUM a)
        rw [if_pos ht, hu1]
        exact ⟨_, rfl⟩
      · rw [if_neg ht]
        exact ⟨_, rfl⟩
    obtain ⟨s1, hs1⟩ := hstep
    obtain ⟨s2, hs2⟩ := ih s1
    refine ⟨s2, ?_⟩
    rw [fork_loop, hs1]
    exact hs2

/-- A return of `fork` in the parent, taken apart: `sys_exofork` succeeded, the
loop returned in some state `s2`, the allocator handed out a frame `f`, and
the final state is `s2` with the exception-stack entry of the new environment,
its upcall and its status set. -/
theorem fork_returned_parts (lib : Lib) (ok : Nat → Bool) (frames : Nat → Option Nat)
    (s s0 : Sys) (r0 : Int)
    (hsph : lib.set_pgfault_handler s = SysOutcome.returned r0 s0)
    (hn : 0 < s0.newenv) (r : Int) (s1 : Sys)
    (h : fork lib ok frames s = SysOutcome.returned r s1) :
    ∃ r2 s2 f, fork_loop ok s0.newenv fork_addrs s0.forked = SysOutcome.returned r2 s2 ∧
      frames s2.u.ncalls = some f ∧ r = s0.newenv ∧
      s1 = { s2 with
            u := { s2.u with
              pt := fun e pn =>
                if e = s0.newenv ∧ pn = PGNUM (UXSTACKTOP - PGSIZE) then
                  f ||| (PTE_U ||| PTE_W ||| PTE_P)
                else s2.u.pt e pn
              ncalls := s2.u.ncalls + 3 }
            upcall := fun e => if e = s0.newenv then lib.pgfault_upcall else s2.upcall e
            status := fun e => if e = s0.newenv then ENV_RUNNABLE else s2.status e } := by
  have hfork : fork lib ok frames s = fork_body lib ok frames s0 := by
    unfold fork
    rw [hsph]
  rw [hfork] at h
  cases h0 : ok s0.u.ncalls with
  | false =>
    rw [fork_body_exofork_fails lib ok frames s0 h0] at h
    cases h
  | true =>
    rw [fork_body_parent lib ok frames s0 h0 hn] at h
    cases hL : fork_loop ok s0.newenv fork_addrs s0.forked with
    | panicked s2 =>
      rw [hL] at h
      cases h
    | returned r2 s2 =>
      rw [hL] at h
      simp only at h
      obtain ⟨⟨f, hf⟩, ha, hb, hc⟩ := fork_finish_returned lib ok frames s0.newenv s2 r s1 h
      rw [fork_finish_ok lib ok frames s0.newenv s2 f hf ha hb hc] at h
      simp only [SysOutcome.returned.injEq] at h
      exact ⟨r2, s2, f, rfl, hf, h.1.symm, h.2.symm⟩

/-- When every system call succeeds and the allocator has a frame, `fork`
returns the new environment's id in the parent. -/
theorem fork_returns (lib : Lib) (ok : Nat → Bool) (frames : Nat → Option Nat)
    (s s0 : Sys) (r0 : Int)
    (hsph : lib.set_pgfault_handler s = SysOutcome.returned r0 s0)
    (hn : 0 < s0.newenv) (hok : ∀ i, ok i = true) (hfr : ∀ n, ∃ f, frames n = some f) :
    ∃ s1, fork lib ok frames s = SysOutcome.returned s0.newenv s1 := by
  have hfork : fork lib ok frames s = fork_body lib ok frames s0 := by
    unfold fork
    rw [hsph]
  obtain ⟨s2, hs2⟩ := fork_loop_returns ok hok s0.newenv fork_addrs s0.forked
  obtain ⟨f, hf⟩ := hfr s2.u.ncalls
  rw [hfork, fork_body_parent lib ok frames s0 (hok _) hn, hs2]
  simp only
  rw [fork_finish_ok lib ok frames s0.newenv s2 f hf (hok _) (hok _) (hok _)]
  exact ⟨_, rfl⟩

/-- C16: after a successful `fork` the exception-stack page of the new
environment maps the frame the allocator handed out for it, with permissions
exactly Present, Writable, User and without CopyOnWrite; the duplication loop
visits no address of that page, and the parent's own entry for the page is
the one it had when `set_pgfault_handler` returned. -/
theorem fork_exception_stack (lib : Lib) (ok : Nat → Bool) (frames : Nat → Option Nat)
    (s s0 : Sys) (r0 : Int)
    (hsph : lib.set_pgfault_handler s = SysOutcome.returned r0 s0)
    (hn : 0 < s0.newenv) (hne : s0.newenv ≠ s0.u.self)
    (hal : ∀ n f, frames n = some f → f % PGSIZE = 0 ∧ f < WORD) :
    (∀ r s1, fork lib ok frames s = SysOutcome.returned r s1 →
      ∃ f, frames (s1.u.ncalls - 3) = some f ∧
        PTE_ADDR (s1.u.pt s0.newenv (PGNUM (UXSTACKTOP - PGSIZE))) = f ∧
        s1.u.pt s0.newenv (PGNUM (UXSTACKTOP - PGSIZE)) &&& 0xFFF
          = PTE_P ||| PTE_W ||| PTE_U ∧
        s1.u.pt s0.newenv (PGNUM (UXSTACKTOP - PGSIZE)) &&& PTE_COW = 0 ∧
        s1.u.pt s0.u.self (PGNUM (UXSTACKTOP - PGSIZE))
          = s0.u.pt s0.u.self (PGNUM (UXSTACKTOP - PGSIZE))) ∧
    (∀ addr ∈ fork_addrs, PGNUM addr ≠ PGNUM (UXSTACKTOP - PGSIZE)) ∧
    ((∀ i, ok i = true) → (∀ n, ∃ f, frames n = some f) →
      ∃ s1, fork lib ok frames s = SysOutcome.returned s0.newenv s1) := by
  refine ⟨?_, fork_addrs_not_xstack, fork_returns lib ok frames s s0 r0 hsph hn⟩
  intro r s1 h
  obtain ⟨r2, s2, f, hL, hf, -, hs1⟩ := fork_returned_parts lib ok frames s s0 r0 hsph hn r s1 h
  obtain ⟨hfal, hflt⟩ := hal _ f hf
  obtain ⟨hb1, hb2, hb3, -⟩ := fresh_entry_bits f hfal hflt
  have hskip := fork_loop_skips ok s0.newenv s0.forked (PGNUM (UXSTACKTOP - PGSIZE))
    (Or.inl fork_addrs_not_xstack) s0.u.self
  rw [hL] at hskip
  simp only [SysOutcome.state] at hskip
  have hself : s0.u.self ≠ s0.newenv := fun h => hne h.symm
  have hchild : s1.u.pt s0.newenv (PGNUM (UXSTACKTOP - PGSIZE))
      = f ||| (PTE_U ||| PTE_W ||| PTE_P) := by
    rw [hs1]; simp
  have hparent : s1.u.pt s0.u.self (PGNUM (UXSTACKTOP - PGSIZE))
      = s0.u.pt s0.u.self (PGNUM (UXSTACKTOP - PGSIZE)) := by
    rw [hs1]
    simp only [hself, false_and, if_false]
    rw [hskip]
    simp [Sys.forked, hself]
  refine ⟨f, ?_, ?_, ?_, ?_, hparent⟩
  · rw [hs1]
    simp only
    rw [show s2.u.ncalls + 3 - 3 = s2.u.ncalls by omega]
    exact hf
  · rw [hchild]; exact hb1
  · rw [hchild]; exact hb2
  · rw [hchild]; exact hb3

theorem fork_exception_stack_witness :
    (∀ r s1, fork plainLib allOk plainFrames (sysOf (userOnePage 0x5007))
        = SysOutcome.returned r s1 →
      ∃ f, plainFrames (s1.u.ncalls - 3) = some f ∧
        PTE_ADDR (s1.u.pt 2 (PGNUM (UXSTACKTOP - PGSIZE))) = f ∧
        s1.u.pt 2 (PGNUM (UXSTACKTOP - PGSIZE)) &&& 0xFFF = PTE_P ||| PTE_W ||| PTE_U ∧
        s1.u.pt 2 (PGNUM (UXSTACKTOP - PGSIZE)) &&& PTE_COW = 0 ∧
        s1.u.pt 1 (PGNUM (UXSTACKTOP - PGSIZE))
          = (userOnePage 0x5007).pt 1 (PGNUM (UXSTACKTOP - PGSIZE))) ∧
    (∀ addr ∈ fork_addrs, PGNUM addr ≠ PGNUM (UXSTACKTOP - PGSIZE)) ∧
    ((∀ i, allOk i = true) → (∀ n, ∃ f, plainFrames n = some f) →
      ∃ s1, fork plainLib allOk plainFrames (sysOf (userOnePage 0x5007))
        = SysOutcome.returned 2 s1) :=
  fork_exception_stack plainLib allOk plainFrames (sysOf (userOnePage 0x5007))
    (sysOf (userOnePage 0x5007)) 0 rfl (by decide) (by decide)
    (fun n f h => by
      simp only [plainFrames, Option.some.injEq] at h
      subst h
      simp only [PGSIZE, WORD]
      omega)


/-- C11, as stated, fails: the exception-stack page is not Present in the
source before `fork` (its entry is 0), and after `fork` has returned it is
Present in the new environment. -/
theorem fork_absent_page_counterexample :
    (sysOf (userOnePage 0x5007)).u.pt 1 (PGNUM (UXSTACKTOP - PGSIZE)) &&& PTE_P = 0 ∧
    ∃ s1, fork plainLib allOk plainFrames (sysOf (userOnePage 0x5007))
        = SysOutcome.returned 2 s1 ∧
      s1.u.pt 2 (PGNUM (UXSTACKTOP - PGSIZE)) &&& PTE_P ≠ 0 := by
  refine ⟨by decide, ?_⟩
  obtain ⟨s1, hs1⟩ := fork_returns plainLib allOk plainFrames (sysOf (userOnePage 0x5007))
    (sysOf (userOnePage 0x5007)) 0 rfl (by decide) (fun _ => rfl) (fun n => ⟨_, rfl⟩)
  refine ⟨s1, hs1, ?_⟩
  obtain ⟨r2, s2, f, -, hf, -, hs⟩ := fork_returned_parts plainLib allOk plainFrames
    (sysOf (userOnePage 0x5007)) (sysOf (userOnePage 0x5007)) 0 rfl (by decide) 2 s1 hs1
  have hfa : f % PGSIZE = 0 ∧ f < WORD := by
    simp only [plainFrames, Option.some.injEq] at hf
    subst hf
    simp only [PGSIZE, WORD]
    omega
  have hbits := (fresh_entry_bits f hfa.1 hfa.2).2.2.2
  have hchild : s1.u.pt 2 (PGNUM (UXSTACKTOP - PGSIZE)) = f ||| (PTE_U ||| PTE_W ||| PTE_P) := by
    rw [hs]
    have h2 : (sysOf (userOnePage 0x5007)).newenv = 2 := rfl
    simp [h2]
  rw [hchild]
  exact hbits

/-- C11, amended: a page other than the exception-stack page that is not
Present in the source before `fork` (its page-directory entry or its
page-table entry lacks Present), and whose entries `set_pgfault_handler`
leaves as they were, has the entry 0 in the new environment after `fork` has
returned, so it is not Present there; and `fork` does return when every
system call succeeds. -/
theorem fork_absent_page (lib : Lib) (ok : Nat → Bool) (frames : Nat → Option Nat)
    (s s0 : Sys) (r0 : Int) (pn : Nat)
    (hsph : lib.set_pgfault_handler s = SysOutcome.returned r0 s0)
    (hkeep : s0.u.self = s.u.self ∧ s0.uvpd (PDX (pn * PGSIZE)) = s.uvpd (PDX (pn * PGSIZE)) ∧
      s0.u.pt s0.u.self pn = s.u.pt s.u.self pn)
    (hn : 0 < s0.newenv) (hne : s0.newenv ≠ s0.u.self)
    (hx : pn ≠ PGNUM (UXSTACKTOP - PGSIZE))
    (hnp : s.uvpd (PDX (pn * PGSIZE)) &&& PTE_P = 0 ∨ s.u.pt s.u.self pn &&& PTE_P = 0) :
    (∀ r s1, fork lib ok frames s = SysOutcome.returned r s1 →
      s1.u.pt s0.newenv pn = 0 ∧ s1.u.pt s0.newenv pn &&& PTE_P = 0) ∧
    ((∀ i, ok i = true) → (∀ n, ∃ f, frames n = some f) →
      ∃ s1, fork lib ok frames s = SysOutcome.returned s0.newenv s1) := by
  refine ⟨?_, fork_returns lib ok frames s s0 r0 hsph hn⟩
  intro r s1 h
  obtain ⟨r2, s2, f, hL, -, -, hs1⟩ := fork_returned_parts lib ok frames s s0 r0 hsph hn r s1 h
  have hself : s0.u.self ≠ s0.newenv := fun h => hne h.symm
  have hforked : s0.forked.uvpd (PDX (pn * PGSIZE)) &&& PTE_P = 0 ∨
      s0.forked.u.pt s0.forked.u.self pn &&& PTE_P = 0 := by
    obtain ⟨-, hk2, hk3⟩ := hkeep
    rcases hnp with h1 | h1
    · left
      show s0.uvpd (PDX (pn * PGSIZE)) &&& PTE_P = 0
      rw [hk2]; exact h1
    · right
      have : s0.forked.u.pt s0.forked.u.self pn = s0.u.pt s0.u.self pn := by
        simp [Sys.forked, hself]
      rw [this, hk3]; exact h1
  have hskip := fork_loop_skips ok s0.newenv s0.forked pn (Or.inr hforked) s0.newenv
  rw [hL] at hskip
  simp only [SysOutcome.state] at hskip
  have hzero : s1.u.pt s0.newenv pn = 0 := by
    rw [hs1]
    simp only [hx, and_false, if_false]
    rw [hskip]
    simp [Sys.forked]
  refine ⟨hzero, ?_⟩
  rw [hzero]
  rfl

theorem fork_absent_page_witness :
    (∀ r s1, fork plainLib allOk plainFrames (sysOf (userOnePage 0x5007))
        = SysOutcome.returned r s1 →
      s1.u.pt 2 0x801 = 0 ∧ s1.u.pt 2 0x801 &&& PTE_P = 0) ∧
    ((∀ i, allOk i = true) → (∀ n, ∃ f, plainFrames n = some f) →
      ∃ s1, fork plainLib allOk plainFrames (sysOf (userOnePage 0x5007))
        = SysOutcome.returned 2 s1) :=
  fork_absent_page plainLib allOk plainFrames (sysOf (userOnePage 0x5007))
    (sysOf (userOnePage 0x5007)) 0 0x801 rfl ⟨rfl, rfl, rfl⟩ (by decide) (by decide)
    (by decide) (Or.inr (by decide))

/-! ## Replication keeps Writable and CopyOnWrite apart -/

/-- After `duppage`, every entry is the one it was or the entry `duppage`
installs for the page. -/
theorem duppage_entries (ok : Nat → Bool) (u : User) (envid : Int) (pn : Nat)
    (hpn : pn < 1048576) (hne : envid ≠ u.self) (e : Int) (p : Nat) :
    (duppage ok u envid pn).state.pt e p = u.pt e p ∨
    (duppage ok u envid pn).state.pt e p = duppage_entry (u.pt u.self pn) := by
  have hpg := PGNUM_page_va pn hpn
  have he2 : ¬ u.self = envid := fun h => hne h.symm
  unfold duppage duppage_entry
  by_cases hS : (u.pt u.self pn &&& 0xFFF) &&& PTE_SHARE ≠ 0
  · cases h1 : ok u.ncalls
    · simp [hS, sys_page_map, h1, Outcome.state]
    · by_cases hep : e = envid ∧ p = pn
      · right
        simp [hS, sys_page_map, h1, Outcome.state, page_installed, hpg, hep]
      · left
        simp [hS, sys_page_map, h1, Outcome.state, page_installed, hpg, hep]
  · cases h1 : ok u.ncalls
    · simp [hS, sys_page_map, h1, Outcome.state]
    · by_cases hep : e = envid ∧ p = pn
      · right
        obtain ⟨rfl, rfl⟩ := hep
        cases h2 : ok (u.ncalls + 1) <;>
          simp [hS, sys_page_map, h1, h2, Outcome.state, page_installed, hpg, hne]
      · by_cases hep2 : e = u.self ∧ p = pn
        · obtain ⟨rfl, rfl⟩ := hep2
          cases h2 : ok (u.ncalls + 1)
          · left
            simp [hS, sys_page_map, h1, h2, Outcome.state, page_installed, hpg, he2]
          · right
            simp [hS, sys_page_map, h1, h2, Outcome.state, page_installed, hpg, he2]
        · left
          cases h2 : ok (u.ncalls + 1) <;>
            simp [hS, sys_page_map, h1, h2, Outcome.state, page_installed, hpg, hep, hep2]

theorem duppage_perm_not_writable (p : Nat) : duppage_perm p &&& PTE_W = 0 := by
  unfold duppage_perm
  by_cases hc : p &&& PTE_W ≠ 0 ∨ p &&& PTE_COW ≠ 0
  · rw [if_pos hc]
    apply Nat.eq_of_testBit_eq; intro i
    simp only [Nat.testBit_and, Nat.testBit_or, testBit_not32, testBit_PTE_W,
      testBit_PTE_COW, testBit_PTE_SYSCALL, Nat.zero_testBit]
    by_cases h : i = 1
    · subst h; simp
    · simp [h]
  · rw [if_neg hc]
    have hw : p &&& PTE_W = 0 := by
      by_contra h
      exact hc (Or.inl h)
    rw [Nat.and_assoc, Nat.and_comm PTE_SYSCALL PTE_W, ← Nat.and_assoc, hw]
    simp

/-- A flag among the low twelve bits of a frame address or-ed with twelve-bit
permissions is the flag of the permissions. -/
theorem flag_frame_or (f p b : Nat) (hp : p < 4096) (hb : b < 4096) :
    (PTE_ADDR f ||| p) &&& b = p &&& b := by
  rw [← low12_and_flag _ b hb, low12_frame_or f p hp]

theorem wx_exclusive_duppage_entry (old : Nat) (h : wx_exclusive old) :
    wx_exclusive (duppage_entry old) := by
  unfold duppage_entry
  by_cases hS : (old &&& 0xFFF) &&& PTE_SHARE ≠ 0
  · rw [if_pos hS]
    have hlt : (old &&& 0xFFF) &&& PTE_SYSCALL < 4096 := by
      have h1 : (old &&& 0xFFF) &&& PTE_SYSCALL ≤ PTE_SYSCALL := Nat.and_le_right
      have h2 : PTE_SYSCALL = 3591 := by decide
      omega
    have hkeep : ∀ b, (b = 1 ∨ b = 11) →
        ((old &&& 0xFFF) &&& PTE_SYSCALL) &&& 2 ^ b = old &&& 2 ^ b := by
      intro b hb
      apply Nat.eq_of_testBit_eq; intro i
      simp only [Nat.testBit_and, testBit_low12, testBit_PTE_SYSCALL, Nat.testBit_two_pow]
      by_cases hbi : b = i
      · subst hbi
        rcases hb with h | h <;> subst h <;> simp
      · simp [hbi]
    intro hboth
    apply h
    rw [flag_frame_or _ _ _ hlt (by decide), flag_frame_or _ _ _ hlt (by decide)] at hboth
    have hw := hkeep 1 (Or.inl rfl)
    have hc := hkeep 11 (Or.inr rfl)
    rw [show (2 : Nat) ^ 1 = PTE_W from rfl] at hw
    rw [show (2 : Nat) ^ 11 = PTE_COW from rfl] at hc
    rw [hw, hc] at hboth
    exact hboth
  · rw [if_neg hS]
    intro hboth
    apply hboth.1
    rw [flag_frame_or _ _ _ (duppage_perm_lt _) (by decide)]
    exact duppage_perm_not_writable _


/-- The duplication loop keeps Writable and CopyOnWrite apart, over any list
of addresses below 4 GiB. -/
theorem fork_loop_exclusive (ok : Nat → Bool) (chd : Int) (addrs : List Nat) (s : Sys)
    (hlt : ∀ addr ∈ addrs, addr < WORD) (hne : chd ≠ s.u.self)
    (hsrc : ∀ p, s.u.pt s.u.self p &&& PTE_P ≠ 0 → wx_exclusive (s.u.pt s.u.self p))
    (hchd : ∀ p, wx_exclusive (s.u.pt chd p)) :
    (∀ p, (fork_loop ok chd addrs s).state.u.pt s.u.self p &&& PTE_P ≠ 0 →
      wx_exclusive ((fork_loop ok chd addrs s).state.u.pt s.u.self p)) ∧
    (∀ p, wx_exclusive ((fork_loop ok chd addrs s).state.u.pt chd p)) := by
  have hinv := fork_loop_inv ok chd
    (fun t => t.u.self = s.u.self ∧
      (∀ p, t.u.pt s.u.self p &&& PTE_P ≠ 0 → wx_exclusive (t.u.pt s.u.self p)) ∧
      (∀ p, wx_exclusive (t.u.pt chd p)))
    addrs ?_ s ⟨rfl, hsrc, hchd⟩
  · exact hinv.2
  · intro t addr hmem ⟨hself, h1, h2⟩
    rcases fork_step_state ok chd t addr with hst | ⟨-, hp, hst⟩
    · rw [hst]; exact ⟨hself, h1, h2⟩
    · have hpn : PGNUM addr < 1048576 := PGNUM_lt addr (hlt addr hmem)
      have hne2 : chd ≠ t.u.self := by rw [hself]; exact hne
      have hold : wx_exclusive (t.u.pt t.u.self (PGNUM addr)) := by
        rw [hself] at hp ⊢
        exact h1 _ hp
      have hnew := wx_exclusive_duppage_entry _ hold
      rw [hst]
      refine ⟨?_, ?_, ?_⟩
      · simp only
        rw [duppage_self, hself]
      · intro p hpres
        simp only at hpres ⊢
        rcases duppage_entries ok t.u chd (PGNUM addr) hpn hne2 s.u.self p with h | h
        · rw [h] at hpres ⊢
          exact h1 p hpres
        · rw [h]; exact hnew
      · intro p
        simp only
        rcases duppage_entries ok t.u chd (PGNUM addr) hpn hne2 chd p with h | h
        · rw [h]; exact h2 p
        · rw [h]; exact hnew

/-- C12: replication keeps Writable and CopyOnWrite apart.  If no Present page
of the source has both set before `fork` (and `set_pgfault_handler` installs
no mapping with both), then after each step of the duplication loop, that is
after every `duppage` call, and after the whole loop, no Present page of the
source and no page of the new environment has both set; the same holds in the
state in which `fork` returns. -/
theorem fork_keeps_exclusion (lib : Lib) (ok : Nat → Bool) (frames : Nat → Option Nat)
    (s s0 : Sys) (r0 : Int)
    (hsph : lib.set_pgfault_handler s = SysOutcome.returned r0 s0)
    (hkeep : ∀ p, s0.u.pt s0.u.self p = s.u.pt s.u.self p ∨
      wx_exclusive (s0.u.pt s0.u.self p))
    (hn : 0 < s0.newenv) (hne : s0.newenv ≠ s0.u.self)
    (hal : ∀ n f, frames n = some f → f % PGSIZE = 0 ∧ f < WORD)
    (hpre : ∀ p, s.u.pt s.u.self p &&& PTE_P ≠ 0 → wx_exclusive (s.u.pt s.u.self p)) :
    (∀ done, done <+: fork_addrs →
      (∀ p, (fork_loop ok s0.newenv done s0.forked).state.u.pt s0.u.self p &&& PTE_P ≠ 0 →
        wx_exclusive ((fork_loop ok s0.newenv done s0.forked).state.u.pt s0.u.self p)) ∧
      (∀ p, wx_exclusive ((fork_loop ok s0.newenv done s0.forked).state.u.pt s0.newenv p))) ∧
    (∀ r s1, fork lib ok frames s = SysOutcome.returned r s1 →
      (∀ p, s1.u.pt s0.u.self p &&& PTE_P ≠ 0 → wx_exclusive (s1.u.pt s0.u.self p)) ∧
      (∀ p, wx_exclusive (s1.u.pt s0.newenv p))) := by
  have hself : s0.u.self ≠ s0.newenv := fun h => hne h.symm
  have hsrc : ∀ p, s0.forked.u.pt s0.forked.u.self p &&& PTE_P ≠ 0 →
      wx_exclusive (s0.forked.u.pt s0.forked.u.self p) := by
    intro p
    have hf : s0.forked.u.pt s0.forked.u.self p = s0.u.pt s0.u.self p := by
      simp [Sys.forked, hself]
    rw [hf]
    intro hp
    rcases hkeep p with h | h
    · rw [h] at hp ⊢
      exact hpre p hp
    · exact h
  have hchd : ∀ p, wx_exclusive (s0.forked.u.pt s0.newenv p) := by
    intro p
    have hf : s0.forked.u.pt s0.newenv p = 0 := by simp [Sys.forked]
    rw [hf]
    intro h
    exact h.1 (by simp)
  have hloop : ∀ done, done <+: fork_addrs →
      (∀ p, (fork_loop ok s0.newenv done s0.forked).state.u.pt s0.u.self p &&& PTE_P ≠ 0 →
        wx_exclusive ((fork_loop ok s0.newenv done s0.forked).state.u.pt s0.u.self p)) ∧
      (∀ p, wx_exclusive
        ((fork_loop ok s0.newenv done s0.forked).state.u.pt s0.newenv p)) := by
    intro done hpre2
    have hlt : ∀ addr ∈ done, addr < WORD := by
      intro addr hm
      have h2 := (mem_fork_addrs addr (hpre2.subset hm)).2.1
      simp only [USTACKTOP, WORD] at h2 ⊢
      omega
    exact fork_loop_exclusive ok s0.newenv done s0.forked hlt hne hsrc hchd
  refine ⟨hloop, ?_⟩
  intro r s1 h
  obtain ⟨r2, s2, f, hL, hf, -, hs1⟩ := fork_returned_parts lib ok frames s s0 r0 hsph hn r s1 h
  obtain ⟨hfal, hflt⟩ := hal _ f hf
  obtain ⟨-, -, hcow, -⟩ := fresh_entry_bits f hfal hflt
  obtain ⟨h1, h2⟩ := hloop fork_addrs (List.prefix_refl _)
  rw [hL] at h1 h2
  simp only [SysOutcome.state] at h1 h2
  constructor
  · intro p
    have hp : s1.u.pt s0.u.self p = s2.u.pt s0.u.self p := by
      rw [hs1]; simp [hself]
    rw [hp]
    exact h1 p
  · intro p
    by_cases hx : p = PGNUM (UXSTACKTOP - PGSIZE)
    · have hp : s1.u.pt s0.newenv p = f ||| (PTE_U ||| PTE_W ||| PTE_P) := by
        rw [hs1]; simp [hx]
      rw [hp]
      intro hb
      exact hb.2 hcow
    · have hp : s1.u.pt s0.newenv p = s2.u.pt s0.newenv p := by
        rw [hs1]; simp [hx]
      rw [hp]
      exact h2 p

theorem fork_keeps_exclusion_witness :
    (∀ done, done <+: fork_addrs →
      (∀ p, (fork_loop allOk 2 done (sysOf (userOnePage 0x5007)).forked).state.u.pt 1 p
          &&& PTE_P ≠ 0 →
        wx_exclusive
          ((fork_loop allOk 2 done (sysOf (userOnePage 0x5007)).forked).state.u.pt 1 p)) ∧
      (∀ p, wx_exclusive
        ((fork_loop allOk 2 done (sysOf (userOnePage 0x5007)).forked).state.u.pt 2 p))) ∧
    (∀ r s1, fork plainLib allOk plainFrames (sysOf (userOnePage 0x5007))
        = SysOutcome.returned r s1 →
      (∀ p, s1.u.pt 1 p &&& PTE_P ≠ 0 → wx_exclusive (s1.u.pt 1 p)) ∧
      (∀ p, wx_exclusive (s1.u.pt 2 p))) :=
  fork_keeps_exclusion plainLib allOk plainFrames (sysOf (userOnePage 0x5007))
    (sysOf (userOnePage 0x5007)) 0 rfl (fun _ => Or.inl rfl) (by decide) (by decide)
    (fun n f h => by
      simp only [plainFrames, Option.some.injEq] at h
      subst h
      simp only [PGSIZE, WORD]
      omega)
    (fun p hp => by
      by_cases h : p = 0x800
      · subst h
        intro hb
        exact hb.2 (by decide)
      · exfalso
        apply hp
        simp [sysOf, userOnePage, h])


/-! ## `pgfault`: resolution -/

theorem copy_bytes_spec (old : Nat → Nat) (dst src : Nat → Nat) :
    ∀ (n : Nat) (m : Nat → Nat),
      (∀ i j, i < n → j < n → dst i = dst j → i = j) →
      (∀ j, j < n → copy_bytes old dst src n m (dst j) = old (src j)) ∧
      (∀ pa, (∀ j, j < n → pa ≠ dst j) → copy_bytes old dst src n m pa = m pa) := by
  intro n
  induction n with
  | zero =>
    intro m _
    exact ⟨fun j hj => by omega, fun pa _ => rfl⟩
  | succ n ih =>
    intro m hinj
    have hinj2 : ∀ i j, i < n → j < n → dst i = dst j → i = j :=
      fun i j hi hj => hinj i j (by omega) (by omega)
    obtain ⟨h1, h2⟩ := ih (fun pa => if pa = dst n then old (src n) else m pa) hinj2
    constructor
    · intro j hj
      rw [copy_bytes]
      by_cases hjn : j < n
      · exact h1 j hjn
      · have hje : j = n := by omega
        subst hje
        rw [h2 (dst j) (fun i hi heq => by
          have := hinj j i (by omega) (by omega) heq
          omega)]
        simp
    · intro pa hpa
      rw [copy_bytes, h2 pa (fun j hj => hpa j (by omega))]
      have hne : pa ≠ dst n := hpa n (by omega)
      simp [hne]

theorem PTE_ADDR_mod (e : Nat) : PTE_ADDR e % PGSIZE = 0 := by
  have h : PTE_ADDR e % 2 ^ 12 = PTE_ADDR e &&& (2 ^ 12 - 1) :=
    (Nat.and_pow_two_sub_one_eq_mod _ _).symm
  have h2 : PTE_ADDR e &&& (2 ^ 12 - 1) = 0 := by
    apply Nat.eq_of_testBit_eq; intro i
    simp only [PTE_ADDR, Nat.testBit_and, testBit_frameMask, Nat.testBit_two_pow_sub_one,
      Nat.zero_testBit]
    by_cases h12 : 12 ≤ i
    · have : ¬ i < 12 := by omega
      simp [this]
    · simp [h12]
  rw [h2] at h
  simpa [PGSIZE] using h

/-- Copying one page between two page-aligned virtual addresses whose pages
are mapped, the destination writable: the page of the destination frame
holds the old bytes of the source frame, and no other byte changes. -/
theorem memmove_page (s : Sys) (dst src : Nat)
    (hd : dst % PGSIZE = 0) (hs : src % PGSIZE = 0) (hdl : dst < WORD) (hsl : src < WORD)
    (hr : s.u.pt s.u.self (PGNUM src) &&& PTE_P ≠ 0)
    (hwp : s.u.pt s.u.self (PGNUM dst) &&& PTE_P ≠ 0)
    (hww : s.u.pt s.u.self (PGNUM dst) &&& PTE_W ≠ 0) :
    ∃ s2, memmove s dst src PGSIZE = some s2 ∧ s2.u = s.u ∧
      (∀ j, j < PGSIZE →
        s2.mem (PTE_ADDR (s.u.pt s.u.self (PGNUM dst)) + j)
          = s.mem (PTE_ADDR (s.u.pt s.u.self (PGNUM src)) + j)) ∧
      (∀ pa, (pa < PTE_ADDR (s.u.pt s.u.self (PGNUM dst)) ∨
          PTE_ADDR (s.u.pt s.u.self (PGNUM dst)) + PGSIZE ≤ pa) → s2.mem pa = s.mem pa) := by
  have hpgd : ∀ i, i < PGSIZE → PGNUM ((dst + i) % WORD) = PGNUM dst := by
    intro i hi
    simp only [PGNUM, PGSIZE, WORD, Nat.shiftRight_eq_div_pow] at *
    omega
  have hpgs : ∀ i, i < PGSIZE → PGNUM ((src + i) % WORD) = PGNUM src := by
    intro i hi
    simp only [PGNUM, PGSIZE, WORD, Nat.shiftRight_eq_div_pow] at *
    omega
  have hoffd : ∀ i, i < PGSIZE → (dst + i) % WORD % PGSIZE = i := by
    intro i hi
    simp only [PGSIZE, WORD] at *
    omega
  have hoffs : ∀ i, i < PGSIZE → (src + i) % WORD % PGSIZE = i := by
    intro i hi
    simp only [PGSIZE, WORD] at *
    omega
  have hall : (List.range PGSIZE).all
      (fun i => can_read s ((src + i) % WORD) && can_write s ((dst + i) % WORD)) = true := by
    rw [List.all_eq_true]
    intro i hi
    have hi2 : i < PGSIZE := List.mem_range.mp hi
    simp only [can_read, can_write, flagSet, hpgd i hi2, hpgs i hi2, Bool.and_eq_true,
      bne_iff_ne]
    exact ⟨hr, hwp, hww⟩
  have hpad : ∀ i, i < PGSIZE →
      va2pa s ((dst + i) % WORD) = PTE_ADDR (s.u.pt s.u.self (PGNUM dst)) + i := by
    intro i hi
    simp only [va2pa, hpgd i hi, hoffd i hi]
  have hpas : ∀ i, i < PGSIZE →
      va2pa s ((src + i) % WORD) = PTE_ADDR (s.u.pt s.u.self (PGNUM src)) + i := by
    intro i hi
    simp only [va2pa, hpgs i hi, hoffs i hi]
  have hinj : ∀ i j, i < PGSIZE → j < PGSIZE →
      va2pa s ((dst + i) % WORD) = va2pa s ((dst + j) % WORD) → i = j := by
    intro i j hi hj h
    rw [hpad i hi, hpad j hj] at h
    omega
  obtain ⟨h1, h2⟩ := copy_bytes_spec s.mem (fun i => va2pa s ((dst + i) % WORD))
    (fun i => va2pa s ((src + i) % WORD)) PGSIZE s.mem hinj
  obtain ⟨M, hM⟩ : ∃ M, M = copy_bytes s.mem (fun i => va2pa s ((dst + i) % WORD))
      (fun i => va2pa s ((src + i) % WORD)) PGSIZE s.mem := ⟨_, rfl⟩
  rw [← hM] at h1 h2
  refine ⟨{ s with mem := M }, ?_, rfl, ?_, ?_⟩
  · unfold memmove
    rw [if_pos hall, hM]
  · intro j hj
    have := h1 j hj
    simp only [hpad j hj, hpas j hj] at this
    exact this
  · intro pa hpa
    apply h2
    intro j hj heq
    simp only [hpad j hj] at heq
    omega


/-- The run of `pgfault` on a valid fault when the allocation, the copy, the
install and the release all succeed. -/
theorem pgfault_resolve_eq (ok : Nat → Bool) (frames : Nat → Option Nat) (s : Sys)
    (utf : UTrapframe) (f : Nat) (sB : Sys)
    (hv : ¬ (utf.utf_err &&& FEC_WR = 0 ∨
      s.u.pt s.u.self (PGNUM utf.utf_fault_va) &&& PTE_COW = 0))
    (hf : frames s.u.ncalls = some f) (hok0 : ok s.u.ncalls = true)
    (hm : memmove (s.allocated s.u.self PFTEMP (PTE_P ||| PTE_W ||| PTE_U) f) PFTEMP
      (ROUNDDOWN utf.utf_fault_va PGSIZE) PGSIZE = some sB)
    (hok1 : ok sB.u.ncalls = true) (hok2 : ok (sB.u.ncalls + 1) = true) :
    pgfault ok frames s utf
      = SysOutcome.returned 0
          (Sys.unmapped
            { sB with u := (page_installed sB.u s.u.self PFTEMP s.u.self
                (ROUNDDOWN utf.utf_fault_va PGSIZE) (PTE_P ||| PTE_W ||| PTE_U)) }
            s.u.self PFTEMP) := by
  unfold pgfault
  simp only [if_neg hv, sys_page_alloc, hf, hok0, if_true]
  rw [if_neg (by decide), hm]
  have hpm : sB.page_map ok s.u.self PFTEMP s.u.self (ROUNDDOWN utf.utf_fault_va PGSIZE)
      (PTE_P ||| PTE_W ||| PTE_U)
      = (0, { sB with u := (page_installed sB.u s.u.self PFTEMP s.u.self
          (ROUNDDOWN utf.utf_fault_va PGSIZE) (PTE_P ||| PTE_W ||| PTE_U)) }) := by
    simp [Sys.page_map, sys_page_map, hok1]
  simp only [hpm]
  rw [if_neg (by decide)]
  have hun : sys_page_unmap ok
      { sB with u := (page_installed sB.u s.u.self PFTEMP s.u.self
          (ROUNDDOWN utf.utf_fault_va PGSIZE) (PTE_P ||| PTE_W ||| PTE_U)) } s.u.self PFTEMP
      = (0, Sys.unmapped
          { sB with u := (page_installed sB.u s.u.self PFTEMP s.u.self
            (ROUNDDOWN utf.utf_fault_va PGSIZE) (PTE_P ||| PTE_W ||| PTE_U)) }
          s.u.self PFTEMP) := by
    have hn : (page_installed sB.u s.u.self PFTEMP s.u.self
        (ROUNDDOWN utf.utf_fault_va PGSIZE) (PTE_P ||| PTE_W ||| PTE_U)).ncalls
        = sB.u.ncalls + 1 := rfl
    simp [sys_page_unmap, hn, hok2]
  simp only [hun]
  rw [if_neg (by decide)]

theorem rounddown_facts (va : Nat) (hva : va < WORD) :
    ROUNDDOWN va PGSIZE % PGSIZE = 0 ∧ ROUNDDOWN va PGSIZE < WORD := by
  simp only [ROUNDDOWN, PGSIZE, WORD] at *
  omega

theorem user_perm_comm : PTE_P ||| PTE_W ||| PTE_U = PTE_U ||| PTE_W ||| PTE_P := by decide

/-- The resolution of a copy-on-write fault on a page other than the page of
`PFTEMP`, all calls succeeding: the state `pgfault` returns in. -/
theorem pgfault_resolves (ok : Nat → Bool) (frames : Nat → Option Nat) (s : Sys)
    (utf : UTrapframe) (f : Nat)
    (hw : utf.utf_err &&& FEC_WR ≠ 0)
    (hc : s.u.pt s.u.self (PGNUM utf.utf_fault_va) &&& PTE_COW ≠ 0)
    (hP : s.u.pt s.u.self (PGNUM utf.utf_fault_va) &&& PTE_P ≠ 0)
    (hva : utf.utf_fault_va < WORD)
    (hV : PGNUM utf.utf_fault_va ≠ PGNUM PFTEMP)
    (hf : frames s.u.ncalls = some f) (hfal : f % PGSIZE = 0) (hflt : f < WORD)
    (hok0 : ok s.u.ncalls = true) (hok1 : ok (s.u.ncalls + 1) = true)
    (hok2 : ok (s.u.ncalls + 2) = true) :
    ∃ s1, pgfault ok frames s utf = SysOutcome.returned 0 s1 ∧
      s1.u.self = s.u.self ∧
      s1.u.pt s.u.self (PGNUM utf.utf_fault_va) = f ||| (PTE_U ||| PTE_W ||| PTE_P) ∧
      s1.u.pt s.u.self (PGNUM PFTEMP) = 0 ∧
      (∀ j, j < PGSIZE →
        s1.mem (f + j) = s.mem (PTE_ADDR (s.u.pt s.u.self (PGNUM utf.utf_fault_va)) + j)) ∧
      (∀ pa, (pa < f ∨ f + PGSIZE ≤ pa) → s1.mem pa = s.mem pa) := by
  have hv : ¬ (utf.utf_err &&& FEC_WR = 0 ∨
      s.u.pt s.u.self (PGNUM utf.utf_fault_va) &&& PTE_COW = 0) := by
    rintro (h | h)
    · exact hw h
    · exact hc h
  obtain ⟨hra, hrl⟩ := rounddown_facts utf.utf_fault_va hva
  obtain ⟨hb1, hb2, -, hb4⟩ := fresh_entry_bits f hfal hflt
  have hpgr : PGNUM (ROUNDDOWN utf.utf_fault_va PGSIZE) = PGNUM utf.utf_fault_va :=
    PGNUM_ROUNDDOWN _
  have hAtemp : (s.allocated s.u.self PFTEMP (PTE_P ||| PTE_W ||| PTE_U) f).u.pt s.u.self
      (PGNUM PFTEMP) = f ||| (PTE_U ||| PTE_W ||| PTE_P) := by
    simp [Sys.allocated, user_perm_comm]
  have hAold : (s.allocated s.u.self PFTEMP (PTE_P ||| PTE_W ||| PTE_U) f).u.pt s.u.self
      (PGNUM (ROUNDDOWN utf.utf_fault_va PGSIZE))
      = s.u.pt s.u.self (PGNUM utf.utf_fault_va) := by
    rw [hpgr]
    simp [Sys.allocated, hV]
  have hAself : (s.allocated s.u.self PFTEMP (PTE_P ||| PTE_W ||| PTE_U) f).u.self
      = s.u.self := rfl
  have hWbit : (f ||| (PTE_U ||| PTE_W ||| PTE_P)) &&& PTE_W ≠ 0 := by
    rw [← low12_and_flag _ _ (by decide), hb2]
    decide
  obtain ⟨sB, hm, hu, hcopy, hrest⟩ :=
    memmove_page (s.allocated s.u.self PFTEMP (PTE_P ||| PTE_W ||| PTE_U) f) PFTEMP
      (ROUNDDOWN utf.utf_fault_va PGSIZE) (by decide) hra (by decide) hrl
      (by rw [hAself, hAold]; exact hP)
      (by rw [hAself, hAtemp]; exact hb4)
      (by rw [hAself, hAtemp]; exact hWbit)
  rw [hAself, hAtemp, hAold, hb1] at hcopy
  rw [hAself, hAtemp, hb1] at hrest
  have hn : sB.u.ncalls = s.u.ncalls + 1 := by rw [hu]; rfl
  have hBtemp : sB.u.pt s.u.self (PGNUM PFTEMP) = f ||| (PTE_U ||| PTE_W ||| PTE_P) := by
    rw [hu]; exact hAtemp
  refine ⟨_, pgfault_resolve_eq ok frames s utf f sB hv hf hok0 hm (by rw [hn]; exact hok1)
    (by rw [hn]; exact hok2), ?_, ?_, ?_, ?_, ?_⟩
  · simp only [Sys.unmapped, page_installed]
    rw [hu, hAself]
  · simp only [Sys.unmapped, page_installed, hV, and_false, if_false, hpgr, and_self,
      if_true]
    rw [hBtemp, hb1, user_perm_comm]
  · simp [Sys.unmapped]
  · intro j hj
    exact hcopy j hj
  · intro pa hpa
    exact hrest pa hpa

/-- C15, as stated, fails: for a write fault at 0x7ff004 on the copy-on-write
page of `PFTEMP` itself, with all three system calls succeeding, `pgfault`
returns with the faulting page unmapped, not mapped to a fresh frame. -/
theorem pgfault_resolution_counterexample :
    (⟨0x7ff004, 2⟩ : UTrapframe).utf_err &&& FEC_WR ≠ 0 ∧
    (sysOf (userPageAt 0x7ff 0x5805)).u.pt 1 (PGNUM 0x7ff004) &&& PTE_COW ≠ 0 ∧
    (sysOf (userPageAt 0x7ff 0x5805)).u.pt 1 (PGNUM 0x7ff004) &&& PTE_P ≠ 0 ∧
    ∃ s1, pgfault allOk plainFrames (sysOf (userPageAt 0x7ff 0x5805)) ⟨0x7ff004, 2⟩
        = SysOutcome.returned 0 s1 ∧
      s1.u.pt 1 (PGNUM 0x7ff004) = 0 := by
  refine ⟨by decide, by decide, by decide, ?_⟩
  obtain ⟨sB, hm, hu, -, -⟩ :=
    memmove_page ((sysOf (userPageAt 0x7ff 0x5805)).allocated 1 PFTEMP
      (PTE_P ||| PTE_W ||| PTE_U) 0x9000) PFTEMP (ROUNDDOWN 0x7ff004 PGSIZE)
      (by decide) (by decide) (by decide) (by decide) (by decide) (by decide) (by decide)
  refine ⟨_, pgfault_resolve_eq allOk plainFrames (sysOf (userPageAt 0x7ff 0x5805))
    ⟨0x7ff004, 2⟩ 0x9000 sB (by decide) (by decide) rfl hm rfl rfl, ?_⟩
  have hpg : PGNUM 0x7ff004 = PGNUM PFTEMP := by decide
  simp [Sys.unmapped, hpg, sysOf, userPageAt]


/-- C15, amended: for a write fault at any address inside a Present
copy-on-write page `V` other than the page of `PFTEMP`, when the three
system calls succeed and the allocator hands out a page-aligned frame `f`
different from the old frame, `pgfault` returns with `V` mapped to `f` with
permissions exactly Present, Writable, User (CopyOnWrite clear), the
`PGSIZE` bytes of `f` equal to the old bytes of the old frame, the old
frame's bytes as they were, and `PFTEMP` unmapped; a further fault on `V`
then fails the validation and panics. -/
theorem pgfault_resolution (ok : Nat → Bool) (frames : Nat → Option Nat) (s : Sys)
    (utf : UTrapframe) (f : Nat)
    (hw : utf.utf_err &&& FEC_WR ≠ 0)
    (hc : s.u.pt s.u.self (PGNUM utf.utf_fault_va) &&& PTE_COW ≠ 0)
    (hP : s.u.pt s.u.self (PGNUM utf.utf_fault_va) &&& PTE_P ≠ 0)
    (hva : utf.utf_fault_va < WORD)
    (hV : PGNUM utf.utf_fault_va ≠ PGNUM PFTEMP)
    (hf : frames s.u.ncalls = some f) (hfal : f % PGSIZE = 0) (hflt : f < WORD)
    (hfresh : f ≠ PTE_ADDR (s.u.pt s.u.self (PGNUM utf.utf_fault_va)))
    (hok0 : ok s.u.ncalls = true) (hok1 : ok (s.u.ncalls + 1) = true)
    (hok2 : ok (s.u.ncalls + 2) = true) :
    ∃ s1, pgfault ok frames s utf = SysOutcome.returned 0 s1 ∧
      PTE_ADDR (s1.u.pt s.u.self (PGNUM utf.utf_fault_va)) = f ∧
      PTE_ADDR (s1.u.pt s.u.self (PGNUM utf.utf_fault_va))
        ≠ PTE_ADDR (s.u.pt s.u.self (PGNUM utf.utf_fault_va)) ∧
      s1.u.pt s.u.self (PGNUM utf.utf_fault_va) &&& 0xFFF = PTE_P ||| PTE_W ||| PTE_U ∧
      s1.u.pt s.u.self (PGNUM utf.utf_fault_va) &&& PTE_COW = 0 ∧
      (∀ j, j < PGSIZE →
        s1.mem (f + j) = s.mem (PTE_ADDR (s.u.pt s.u.self (PGNUM utf.utf_fault_va)) + j)) ∧
      (∀ j, j < PGSIZE →
        s1.mem (PTE_ADDR (s.u.pt s.u.self (PGNUM utf.utf_fault_va)) + j)
          = s.mem (PTE_ADDR (s.u.pt s.u.self (PGNUM utf.utf_fault_va)) + j)) ∧
      s1.u.pt s.u.self (PGNUM PFTEMP) = 0 ∧
      (∀ utf2 : UTrapframe, PGNUM utf2.utf_fault_va = PGNUM utf.utf_fault_va →
        pgfault ok frames s1 utf2 = SysOutcome.panicked s1) := by
  obtain ⟨s1, hret, hself, hentry, htemp, hcopy, hrest⟩ :=
    pgfault_resolves ok frames s utf f hw hc hP hva hV hf hfal hflt hok0 hok1 hok2
  obtain ⟨hb1, hb2, hb3, -⟩ := fresh_entry_bits f hfal hflt
  have hold := PTE_ADDR_mod (s.u.pt s.u.self (PGNUM utf.utf_fault_va))
  refine ⟨s1, hret, ?_, ?_, ?_, ?_, hcopy, ?_, htemp, ?_⟩
  · rw [hentry]; exact hb1
  · rw [hentry, hb1]; exact hfresh
  · rw [hentry]; exact hb2
  · rw [hentry]; exact hb3
  · intro j hj
    apply hrest
    simp only [PGSIZE] at hfal hold hj ⊢
    omega
  · intro utf2 h2
    have hnc : s1.u.pt s1.u.self (PGNUM utf2.utf_fault_va) &&& PTE_COW = 0 := by
      rw [hself, h2, hentry]; exact hb3
    unfold pgfault
    simp only [if_pos (Or.inr hnc : utf2.utf_err &&& FEC_WR = 0 ∨
      s1.u.pt s1.u.self (PGNUM utf2.utf_fault_va) &&& PTE_COW = 0)]

theorem pgfault_resolution_witness :
    ∃ s1, pgfault allOk plainFrames (sysOf (userOnePage 0x5805)) ⟨0x800abc, 2⟩
        = SysOutcome.returned 0 s1 ∧
      PTE_ADDR (s1.u.pt 1 (PGNUM 0x800abc)) = 0x9000 ∧
      PTE_ADDR (s1.u.pt 1 (PGNUM 0x800abc)) ≠ PTE_ADDR 0x5805 ∧
      s1.u.pt 1 (PGNUM 0x800abc) &&& 0xFFF = PTE_P ||| PTE_W ||| PTE_U ∧
      s1.u.pt 1 (PGNUM 0x800abc) &&& PTE_COW = 0 ∧
      (∀ j, j < PGSIZE →
        s1.mem (0x9000 + j) = (sysOf (userOnePage 0x5805)).mem (PTE_ADDR 0x5805 + j)) ∧
      (∀ j, j < PGSIZE →
        s1.mem (PTE_ADDR 0x5805 + j)
          = (sysOf (userOnePage 0x5805)).mem (PTE_ADDR 0x5805 + j)) ∧
      s1.u.pt 1 (PGNUM PFTEMP) = 0 ∧
      (∀ utf2 : UTrapframe, PGNUM utf2.utf_fault_va = PGNUM 0x800abc →
        pgfault allOk plainFrames s1 utf2 = SysOutcome.panicked s1) :=
  pgfault_resolution allOk plainFrames (sysOf (userOnePage 0x5805)) ⟨0x800abc, 2⟩ 0x9000
    (by decide) (by decide) (by decide) (by decide) (by decide) (by decide) (by decide)
    (by decide) (by decide) rfl rfl rfl

end JOS
